import Mathlib

/-! Int64RadixSort: host-side orchestration of GPU prefix sums and radix sorts

Shallow embedding of the host code of `GPUPrefixSumsD3D12` and `GPUSortingD3D12`.
Unsigned 32-bit values are natural numbers, reduced modulo `2 ^ 32` wherever the
source computes in `uint32_t`.  A D3D12 command list is a list of recorded commands.
The kernels, whose shaders are not among the sources, enter through the contracts the
specification gives for them. -/

namespace Int64RadixSort

/-- Wrap a natural number to an unsigned 32-bit value. -/
def u32 (n : Nat) : Nat := n % 2 ^ 32

/-- Subtraction of `uint32_t` values (wraps on underflow). -/
def sub32 (a b : Nat) : Nat := (a + 2 ^ 32 - b % 2 ^ 32) % 2 ^ 32

/-! ## RTSKernels.h -/

namespace RTSKernels

/-- Constants that `RTSKernels.h` inherits from `ComputeKernelBase` (declared in
`ComputeKernelBase.h`, which is not part of the sources at hand). -/
structure KernelConsts where
  k_maxDim : Nat
  k_isNotPartialBitFlag : Nat
  k_isPartialBitFlag : Nat
deriving DecidableEq, Repr

/-- Calls recorded on an `ID3D12GraphicsCommandList` by the RTS kernels. -/
inductive Cmd where
  | SetPipelineState (kernel : String)
  | SetComputeRoot32BitConstants (rootIndex : Nat) (values : List Nat)
  | SetComputeRootUnorderedAccessView (rootIndex : Nat) (address : Nat)
  | Dispatch (x y z : Nat)
deriving DecidableEq, Repr

/-- `Reduce::Dispatch` of `RTSKernels.h`. -/
def Reduce.Dispatch (c : KernelConsts) (cmdList : List Cmd)
    (scanInBuffer threadBlockReductionBuffer vectorizedSize threadBlocks : Nat) : List Cmd :=
  let fullBlocks := threadBlocks / c.k_maxDim
  let cmdList1 :=
    if fullBlocks ≠ 0 then
      cmdList ++
        [Cmd.SetPipelineState "Reduce",
         Cmd.SetComputeRoot32BitConstants 0
           [vectorizedSize, threadBlocks, c.k_isNotPartialBitFlag, 0],
         Cmd.SetComputeRootUnorderedAccessView 1 scanInBuffer,
         Cmd.SetComputeRootUnorderedAccessView 2 threadBlockReductionBuffer,
         Cmd.Dispatch c.k_maxDim fullBlocks 1]
    else cmdList
  let partialBlocks := sub32 threadBlocks (u32 (fullBlocks * c.k_maxDim))
  if partialBlocks ≠ 0 then
    cmdList1 ++
      [Cmd.SetPipelineState "Reduce",
       Cmd.SetComputeRoot32BitConstants 0
         [vectorizedSize, threadBlocks, c.k_isPartialBitFlag, fullBlocks],
       Cmd.SetComputeRootUnorderedAccessView 1 scanInBuffer,
       Cmd.SetComputeRootUnorderedAccessView 2 threadBlockReductionBuffer,
       Cmd.Dispatch partialBlocks 1 1]
  else cmdList1

/-- `Scan::Dispatch` of `RTSKernels.h`: always one group. -/
def Scan.Dispatch (cmdList : List Cmd)
    (threadBlockReductionBuffer threadBlocks : Nat) : List Cmd :=
  cmdList ++
    [Cmd.SetPipelineState "Scan",
     Cmd.SetComputeRoot32BitConstants 0 [0, threadBlocks, 0, 0],
     Cmd.SetComputeRootUnorderedAccessView 1 threadBlockReductionBuffer,
     Cmd.Dispatch 1 1 1]

/-- `PropagateInclusive::Dispatch` of `RTSKernels.h`. -/
def PropagateInclusive.Dispatch (c : KernelConsts) (cmdList : List Cmd)
    (scanInBuffer scanOutBuffer threadBlockReductionBuffer vectorizedSize threadBlocks : Nat) :
    List Cmd :=
  let fullBlocks := threadBlocks / c.k_maxDim
  let cmdList1 :=
    if fullBlocks ≠ 0 then
      cmdList ++
        [Cmd.SetPipelineState "PropagateInclusive",
         Cmd.SetComputeRoot32BitConstants 0
           [vectorizedSize, threadBlocks, c.k_isNotPartialBitFlag, 0],
         Cmd.SetComputeRootUnorderedAccessView 1 scanInBuffer,
         Cmd.SetComputeRootUnorderedAccessView 2 scanOutBuffer,
         Cmd.SetComputeRootUnorderedAccessView 3 threadBlockReductionBuffer,
         Cmd.Dispatch c.k_maxDim fullBlocks 1]
    else cmdList
  let partialBlocks := sub32 threadBlocks (u32 (fullBlocks * c.k_maxDim))
  if partialBlocks ≠ 0 then
    cmdList1 ++
      [Cmd.SetPipelineState "PropagateInclusive",
       Cmd.SetComputeRoot32BitConstants 0
         [vectorizedSize, threadBlocks, c.k_isPartialBitFlag, fullBlocks],
       Cmd.SetComputeRootUnorderedAccessView 1 scanInBuffer,
       Cmd.SetComputeRootUnorderedAccessView 2 scanOutBuffer,
       Cmd.SetComputeRootUnorderedAccessView 3 threadBlockReductionBuffer,
       Cmd.Dispatch partialBlocks 1 1]
  else cmdList1

/-- `PropagateExclusive::Dispatch` of `RTSKernels.h`. -/
def PropagateExclusive.Dispatch (c : KernelConsts) (cmdList : List Cmd)
    (scanInBuffer scanOutBuffer threadBlockReductionBuffer vectorizedSize threadBlocks : Nat) :
    List Cmd :=
  let fullBlocks := threadBlocks / c.k_maxDim
  let cmdList1 :=
    if fullBlocks ≠ 0 then
      cmdList ++
        [Cmd.SetPipelineState "PropagateExclusive",
         Cmd.SetComputeRoot32BitConstants 0
           [vectorizedSize, threadBlocks, c.k_isNotPartialBitFlag, 0],
         Cmd.SetComputeRootUnorderedAccessView 1 scanInBuffer,
         Cmd.SetComputeRootUnorderedAccessView 2 scanOutBuffer,
         Cmd.SetComputeRootUnorderedAccessView 3 threadBlockReductionBuffer,
         Cmd.Dispatch c.k_maxDim fullBlocks 1]
    else cmdList
  let partialBlocks := sub32 threadBlocks (u32 (fullBlocks * c.k_maxDim))
  if partialBlocks ≠ 0 then
    cmdList1 ++
      [Cmd.SetPipelineState "PropagateExclusive",
       Cmd.SetComputeRoot32BitConstants 0
         [vectorizedSize, threadBlocks, c.k_isPartialBitFlag, fullBlocks],
       Cmd.SetComputeRootUnorderedAccessView 1 scanInBuffer,
       Cmd.SetComputeRootUnorderedAccessView 2 scanOutBuffer,
       Cmd.SetComputeRootUnorderedAccessView 3 threadBlockReductionBuffer,
       Cmd.Dispatch partialBlocks 1 1]
  else cmdList1

/-- A launch as the device sees it: the group counts of one `Dispatch` call together
with the root constants bound when it was recorded. -/
structure Launch where
  constants : List Nat
  x : Nat
  y : Nat
  z : Nat
deriving DecidableEq, Repr

/-- Replay a command list, pairing every `Dispatch` with the root constants last set. -/
def launchesFrom : List Nat → List Cmd → List Launch
  | _, [] => []
  | _, Cmd.SetComputeRoot32BitConstants _ vals :: rest => launchesFrom vals rest
  | cur, Cmd.Dispatch x y z :: rest => ⟨cur, x, y, z⟩ :: launchesFrom cur rest
  | cur, _ :: rest => launchesFrom cur rest

/-- The root constants in force after a command list has been recorded. -/
def boundConstants : List Nat → List Cmd → List Nat
  | cur, [] => cur
  | _, Cmd.SetComputeRoot32BitConstants _ vals :: rest => boundConstants vals rest
  | cur, _ :: rest => boundConstants cur rest

/-- The launches of a command list. -/
def launches (cmds : List Cmd) : List Launch := launchesFrom [] cmds

/-- The group counts `(x, y, z)` of every dispatch of a command list, in order. -/
def shapes (cmds : List Cmd) : List (Nat × Nat × Nat) :=
  (launches cmds).map (fun l => (l.x, l.y, l.z))

/-- Group identifiers `(x, y)` started by a launch of `x * y * z` groups. -/
def Launch.groups (l : Launch) : List (Nat × Nat) :=
  (List.range l.z).flatMap fun _ =>
    (List.range l.y).flatMap fun gy => (List.range l.x).map fun gx => (gx, gy)

/-- Modelled from the spec: the logical partition index a group derives from its
identifier and the tiling flag (the shader computing it is not among the sources).
A group `(x, y)` of the full dispatch has index `x + y * k_maxDim`; a group `x` of
the partial dispatch has index `x + fullBlocks * k_maxDim`, where `fullBlocks` is
the fourth root constant. -/
def partitionIndex (c : KernelConsts) (constants : List Nat) (g : Nat × Nat) : Nat :=
  if constants.getD 2 0 = c.k_isPartialBitFlag then
    g.1 + constants.getD 3 0 * c.k_maxDim
  else
    g.1 + g.2 * c.k_maxDim

/-- Logical partition indices of all groups started by a command list, in launch order. -/
def launchedIndices (c : KernelConsts) (cmds : List Cmd) : List Nat :=
  (launches cmds).flatMap fun l => l.groups.map (partitionIndex c l.constants)

/-- The launches one call of the tiled `Dispatch` body records: the full tile when
`threadBlocks / k_maxDim` is non-zero, then the tail when the remainder is non-zero. -/
def tiledLaunches (c : KernelConsts) (vectorizedSize threadBlocks : Nat) : List Launch :=
  (if threadBlocks / c.k_maxDim ≠ 0 then
    [⟨[vectorizedSize, threadBlocks, c.k_isNotPartialBitFlag, 0],
      c.k_maxDim, threadBlocks / c.k_maxDim, 1⟩]
   else []) ++
  (if sub32 threadBlocks (u32 (threadBlocks / c.k_maxDim * c.k_maxDim)) ≠ 0 then
    [⟨[vectorizedSize, threadBlocks, c.k_isPartialBitFlag, threadBlocks / c.k_maxDim],
      sub32 threadBlocks (u32 (threadBlocks / c.k_maxDim * c.k_maxDim)), 1, 1⟩]
   else [])

/-- Number of groups started by a command list: the sum of `x * y * z` over its dispatches. -/
def groupCount (cmds : List Cmd) : Nat :=
  ((launches cmds).map fun l => l.x * l.y * l.z).sum

/-- Shapes the tiled dispatch is expected to issue for `threadBlocks` groups: the full tile
`(k_maxDim, threadBlocks / k_maxDim, 1)` when `threadBlocks ≥ k_maxDim`, then the tail
`(threadBlocks mod k_maxDim, 1, 1)` when that remainder is non-zero. -/
def tiledShapes (k_maxDim threadBlocks : Nat) : List (Nat × Nat × Nat) :=
  (if k_maxDim ≤ threadBlocks then [(k_maxDim, threadBlocks / k_maxDim, 1)] else []) ++
  (if threadBlocks % k_maxDim ≠ 0 then [(threadBlocks % k_maxDim, 1, 1)] else [])

end RTSKernels

/-! ## GPUSortBase.h, DeviceRadixSort.cpp, OneSweep.cpp -/

namespace GPUSorting

/-- Sorting mode of an engine (`GPUSorting::MODE`). -/
inductive MODE where
  | MODE_KEYS_ONLY
  | MODE_PAIRS
deriving DecidableEq, Repr

/-- Sorting order of an engine (`GPUSorting::ORDER`). -/
inductive ORDER where
  | ORDER_ASCENDING
  | ORDER_DESCENDING
deriving DecidableEq, Repr

/-- Key type of an engine (`GPUSorting::KEY_TYPE`). -/
inductive KEY_TYPE where
  | KEY_UINT32
  | KEY_INT32
  | KEY_FLOAT32
deriving DecidableEq, Repr

/-- Payload type of an engine (`GPUSorting::PAYLOAD_TYPE`). -/
inductive PAYLOAD_TYPE where
  | PAYLOAD_UINT32
  | PAYLOAD_INT32
  | PAYLOAD_FLOAT32
deriving DecidableEq, Repr

/-- Entropy presets of the generated test input (`GPUSorting::ENTROPY_PRESET`); the timing
harness looks them up in a table of five entries. -/
inductive ENTROPY_PRESET where
  | ENTROPY_PRESET_1
  | ENTROPY_PRESET_2
  | ENTROPY_PRESET_3
  | ENTROPY_PRESET_4
  | ENTROPY_PRESET_5
deriving DecidableEq, Repr

/-- The fields of `GPUSorting::GPUSortingConfig` in the order the constructors of
`GPUSortBase` initialise them. -/
structure GPUSortingConfig where
  sortingMode : MODE
  sortingOrder : ORDER
  sortingKeyType : KEY_TYPE
  sortingPayloadType : PAYLOAD_TYPE
deriving DecidableEq, Repr

/-- The fields of `GPUSorting::TuningParameters` that `GPUSortBase` reads. -/
structure TuningParameters where
  shouldLockWavesTo32 : Bool
  keysPerThread : Nat
  threadsPerThreadblock : Nat
  partitionSize : Nat
  totalSharedMemory : Nat
deriving DecidableEq, Repr

end GPUSorting

open GPUSorting

/-- A buffer created by `CreateBuffer`: its GPU virtual address and its size in bytes. -/
structure Resource where
  address : Nat
  sizeBytes : Nat
deriving DecidableEq, Repr

/-- What the sorting engines record on their command list: one entry per call of a
kernel wrapper's `Dispatch`, per `UAVBarrierSingle` and per `CopyBufferRegion`. -/
inductive SortCmd where
  | InitDeviceRadixSort (globalHist : Nat)
  | Upsweep (sort globalHist passHist numKeys threadBlocks radixShift : Nat)
  | Scan (passHist threadBlocks : Nat)
  | Downsweep (sort sortPayload alt altPayload globalHist passHist
      numKeys threadBlocks radixShift : Nat)
  | InitScanTestValues (passHist size : Nat)
  | InitSortInput (sort sortPayload numKeys : Nat) (entropyPreset : ENTROPY_PRESET) (seed : Nat)
  | ClearErrorCount (errorCount : Nat)
  | Validate (sort sortPayload errorCount numKeys : Nat)
  | UAVBarrier (resource : Nat)
  | ReadbackPreBarrier (resource : Nat)
  | ReadbackPostBarrier (resource : Nat)
  | CopyBufferRegion (dst dstOffset src srcOffset numBytes : Nat)
deriving DecidableEq, Repr

/-- The arguments a sorting engine hands to the constructor of its base class:
`sortName`, `radixPasses`, `radix` and `maxReadBack`. -/
structure BaseArgs where
  sortName : String
  radixPasses : Nat
  radix : Nat
  maxReadBack : Nat
deriving DecidableEq, Repr

/-- State of a `GPUSortBase` object, as far as the host code reads or writes it.
`allocated` counts the buffers created so far and stands for the device allocator. -/
structure GPUSortBase where
  k_sortName : String
  k_radixPasses : Nat
  k_radix : Nat
  k_maxReadBack : Nat
  k_maxDispatchDimension : Nat
  k_sortingConfig : GPUSortingConfig
  k_tuningParameters : TuningParameters
  m_numKeys : Nat
  m_partitions : Nat
  m_cmdList : List SortCmd
  m_sortBuffer : Option Resource
  m_sortPayloadBuffer : Option Resource
  m_altBuffer : Option Resource
  m_altPayloadBuffer : Option Resource
  m_errorCountBuffer : Option Resource
  m_readBackBuffer : Option Resource
  allocated : Nat
deriving DecidableEq, Repr

namespace GPUSortBase

/-- The constructor of `GPUSortBase` for an explicit sorting configuration: the member
initialisers of the class and of the constructor. -/
def construct (config : GPUSortingConfig) (args : BaseArgs) (tuningParams : TuningParameters) :
    GPUSortBase :=
  { k_sortName := args.sortName
    k_radixPasses := args.radixPasses
    k_radix := args.radix
    k_maxReadBack := args.maxReadBack
    k_maxDispatchDimension := 65535
    k_sortingConfig := config
    k_tuningParameters := tuningParams
    m_numKeys := 0
    m_partitions := 0
    m_cmdList := []
    m_sortBuffer := none
    m_sortPayloadBuffer := none
    m_altBuffer := none
    m_altPayloadBuffer := none
    m_errorCountBuffer := none
    m_readBackBuffer := none
    allocated := 0 }

/-- The keys-only constructor: mode `MODE_KEYS_ONLY`, payload type `PAYLOAD_UINT32`. -/
def constructKeysOnly (sortingOrder : ORDER) (keyType : KEY_TYPE) (args : BaseArgs)
    (tuningParams : TuningParameters) : GPUSortBase :=
  construct ⟨MODE.MODE_KEYS_ONLY, sortingOrder, keyType, PAYLOAD_TYPE.PAYLOAD_UINT32⟩
    args tuningParams

/-- The pairs constructor: mode `MODE_PAIRS` with the given payload type. -/
def constructPairs (sortingOrder : ORDER) (keyType : KEY_TYPE) (payloadType : PAYLOAD_TYPE)
    (args : BaseArgs) (tuningParams : TuningParameters) : GPUSortBase :=
  construct ⟨MODE.MODE_PAIRS, sortingOrder, keyType, payloadType⟩ args tuningParams

/-- `GPUSortBase::divRoundUp`: `(x + y - 1) / y` evaluated in `uint32_t`.  The source
divides without a check: for `y = 0` the C++ division is undefined and traps, so the value
`0` found here for `y = 0` stands for no behaviour of the program, and what is stated about
a quotient assumes `0 < y`. -/
def divRoundUp (x y : Nat) : Nat :=
  sub32 (u32 (x + y)) 1 / y

end GPUSortBase

/-- State of a `DeviceRadixSort` object: the base class and the two histogram buffers. -/
structure DeviceRadixSort extends GPUSortBase where
  m_globalHistBuffer : Option Resource
  m_passHistBuffer : Option Resource
deriving DecidableEq, Repr

namespace DeviceRadixSort

/-- The constants both constructors of `DeviceRadixSort` pass to `GPUSortBase`. -/
def baseArgs : BaseArgs := ⟨"DeviceRadixSort ", 4, 256, 1 <<< 13⟩

/-- `CreateBuffer`: a fresh resource of the requested size. -/
def CreateBuffer (allocated sizeBytes : Nat) : Resource × Nat :=
  (⟨allocated, sizeBytes⟩, allocated + 1)

/-- `DeviceRadixSort::InitStaticBuffers`. -/
def InitStaticBuffers (e : DeviceRadixSort) : DeviceRadixSort :=
  let (globalHist, n1) := CreateBuffer e.allocated (u32 (e.k_radix * e.k_radixPasses) * 4)
  let (errorCount, n2) := CreateBuffer n1 (1 * 4)
  let (readBack, n3) := CreateBuffer n2 (e.k_maxReadBack * 4)
  { e with
    m_globalHistBuffer := some globalHist
    m_errorCountBuffer := some errorCount
    m_readBackBuffer := some readBack
    allocated := n3 }

/-- The keys-only constructor of `DeviceRadixSort`; the tuning parameters are the ones
`Tuner::GetTuningParameters` returns for the device. -/
def constructKeysOnly (sortingOrder : ORDER) (keyType : KEY_TYPE)
    (tuningParams : TuningParameters) : DeviceRadixSort :=
  InitStaticBuffers
    { toGPUSortBase := GPUSortBase.constructKeysOnly sortingOrder keyType baseArgs tuningParams
      m_globalHistBuffer := none
      m_passHistBuffer := none }

/-- The pairs constructor of `DeviceRadixSort`. -/
def constructPairs (sortingOrder : ORDER) (keyType : KEY_TYPE) (payloadType : PAYLOAD_TYPE)
    (tuningParams : TuningParameters) : DeviceRadixSort :=
  InitStaticBuffers
    { toGPUSortBase :=
        GPUSortBase.constructPairs sortingOrder keyType payloadType baseArgs tuningParams
      m_globalHistBuffer := none
      m_passHistBuffer := none }

/-- `DeviceRadixSort::DisposeBuffers`. -/
def DisposeBuffers (e : DeviceRadixSort) : DeviceRadixSort :=
  { e with
    m_sortBuffer := none
    m_sortPayloadBuffer := none
    m_altBuffer := none
    m_altPayloadBuffer := none
    m_passHistBuffer := none }

/-- `DeviceRadixSort::InitBuffers`. -/
def InitBuffers (e : DeviceRadixSort) (numKeys threadBlocks : Nat) : DeviceRadixSort :=
  let (sort, n1) := CreateBuffer e.allocated (numKeys * 4)
  let (alt, n2) := CreateBuffer n1 (numKeys * 4)
  let (passHist, n3) := CreateBuffer n2 (u32 (e.k_radix * threadBlocks) * 4)
  if e.k_sortingConfig.sortingMode = MODE.MODE_PAIRS then
    let (sortPayload, n4) := CreateBuffer n3 (numKeys * 4)
    let (altPayload, n5) := CreateBuffer n4 (numKeys * 4)
    { e with
      m_sortBuffer := some sort
      m_altBuffer := some alt
      m_passHistBuffer := some passHist
      m_sortPayloadBuffer := some sortPayload
      m_altPayloadBuffer := some altPayload
      allocated := n5 }
  else
    let (sortPayload, n4) := CreateBuffer n3 (1 * 4)
    let (altPayload, n5) := CreateBuffer n4 (1 * 4)
    { e with
      m_sortBuffer := some sort
      m_altBuffer := some alt
      m_passHistBuffer := some passHist
      m_sortPayloadBuffer := some sortPayload
      m_altPayloadBuffer := some altPayload
      allocated := n5 }

/-- `DeviceRadixSort::UpdateSize`.  When the size changes the call divides by the partition
size (see `divRoundUp`), so it is meaningful for a positive partition size only. -/
def UpdateSize (e : DeviceRadixSort) (size : Nat) : DeviceRadixSort :=
  if e.m_numKeys ≠ size then
    let e1 := { e with m_numKeys := size }
    let e2 :=
      { e1 with
        m_partitions := GPUSortBase.divRoundUp e1.m_numKeys e1.k_tuningParameters.partitionSize }
    let e3 := DisposeBuffers e2
    InitBuffers e3 e3.m_numKeys e3.m_partitions
  else e

/-- The body of the pass loop of `DeviceRadixSort::PrepareSortCmdList` for one value of
`radixShift`, followed by the remaining iterations.  A null buffer pointer makes the
call fail (`none`). -/
def PrepareSortCmdList.loop (e : DeviceRadixSort) (radixShift : Nat) : Option DeviceRadixSort :=
  if radixShift < 32 then do
    let sort ← e.m_sortBuffer
    let globalHist ← e.m_globalHistBuffer
    let passHist ← e.m_passHistBuffer
    let sortPayload ← e.m_sortPayloadBuffer
    let alt ← e.m_altBuffer
    let altPayload ← e.m_altPayloadBuffer
    let cmdList := e.m_cmdList ++
      [SortCmd.Upsweep sort.address globalHist.address passHist.address
         e.m_numKeys e.m_partitions radixShift,
       SortCmd.UAVBarrier passHist.address,
       SortCmd.Scan passHist.address e.m_partitions,
       SortCmd.UAVBarrier passHist.address,
       SortCmd.UAVBarrier globalHist.address,
       SortCmd.Downsweep sort.address sortPayload.address alt.address altPayload.address
         globalHist.address passHist.address e.m_numKeys e.m_partitions radixShift,
       SortCmd.UAVBarrier sort.address,
       SortCmd.UAVBarrier sortPayload.address,
       SortCmd.UAVBarrier alt.address,
       SortCmd.UAVBarrier altPayload.address]
    PrepareSortCmdList.loop
      { e with
        m_cmdList := cmdList
        m_sortBuffer := some alt
        m_altBuffer := some sort
        m_sortPayloadBuffer := some altPayload
        m_altPayloadBuffer := some sortPayload }
      (radixShift + 8)
  else some e
termination_by 32 - radixShift

/-- `DeviceRadixSort::PrepareSortCmdList`. -/
def PrepareSortCmdList (e : DeviceRadixSort) : Option DeviceRadixSort := do
  let globalHist ← e.m_globalHistBuffer
  let cmdList := e.m_cmdList ++
    [SortCmd.InitDeviceRadixSort globalHist.address, SortCmd.UAVBarrier globalHist.address]
  PrepareSortCmdList.loop { e with m_cmdList := cmdList } 0

/-- The sizes visited by the first loop of `DeviceRadixSort::TestAll`:
`for (i = partitionSize; i < testEnd; ++i)`, starting at `i`. -/
def TestAll.sweepFrom (testEnd i : Nat) : List Nat :=
  if i < testEnd then i :: TestAll.sweepFrom testEnd (i + 1) else []
termination_by testEnd - i

/-- The sizes passed to `ValidateSort` by the size sweep of `DeviceRadixSort::TestAll`,
with `testEnd = partitionSize * 2 + 1` computed in `uint32_t`. -/
def TestAll.sweepSizes (partitionSize : Nat) : List Nat :=
  TestAll.sweepFrom (u32 (partitionSize * 2 + 1)) partitionSize

end DeviceRadixSort

/-- The constants both constructors of `OneSweep` pass to `SweepBase`. -/
def OneSweep.baseArgs : BaseArgs := ⟨"OneSweep ", 4, 256, 1 <<< 13⟩

/-- Modelled from the spec: `SweepBase` (declared in `SweepBase.h`, not among the sources)
forwards the constructor arguments of `OneSweep` unchanged to `GPUSortBase`. -/
def OneSweep.constructPairs (sortingOrder : ORDER) (keyType : KEY_TYPE)
    (payloadType : PAYLOAD_TYPE) (tuningParams : TuningParameters) : GPUSortBase :=
  GPUSortBase.constructPairs sortingOrder keyType payloadType OneSweep.baseArgs tuningParams

/-- Modelled from the spec: the keys-only constructor of `OneSweep`, through `SweepBase`. -/
def OneSweep.constructKeysOnly (sortingOrder : ORDER) (keyType : KEY_TYPE)
    (tuningParams : TuningParameters) : GPUSortBase :=
  GPUSortBase.constructKeysOnly sortingOrder keyType OneSweep.baseArgs tuningParams

namespace DeviceRadixSort

/-- The ten entries one pass records when the current buffers are `sort`/`sortPayload`
and the alternate buffers are `alt`/`altPayload`. -/
def passCmds (sort sortPayload alt altPayload globalHist passHist numKeys partitions
    radixShift : Nat) : List SortCmd :=
  [SortCmd.Upsweep sort globalHist passHist numKeys partitions radixShift,
   SortCmd.UAVBarrier passHist,
   SortCmd.Scan passHist partitions,
   SortCmd.UAVBarrier passHist,
   SortCmd.UAVBarrier globalHist,
   SortCmd.Downsweep sort sortPayload alt altPayload globalHist passHist
     numKeys partitions radixShift,
   SortCmd.UAVBarrier sort,
   SortCmd.UAVBarrier sortPayload,
   SortCmd.UAVBarrier alt,
   SortCmd.UAVBarrier altPayload]

/-- Everything a sort records: the initialisation and the four passes, the buffer
roles exchanged after each pass. -/
def sortCmds (sort sortPayload alt altPayload globalHist passHist numKeys partitions : Nat) :
    List SortCmd :=
  [SortCmd.InitDeviceRadixSort globalHist, SortCmd.UAVBarrier globalHist] ++
    passCmds sort sortPayload alt altPayload globalHist passHist numKeys partitions 0 ++
    passCmds alt altPayload sort sortPayload globalHist passHist numKeys partitions 8 ++
    passCmds sort sortPayload alt altPayload globalHist passHist numKeys partitions 16 ++
    passCmds alt altPayload sort sortPayload globalHist passHist numKeys partitions 24

/-- All buffers a sort dereferences are allocated. -/
def Allocated (e : DeviceRadixSort) : Prop :=
  e.m_sortBuffer.isSome ∧ e.m_sortPayloadBuffer.isSome ∧ e.m_altBuffer.isSome ∧
    e.m_altPayloadBuffer.isSome ∧ e.m_globalHistBuffer.isSome ∧ e.m_passHistBuffer.isSome

instance (e : DeviceRadixSort) : Decidable (Allocated e) := by
  unfold Allocated; infer_instance

/-- Address of an optional resource (`0` for a null pointer). -/
def addr (r : Option Resource) : Nat := (r.map Resource.address).getD 0

/-- The commands a sort records for the buffers the engine currently holds. -/
def sortCmdsOf (e : DeviceRadixSort) : List SortCmd :=
  sortCmds (addr e.m_sortBuffer) (addr e.m_sortPayloadBuffer) (addr e.m_altBuffer)
    (addr e.m_altPayloadBuffer) (addr e.m_globalHistBuffer) (addr e.m_passHistBuffer)
    e.m_numKeys e.m_partitions

/-- Whether a recorded entry is a host-issued buffer copy. -/
def SortCmd.isCopy : SortCmd → Bool
  | SortCmd.CopyBufferRegion _ _ _ _ _ => true
  | _ => false

/-- Number of elements of partition `p` when `numKeys` elements are cut into contiguous
tiles of `partitionSize` elements. -/
def tileLength (numKeys partitionSize p : Nat) : Nat :=
  min ((p + 1) * partitionSize) numKeys - p * partitionSize

end DeviceRadixSort

/-! ## Device-side contracts of the sorting kernels -/

namespace DeviceRadixSort

/-- The 8-bit digit of a key that a pass with the given `radixShift` bins by:
`(key >> radixShift) & 255`. -/
def digit (radixShift key : Nat) : Nat := (key >>> radixShift) &&& 255

/-- Modelled from the spec: the contract of one digit-binning pass (section 4.3; the
shaders `Upsweep`, `Scan` and `Downsweep` are not among the sources).  The elements are
put into 256 buckets by the digit of their key, the buckets are laid out in ascending
digit order, and inside a bucket the input order is kept. -/
def binByDigit {α : Type} (key : α → Nat) (radixShift : Nat) (xs : List α) : List α :=
  (List.range 256).flatMap fun d => xs.filter fun x => digit radixShift (key x) == d

/-- Running sums of a list, each including its own element, starting from `acc`. -/
def inclusiveFrom (acc : Nat) : List Nat → List Nat
  | [] => []
  | x :: t => (acc + x) :: inclusiveFrom (acc + x) t

/-- Running sums of a list, each excluding its own element, starting from `acc`. -/
def exclusiveFrom (acc : Nat) : List Nat → List Nat
  | [] => []
  | x :: t => acc :: exclusiveFrom (acc + x) t

/-- Consecutive tiles of `partitionSize` elements; the last tile may be short. -/
def tiles (partitionSize : Nat) (xs : List Nat) : List (List Nat) :=
  if h : 0 < partitionSize ∧ xs ≠ [] then
    xs.take partitionSize :: tiles partitionSize (xs.drop partitionSize)
  else []
termination_by xs.length
decreasing_by
  have : 0 < xs.length := List.length_pos.mpr h.2
  simp only [List.length_drop]
  omega

/-- Number of adjacent pairs of a key sequence that are out of order for the given
sorting order. -/
def inversions (order : ORDER) : List Nat → Nat
  | a :: b :: t =>
    (if (match order with
        | ORDER.ORDER_ASCENDING => decide (b < a)
        | ORDER.ORDER_DESCENDING => decide (a < b)) then 1 else 0) +
      inversions order (b :: t)
  | _ => 0

/-- Modelled from the spec: the order-preserving map from the bits of a key to an unsigned
32-bit number (section 4.3; the shaders are not among the sources).  An unsigned key is
taken as it is, a two's-complement key has its sign bit flipped, and an IEEE-754 key has its
sign bit flipped when that bit is clear and all of its bits flipped when it is set. -/
def toUnsigned : KEY_TYPE → Nat → Nat
  | KEY_TYPE.KEY_UINT32, k => k
  | KEY_TYPE.KEY_INT32, k => if k < 2 ^ 31 then k + 2 ^ 31 else k - 2 ^ 31
  | KEY_TYPE.KEY_FLOAT32, k => if k < 2 ^ 31 then k + 2 ^ 31 else 2 ^ 32 - 1 - k

/-- Modelled from the spec: the number a pass takes its digit from (section 4.3).  In
ascending order it is the unsigned image of the key; in descending order it is the
complement of that image, which lays the buckets out from digit 255 down to digit 0. -/
def sortKey (cfg : GPUSortingConfig) (k : Nat) : Nat :=
  match cfg.sortingOrder with
  | ORDER.ORDER_ASCENDING => toUnsigned cfg.sortingKeyType k
  | ORDER.ORDER_DESCENDING => 2 ^ 32 - 1 - toUnsigned cfg.sortingKeyType k

/-- Modelled from the spec: the number of keys the tiles of a dispatch cover (section 4.2):
`threadBlocks` tiles of `partitionSize` keys each, the last one cut off at `numKeys`. -/
def reached (partitionSize numKeys threadBlocks : Nat) : Nat :=
  min numKeys (threadBlocks * partitionSize)

/-- Modelled from the spec: the number of elements a `Downsweep` dispatch moves: the keys
its tiles cover, as far as every buffer it is bound to holds that many words (no word
beyond the end of a buffer is read or written).  The payload buffers count in pairs mode
only. -/
def processed (cfg : GPUSortingConfig) (partitionSize : Nat) (m : Nat → List Nat)
    (sort sortPayload alt altPayload numKeys threadBlocks : Nat) : Nat :=
  match cfg.sortingMode with
  | MODE.MODE_KEYS_ONLY =>
    min (reached partitionSize numKeys threadBlocks) (min (m sort).length (m alt).length)
  | MODE.MODE_PAIRS =>
    min (reached partitionSize numKeys threadBlocks)
      (min (min (m sort).length (m sortPayload).length)
        (min (m alt).length (m altPayload).length))

/-- Modelled from the spec: effect of one recorded entry on the contents of the device
buffers, addressed by GPU virtual address (sections 4.2 and 4.3; the shaders are not among
the sources).  `partitionSize` is the tile size the kernels are compiled for.  `Downsweep`
stably bins the elements its tiles cover by the digit of their sort key and writes them, and
in pairs mode the payloads that travel with them, to the front of the alternate buffers; the
words behind stay as they are.  `Scan` replaces every row of `threadBlocks` entries of the
pass histogram by its exclusive prefix sums, and `InitScanTestValues` sets the first `size`
entries of the pass histogram to one, as far as the buffer reaches.  `ClearErrorCount`
zeroes the error counter and `Validate` adds to it the number of adjacent pairs of the key
buffer, read as unsigned words, that are out of order.  `CopyBufferRegion` copies 32-bit
words.  What `InitDeviceRadixSort` and `Upsweep` write to the histograms is not tracked, and
the input is whatever the key buffer holds when the sort starts: `InitSortInput` leaves it
as it is. -/
def exec (cfg : GPUSortingConfig) (partitionSize : Nat) (m : Nat → List Nat) :
    SortCmd → (Nat → List Nat)
  | SortCmd.Downsweep sort sortPayload alt altPayload _ _ numKeys threadBlocks radixShift =>
    let n := processed cfg partitionSize m sort sortPayload alt altPayload numKeys threadBlocks
    match cfg.sortingMode with
    | MODE.MODE_KEYS_ONLY =>
      Function.update m alt
        (binByDigit (sortKey cfg) radixShift ((m sort).take n) ++ (m alt).drop n)
    | MODE.MODE_PAIRS =>
      let out := binByDigit (fun x => sortKey cfg x.1) radixShift
        (((m sort).zip (m sortPayload)).take n)
      Function.update (Function.update m alt (out.map Prod.fst ++ (m alt).drop n)) altPayload
        (out.map Prod.snd ++ (m altPayload).drop n)
  | SortCmd.Scan passHist threadBlocks =>
    Function.update m passHist ((tiles threadBlocks (m passHist)).flatMap (exclusiveFrom 0))
  | SortCmd.InitScanTestValues passHist size =>
    Function.update m passHist
      (List.replicate (min size (m passHist).length) 1 ++ (m passHist).drop size)
  | SortCmd.ClearErrorCount errorCount => Function.update m errorCount [0]
  | SortCmd.Validate sort _ errorCount _ =>
    Function.update m errorCount
      [u32 ((m errorCount).headD 0 + inversions cfg.sortingOrder (m sort))]
  | SortCmd.CopyBufferRegion dst dstOffset src srcOffset numBytes =>
    Function.update m dst
      ((m dst).take (dstOffset / 4) ++ ((m src).drop (srcOffset / 4)).take (numBytes / 4) ++
        (m dst).drop (dstOffset / 4 + numBytes / 4))
  | _ => m

/-- Execute a recorded command list on the device, entry by entry. -/
def run (cfg : GPUSortingConfig) (partitionSize : Nat) (cmds : List SortCmd)
    (m : Nat → List Nat) : Nat → List Nat :=
  cmds.foldl (exec cfg partitionSize) m

/-- The kernel an entry dispatches, together with the `radixShift` it is given
(`none` for barriers and copies, which dispatch nothing). -/
def SortCmd.dispatch? : SortCmd → Option (String × Option Nat)
  | SortCmd.InitDeviceRadixSort _ => some ("InitDeviceRadixSort", none)
  | SortCmd.Upsweep _ _ _ _ _ radixShift => some ("Upsweep", some radixShift)
  | SortCmd.Scan _ _ => some ("Scan", none)
  | SortCmd.Downsweep _ _ _ _ _ _ _ _ radixShift => some ("Downsweep", some radixShift)
  | SortCmd.InitScanTestValues _ _ => some ("InitScanTestValues", none)
  | SortCmd.InitSortInput _ _ _ _ _ => some ("InitSortInput", none)
  | SortCmd.ClearErrorCount _ => some ("ClearErrorCount", none)
  | SortCmd.Validate _ _ _ _ => some ("Validate", none)
  | SortCmd.UAVBarrier _ => none
  | SortCmd.ReadbackPreBarrier _ => none
  | SortCmd.ReadbackPostBarrier _ => none
  | SortCmd.CopyBufferRegion _ _ _ _ _ => none

/-- The buffers a `Downsweep` entry reads (`sort`, `sortPayload`) and writes (`alt`,
`altPayload`), with its `radixShift`. -/
def SortCmd.downsweep? : SortCmd → Option (Nat × Nat × Nat × Nat × Nat)
  | SortCmd.Downsweep sort sortPayload alt altPayload _ _ _ _ radixShift =>
    some (sort, sortPayload, alt, altPayload, radixShift)
  | _ => none

/-- The key buffer an `Upsweep` entry reads, with its `radixShift`. -/
def SortCmd.upsweep? : SortCmd → Option (Nat × Nat)
  | SortCmd.Upsweep sort _ _ _ _ radixShift => some (sort, radixShift)
  | _ => none

end DeviceRadixSort

/-! ## Host functions of GPUSortBase.h that submit work and read results back -/

/-- The host together with the device it drives: the engine object, the contents of the
device buffers, and the command lists the queue has executed so far, oldest first. -/
structure Host where
  engine : DeviceRadixSort
  mem : Nat → List Nat
  executed : List (List SortCmd)

namespace Host

/-- `GPUSortBase::ExecuteCommandList`: close the list, submit it, signal the fence, block
until the fence is reached, then reset allocator and list. -/
def ExecuteCommandList (h : Host) : Host :=
  { engine := { h.engine with m_cmdList := [] }
    mem := DeviceRadixSort.run h.engine.k_sortingConfig h.engine.k_tuningParameters.partitionSize
      h.engine.m_cmdList h.mem
    executed := h.executed ++ [h.engine.m_cmdList] }

/-- Modelled from the spec: `ReadBackBuffer` (declared in `Utils.h`, not among the sources)
is the host readback of section 6: the first `count` words of the buffer. -/
def ReadBackBuffer (h : Host) (buffer : Resource) (count : Nat) : List Nat :=
  (h.mem buffer.address).take count

/-- Append entries to the command list of the engine. -/
def record (h : Host) (cmds : List SortCmd) : Host :=
  { h with engine := { h.engine with m_cmdList := h.engine.m_cmdList ++ cmds } }

/-- `GPUSortBase::CreateTestInput(seed, entropyPreset)`; the one-argument overload passes
`ENTROPY_PRESET_1`. -/
def CreateTestInput (h : Host) (seed : Nat)
    (entropyPreset : ENTROPY_PRESET := ENTROPY_PRESET.ENTROPY_PRESET_1) : Option Host := do
  let sort ← h.engine.m_sortBuffer
  let sortPayload ← h.engine.m_sortPayloadBuffer
  let h1 := h.record
    [SortCmd.InitSortInput sort.address sortPayload.address h.engine.m_numKeys entropyPreset seed,
     SortCmd.UAVBarrier sort.address]
  pure h1.ExecuteCommandList

/-- `GPUSortBase::ValidateOutput`; the printing is left out. -/
def ValidateOutput (h : Host) (shouldPrint : Bool) : Option (Bool × Host) := do
  let _ := shouldPrint
  let errorCount ← h.engine.m_errorCountBuffer
  let sort ← h.engine.m_sortBuffer
  let sortPayload ← h.engine.m_sortPayloadBuffer
  let h1 := h.record
    [SortCmd.ClearErrorCount errorCount.address,
     SortCmd.UAVBarrier errorCount.address,
     SortCmd.Validate sort.address sortPayload.address errorCount.address h.engine.m_numKeys,
     SortCmd.UAVBarrier errorCount.address]
  let h2 := h1.ExecuteCommandList
  let readBack ← h2.engine.m_readBackBuffer
  let h3 := h2.record [SortCmd.CopyBufferRegion readBack.address 0 errorCount.address 0 4]
  let h4 := h3.ExecuteCommandList
  let vecOut := h4.ReadBackBuffer readBack 1
  let errCount ← vecOut[0]?
  pure (errCount == 0, h4)

/-- `GPUSortBase::ValidateSort`. -/
def ValidateSort (h : Host) (size seed : Nat) : Option (Bool × Host) := do
  let h1 := { h with engine := h.engine.UpdateSize size }
  let h2 ← h1.CreateTestInput seed
  let e3 ← h2.engine.PrepareSortCmdList
  let h4 := ({ h2 with engine := e3 } : Host).ExecuteCommandList
  h4.ValidateOutput false

/-- `GPUSortBase::TestSort`; the printing is left out. -/
def TestSort (h : Host) (testSize seed : Nat) (shouldReadBack shouldValidate : Bool) :
    Option Host := do
  let h1 := { h with engine := h.engine.UpdateSize testSize }
  let h2 ← h1.CreateTestInput seed
  let e3 ← h2.engine.PrepareSortCmdList
  let h4 := ({ h2 with engine := e3 } : Host).ExecuteCommandList
  let h5 ← if shouldValidate then (h4.ValidateOutput true).map Prod.snd else some h4
  if shouldReadBack then do
    let readBackSize :=
      if h5.engine.m_numKeys < h5.engine.k_maxReadBack then h5.engine.m_numKeys
      else h5.engine.k_maxReadBack
    let sort ← h5.engine.m_sortBuffer
    let readBack ← h5.engine.m_readBackBuffer
    let h6 := (h5.record
      [SortCmd.ReadbackPreBarrier sort.address,
       SortCmd.CopyBufferRegion readBack.address 0 sort.address 0 (readBackSize * 4),
       SortCmd.ReadbackPostBarrier sort.address]).ExecuteCommandList
    if h6.engine.k_sortingConfig.sortingMode = MODE.MODE_PAIRS then do
      let sortPayload ← h6.engine.m_sortPayloadBuffer
      pure (h6.record
        [SortCmd.ReadbackPreBarrier sortPayload.address,
         SortCmd.CopyBufferRegion readBack.address 0 sortPayload.address 0
           (u32 readBackSize * 4),
         SortCmd.ReadbackPostBarrier sortPayload.address]).ExecuteCommandList
    else pure h6
  else pure h5

/-- The checking loop of `DeviceRadixSort::ValidateScan`, from index `i` on: the first entry
that differs from its index makes the result `false`. -/
def ValidateScan.loop (vecOut : List Nat) (size i : Nat) : Bool :=
  if i < size then
    if vecOut[i]? ≠ some i then false else ValidateScan.loop vecOut size (i + 1)
  else true
termination_by size - i

/-- `DeviceRadixSort::ValidateScan`. -/
def ValidateScan (h : Host) (size : Nat) : Option (Bool × Host) := do
  let passHist ← h.engine.m_passHistBuffer
  let h1 := (h.record
    [SortCmd.InitScanTestValues passHist.address size,
     SortCmd.UAVBarrier passHist.address,
     SortCmd.Scan passHist.address size]).ExecuteCommandList
  let readBack ← h1.engine.m_readBackBuffer
  let h2 := (h1.record
    [SortCmd.CopyBufferRegion readBack.address 0 passHist.address 0 (size * 4)]).ExecuteCommandList
  let vecOut := h2.ReadBackBuffer readBack size
  pure (ValidateScan.loop vecOut size 0, h2)

/-- The sizes passed to `ValidateScan` by `DeviceRadixSort::TestAll`:
`for (i = 1; i < 256; ++i)`. -/
def TestAll.scanSizes : List Nat := DeviceRadixSort.TestAll.sweepFrom 256 1

end Host

namespace Host

/-- The two command lists `ValidateOutput` submits: clear, validate, and the copy of the
counter to the read-back buffer. -/
def validateCmds (errorCount sort sortPayload numKeys : Nat) : List SortCmd :=
  [SortCmd.ClearErrorCount errorCount,
   SortCmd.UAVBarrier errorCount,
   SortCmd.Validate sort sortPayload errorCount numKeys,
   SortCmd.UAVBarrier errorCount]

/-- The kernels dispatched by all command lists the queue has executed, in order. -/
def dispatched (h : Host) : List (String × Option Nat) :=
  h.executed.flatten.filterMap DeviceRadixSort.SortCmd.dispatch?

end Host

/-! ## ChainedScanDecoupledLookback.cpp -/

/-- What `ChainedScanDecoupledLookback` records on its command list: one entry per call of
a kernel wrapper's `Dispatch` and per `UAVBarrierSingle`. -/
inductive ScanCmd where
  | InitCSDL (scanBump threadBlockReduction partitions : Nat)
  | CSDLInclusive (scanIn scanOut scanBump threadBlockReduction vectorizedSize partitions : Nat)
  | CSDLExclusive (scanIn scanOut scanBump threadBlockReduction vectorizedSize partitions : Nat)
  | UAVBarrier (resource : Nat)
deriving DecidableEq, Repr

/-- State of a `ChainedScanDecoupledLookback` object, as far as the functions recording a
scan read or write it: the constants passed to `GPUPrefixSumBase`, the sizes, the command
list and the buffers. -/
structure ChainedScanDecoupledLookback where
  k_scanName : String
  k_partitionSize : Nat
  k_maxReadBack : Nat
  m_partitions : Nat
  m_vectorizedSize : Nat
  m_cmdList : List ScanCmd
  m_scanInBuffer : Option Resource
  m_scanOutBuffer : Option Resource
  m_scanBumpBuffer : Option Resource
  m_threadBlockReductionBuffer : Option Resource
  m_scanValidationBuffer : Option Resource
  m_errorCountBuffer : Option Resource
  m_readBackBuffer : Option Resource
deriving DecidableEq, Repr

namespace ChainedScanDecoupledLookback

/-- `ChainedScanDecoupledLookback::DisposeBuffers`. -/
def DisposeBuffers (e : ChainedScanDecoupledLookback) : ChainedScanDecoupledLookback :=
  { e with
    m_scanInBuffer := none
    m_scanOutBuffer := none
    m_threadBlockReductionBuffer := none
    m_scanValidationBuffer := none }

/-- `ChainedScanDecoupledLookback::PrepareScanCmdListInclusive`.  A null buffer pointer
makes the call fail (`none`). -/
def PrepareScanCmdListInclusive (e : ChainedScanDecoupledLookback) :
    Option ChainedScanDecoupledLookback := do
  let scanBump ← e.m_scanBumpBuffer
  let threadBlockReduction ← e.m_threadBlockReductionBuffer
  let scanIn ← e.m_scanInBuffer
  let scanOut ← e.m_scanOutBuffer
  pure { e with
    m_cmdList := e.m_cmdList ++
      [ScanCmd.InitCSDL scanBump.address threadBlockReduction.address e.m_partitions,
       ScanCmd.UAVBarrier scanBump.address,
       ScanCmd.UAVBarrier threadBlockReduction.address,
       ScanCmd.CSDLInclusive scanIn.address scanOut.address scanBump.address
         threadBlockReduction.address e.m_vectorizedSize e.m_partitions] }

/-- `ChainedScanDecoupledLookback::PrepareScanCmdListExclusive`. -/
def PrepareScanCmdListExclusive (e : ChainedScanDecoupledLookback) :
    Option ChainedScanDecoupledLookback := do
  let scanBump ← e.m_scanBumpBuffer
  let threadBlockReduction ← e.m_threadBlockReductionBuffer
  let scanIn ← e.m_scanInBuffer
  let scanOut ← e.m_scanOutBuffer
  pure { e with
    m_cmdList := e.m_cmdList ++
      [ScanCmd.InitCSDL scanBump.address threadBlockReduction.address e.m_partitions,
       ScanCmd.UAVBarrier scanBump.address,
       ScanCmd.UAVBarrier threadBlockReduction.address,
       ScanCmd.CSDLExclusive scanIn.address scanOut.address scanBump.address
         threadBlockReduction.address e.m_vectorizedSize e.m_partitions] }

/-- All buffers a scan command list dereferences are allocated. -/
def Allocated (e : ChainedScanDecoupledLookback) : Prop :=
  e.m_scanBumpBuffer.isSome ∧ e.m_threadBlockReductionBuffer.isSome ∧
    e.m_scanInBuffer.isSome ∧ e.m_scanOutBuffer.isSome

instance (e : ChainedScanDecoupledLookback) : Decidable (Allocated e) := by
  unfold Allocated; infer_instance

/-- The kernel a scan entry dispatches (`none` for barriers). -/
def ScanCmd.dispatch? : ScanCmd → Option String
  | ScanCmd.InitCSDL _ _ _ => some "InitCSDL"
  | ScanCmd.CSDLInclusive _ _ _ _ _ _ => some "CSDLInclusive"
  | ScanCmd.CSDLExclusive _ _ _ _ _ _ => some "CSDLExclusive"
  | ScanCmd.UAVBarrier _ => none

/-- Forget which of the two scan kernels an entry dispatches. -/
def ScanCmd.eraseKernel : ScanCmd → ScanCmd
  | ScanCmd.CSDLExclusive a b c d v p => ScanCmd.CSDLInclusive a b c d v p
  | c => c

/-- An engine as the constructor `GPUPrefixSumBase("ChainedScanDecoupledLookback ", 3072,
1 << 13)` leaves it, with the four buffers of a scan allocated for zero partitions. -/
def exampleEmpty : ChainedScanDecoupledLookback :=
  { k_scanName := "ChainedScanDecoupledLookback "
    k_partitionSize := 3072
    k_maxReadBack := 1 <<< 13
    m_partitions := 0
    m_vectorizedSize := 0
    m_cmdList := []
    m_scanInBuffer := some ⟨3, 0⟩
    m_scanOutBuffer := some ⟨4, 0⟩
    m_scanBumpBuffer := some ⟨0, 4⟩
    m_threadBlockReductionBuffer := some ⟨5, 0⟩
    m_scanValidationBuffer := some ⟨6, 0⟩
    m_errorCountBuffer := some ⟨1, 4⟩
    m_readBackBuffer := some ⟨2, 32768⟩ }

end ChainedScanDecoupledLookback

/-! ## Read and write sets of the recorded entries, and barrier coverage -/

/-- What an entry of a command list means for the ordering of buffer accesses: a dispatch
with the buffers it reads and the buffers it writes, a UAV barrier on a buffer, or
neither. -/
inductive Access where
  | dispatch (reads writes : List Nat)
  | barrier (resource : Nat)
  | other
deriving DecidableEq, Repr

/-- Modelled from the spec: the read and write sets of the sorting kernels (section 4.3;
the shaders are not among the sources).  `InitDeviceRadixSort` writes the global histogram;
`Upsweep` reads the current sort buffer and writes the pass histogram and the global
histogram; `Scan` reads and writes the pass histogram; `Downsweep` reads the current sort and
payload buffers, the global histogram and the pass histogram and writes the alternate key
and payload buffers.  The utility kernels write what they initialise and `Validate` reads
the buffers it checks. -/
def SortCmd.access : SortCmd → Access
  | SortCmd.InitDeviceRadixSort globalHist => Access.dispatch [] [globalHist]
  | SortCmd.Upsweep sort globalHist passHist _ _ _ => Access.dispatch [sort] [passHist, globalHist]
  | SortCmd.Scan passHist _ => Access.dispatch [passHist] [passHist]
  | SortCmd.Downsweep sort sortPayload alt altPayload globalHist passHist _ _ _ =>
    Access.dispatch [sort, sortPayload, globalHist, passHist] [alt, altPayload]
  | SortCmd.InitScanTestValues passHist _ => Access.dispatch [] [passHist]
  | SortCmd.InitSortInput sort sortPayload _ _ _ => Access.dispatch [] [sort, sortPayload]
  | SortCmd.ClearErrorCount errorCount => Access.dispatch [] [errorCount]
  | SortCmd.Validate sort sortPayload errorCount _ =>
    Access.dispatch [sort, sortPayload, errorCount] [errorCount]
  | SortCmd.UAVBarrier resource => Access.barrier resource
  | SortCmd.ReadbackPreBarrier _ => Access.other
  | SortCmd.ReadbackPostBarrier _ => Access.other
  | SortCmd.CopyBufferRegion _ _ _ _ _ => Access.other

/-- Modelled from the spec: the read and write sets of the scan kernels of
`ChainedScanDecoupledLookback` (sections 4.1 and 4.2; the shaders are not among the
sources).  `InitCSDL` writes the bump counter and the reduction (lookback) buffer; the scan
kernel reads the input and reads and writes the bump counter and the reduction buffer, and
writes the output. -/
def ScanCmd.access : ScanCmd → Access
  | ScanCmd.InitCSDL scanBump threadBlockReduction _ =>
    Access.dispatch [] [scanBump, threadBlockReduction]
  | ScanCmd.CSDLInclusive scanIn scanOut scanBump threadBlockReduction _ _ =>
    Access.dispatch [scanIn, scanBump, threadBlockReduction]
      [scanOut, scanBump, threadBlockReduction]
  | ScanCmd.CSDLExclusive scanIn scanOut scanBump threadBlockReduction _ _ =>
    Access.dispatch [scanIn, scanBump, threadBlockReduction]
      [scanOut, scanBump, threadBlockReduction]
  | ScanCmd.UAVBarrier resource => Access.barrier resource

/-- Every dispatch that reads a buffer written by an earlier dispatch of the list is
preceded by a UAV barrier on that buffer recorded after the writing dispatch. -/
def Covered (l : List Access) : Prop :=
  ∀ (i j : Nat) (rs ws rs2 ws2 : List Nat) (b : Nat), i < j →
    l[i]? = some (Access.dispatch rs ws) → b ∈ ws →
    l[j]? = some (Access.dispatch rs2 ws2) → b ∈ rs2 →
    ∃ k, i < k ∧ k < j ∧ l[k]? = some (Access.barrier b)

/-- Single pass over a list that decides coverage: `dirty` holds the buffers written by a
dispatch and not yet covered by a barrier; a dispatch must read none of them. -/
def hazardFree : List Nat → List Access → Bool
  | _, [] => true
  | dirty, Access.dispatch rs ws :: rest =>
    rs.all (fun b => !dirty.contains b) && hazardFree (ws ++ dirty) rest
  | dirty, Access.barrier r :: rest => hazardFree (dirty.filter fun b => b != r) rest
  | dirty, Access.other :: rest => hazardFree dirty rest

/-! ## The test drivers: TestAll and main -/

/-- Wrap a natural number to an unsigned 64-bit value. -/
def u64 (n : Nat) : Nat := n % 2 ^ 64

/-- Subtraction of `uint64_t` values (wraps on underflow). -/
def sub64 (a b : Nat) : Nat := (a + 2 ^ 64 - b % 2 ^ 64) % 2 ^ 64

/-- The fields of `GPUSorting::DeviceInfo` that `GetDeviceInfo` fills in. -/
structure DeviceInfo where
  Description : String
  deviceId : Nat
  vendorId : Nat
  dedicatedVideoMemory : Nat
  sharedSystemMemory : Nat
  SupportedShaderModel : String
  SIMDWidth : Nat
  SIMDMaxWidth : Nat
  SIMDLaneCount : Nat
  SupportsWaveIntrinsics : Bool
  Supports16BitTypes : Bool
  SupportsDeviceRadixSort : Bool
  SupportsOneSweep : Bool
deriving DecidableEq, Repr

/-- What a run of `TestAll` does, in order: the validations with their results, the call
`UpdateSize(1 << 22)`, and the comparison of the available memory with the requirement. -/
inductive TestEvent where
  | validateSort (size seed : Nat) (result : Bool)
  | validateScan (size : Nat) (result : Bool)
  | updateSize (size : Nat)
  | memoryCheck (available required : Nat)
deriving DecidableEq, Repr

/-- The result of a validation event (`none` for the other events). -/
def TestEvent.result? : TestEvent → Option Bool
  | TestEvent.validateSort _ _ r => some r
  | TestEvent.validateScan _ r => some r
  | _ => none

/-- Whether an event is a sort run. -/
def TestEvent.isSort : TestEvent → Bool
  | TestEvent.validateSort _ _ _ => true
  | _ => false

/-- Whether an event is a scan validation. -/
def TestEvent.isScan : TestEvent → Bool
  | TestEvent.validateScan _ _ => true
  | _ => false

/-- Whether an event is the memory check. -/
def TestEvent.isMemoryCheck : TestEvent → Bool
  | TestEvent.memoryCheck _ _ => true
  | _ => false

/-- What a run of `TestAll` leaves behind: the value it returns, the two numbers of its last
printed line (tests passed and `testsExpected`), and its events in order. -/
structure TestReport where
  result : Bool
  testsPassed : Nat
  testsExpected : Nat
  events : List TestEvent
deriving DecidableEq, Repr

/-- The statement `counter += result` for a `uint32_t` counter and a `bool`, over a list of
results. -/
def countPassed (results : List Bool) (counter : Nat) : Nat :=
  results.foldl (fun acc r => u32 (acc + (if r then 1 else 0))) counter

/-- Every sort run of a log comes after a memory check. -/
def GuardedByMemoryCheck (log : List TestEvent) : Prop :=
  ∀ pre ev post, log = pre ++ ev :: post → ev.isSort = true →
    ∃ c ∈ pre, c.isMemoryCheck = true

namespace DeviceRadixSort

/-- The memory the three maximum-dimension tests of `TestAll` require, in bytes:
`pairsMemoryRequirements`, a `uint64_t`. -/
def TestAll.pairsMemoryRequirements (e : GPUSortBase) : Nat :=
  let staticMemoryRequirements :=
    u64 (u64 (u64 (u32 (e.k_radix * e.k_radixPasses) * 4) + 4) + u64 (e.k_maxReadBack * 4))
  u64 (u64 (u64 (u64 (u32 (e.k_maxDispatchDimension * e.k_tuningParameters.partitionSize) * 4) *
      5) + staticMemoryRequirements) + u64 ((1 <<< 20) * 4))

/-- The three large sorts of `TestAll`: size and seed. -/
def TestAll.large : List (Nat × Nat) := [(1 <<< 21, 5), (1 <<< 22, 7), (1 <<< 23, 11)]

/-- The three maximum-dimension sorts of `TestAll`: size (converted to the `uint32_t`
parameter of `ValidateSort`) and seed. -/
def TestAll.maxDim (e : GPUSortBase) : List (Nat × Nat) :=
  let maxDimTestSize := u32 (e.k_maxDispatchDimension * e.k_tuningParameters.partitionSize)
  [(u32 (sub64 maxDimTestSize 1), 13), (u32 maxDimTestSize, 17),
    (u32 (u64 (maxDimTestSize + (1 <<< 20))), 19)]

/-- `DeviceRadixSort::TestAll`, with the printing left out.  The results of `ValidateSort`
and `ValidateScan`, which depend on the device, are taken from `validateSort` and
`validateScan`. -/
def TestAll (e : GPUSortBase) (devInfo : DeviceInfo) (validateSort : Nat → Nat → Bool)
    (validateScan : Nat → Bool) : TestReport :=
  let testsExpected := u32 (u32 (u32 (e.k_tuningParameters.partitionSize + 1) + 255) + 3)
  let sweep := TestAll.sweepSizes e.k_tuningParameters.partitionSize
  let sortPayloadTestsPassed := countPassed (sweep.map fun i => validateSort i i) 0
  let log1 := sweep.map fun i => TestEvent.validateSort i i (validateSort i i)
  let scans := TestAll.sweepFrom 256 1
  let scanTestsPassed := countPassed (scans.map validateScan) 0
  let log2 := TestEvent.updateSize (1 <<< 22) ::
    scans.map fun i => TestEvent.validateScan i (validateScan i)
  let sortPayloadTestsPassed :=
    countPassed (TestAll.large.map fun t => validateSort t.1 t.2) sortPayloadTestsPassed
  let log3 := TestAll.large.map fun t => TestEvent.validateSort t.1 t.2 (validateSort t.1 t.2)
  let totalAvailableMemory := u64 (devInfo.dedicatedVideoMemory + devInfo.sharedSystemMemory)
  let pairsMemoryRequirements := TestAll.pairsMemoryRequirements e
  let log4 := [TestEvent.memoryCheck totalAvailableMemory pairsMemoryRequirements]
  if totalAvailableMemory ≥ pairsMemoryRequirements then
    let sortPayloadTestsPassed :=
      countPassed ((TestAll.maxDim e).map fun t => validateSort t.1 t.2) sortPayloadTestsPassed
    let log5 :=
      (TestAll.maxDim e).map fun t => TestEvent.validateSort t.1 t.2 (validateSort t.1 t.2)
    let testsExpected := u32 (testsExpected + 3)
    { result := u32 (sortPayloadTestsPassed + scanTestsPassed) == testsExpected
      testsPassed := u32 (sortPayloadTestsPassed + scanTestsPassed)
      testsExpected := testsExpected
      events := log1 ++ log2 ++ log3 ++ log4 ++ log5 }
  else
    { result := u32 (sortPayloadTestsPassed + scanTestsPassed) == testsExpected
      testsPassed := u32 (sortPayloadTestsPassed + scanTestsPassed)
      testsExpected := testsExpected
      events := log1 ++ log2 ++ log3 ++ log4 }

end DeviceRadixSort

/-- `GPUSortBase::TestAll`, the default used by the other engines, with the printing left
out; the results of `ValidateSort` are taken from `validateSort`. -/
def GPUSortBase.TestAll (e : GPUSortBase) (validateSort : Nat → Nat → Bool) : TestReport :=
  let sweep := DeviceRadixSort.TestAll.sweepSizes e.k_tuningParameters.partitionSize
  let sortPayloadTestsPassed := countPassed (sweep.map fun i => validateSort i i) 0
  let log1 := sweep.map fun i => TestEvent.validateSort i i (validateSort i i)
  let large := DeviceRadixSort.TestAll.large
  let sortPayloadTestsPassed :=
    countPassed (large.map fun t => validateSort t.1 t.2) sortPayloadTestsPassed
  let log3 := large.map fun t => TestEvent.validateSort t.1 t.2 (validateSort t.1 t.2)
  let testsExpected := u32 (u32 (e.k_tuningParameters.partitionSize + 1) + 3)
  { result := sortPayloadTestsPassed == testsExpected
    testsPassed := sortPayloadTestsPassed
    testsExpected := testsExpected
    events := log1 ++ log3 }

/-! ## The entry point and the compile arguments -/

/-- What the device and its adapter answer to the queries of `GetDeviceInfo`: the fields
of the adapter description read there, the highest shader model, and the option flags. -/
structure Device where
  Description : String
  DeviceId : Nat
  VendorId : Nat
  DedicatedVideoMemory : Nat
  SharedSystemMemory : Nat
  Flags : Nat
  HighestShaderModel : Nat
  WaveLaneCountMin : Nat
  WaveLaneCountMax : Nat
  TotalLaneCount : Nat
  WaveOps : Bool
  Native16BitShaderOpsSupported : Bool
deriving DecidableEq, Repr

/-- The flag `DXGI_ADAPTER_FLAG_SOFTWARE`. -/
def DXGI_ADAPTER_FLAG_SOFTWARE : Nat := 2

/-- The enumerator `D3D_SHADER_MODEL_6_0`. -/
def D3D_SHADER_MODEL_6_0 : Nat := 0x60

/-- The result code `E_UNEXPECTED`. -/
def E_UNEXPECTED : Nat := 0x8000FFFF

/-- The table `shaderModelName` of `GetDeviceInfo`. -/
def shaderModelName : List String :=
  ["cs_6_0", "cs_6_1", "cs_6_2", "cs_6_3", "cs_6_4", "cs_6_5", "cs_6_6", "cs_6_7"]

/-- `GetDeviceInfo`, with the debug printing left out.  The queries to the device are taken
to succeed with the answers of `device`; the one result code computed by the function itself
is kept, and a failed `check_hresult` is the error of the result. -/
def GetDeviceInfo (device : Device) : Except Nat DeviceInfo :=
  let isWarpDevice :=
    (device.Flags &&& DXGI_ADAPTER_FLAG_SOFTWARE == DXGI_ADAPTER_FLAG_SOFTWARE) ||
      (device.Description.toLower == "microsoft basic render driver")
  let index := u32 (device.HighestShaderModel &&& 0xF)
  if h : index ≥ shaderModelName.length then
    Except.error E_UNEXPECTED
  else
    let SupportsDeviceRadixSort := decide (device.WaveLaneCountMin ≥ 4) && device.WaveOps &&
      decide (device.HighestShaderModel ≥ D3D_SHADER_MODEL_6_0)
    Except.ok
      { Description := device.Description
        deviceId := device.DeviceId
        vendorId := device.VendorId
        dedicatedVideoMemory := device.DedicatedVideoMemory
        sharedSystemMemory := device.SharedSystemMemory
        SupportedShaderModel := shaderModelName.get ⟨index, Nat.lt_of_not_ge h⟩
        SIMDWidth := device.WaveLaneCountMin
        SIMDMaxWidth := device.WaveLaneCountMax
        SIMDLaneCount := device.TotalLaneCount
        SupportsWaveIntrinsics := device.WaveOps
        Supports16BitTypes := device.Native16BitShaderOpsSupported
        SupportsDeviceRadixSort := SupportsDeviceRadixSort
        SupportsOneSweep := SupportsDeviceRadixSort && !isWarpDevice }

/-- The three engines `main` runs. -/
inductive Engine where
  | DeviceRadixSort
  | OneSweep
  | FFXParallelSort
deriving DecidableEq, Repr

/-- What `main` does with the engines, in order. -/
inductive MainEvent where
  | construct (engine : Engine) (deviceInfo : DeviceInfo) (sortingOrder : GPUSorting.ORDER)
      (keyType : GPUSorting.KEY_TYPE) (payloadType : GPUSorting.PAYLOAD_TYPE)
  | TestAll (engine : Engine) (result : Bool)
  | BatchTiming (engine : Engine) (inputSize batchSize seed : Nat)
      (entropyPreset : GPUSorting.ENTROPY_PRESET)
  | destruct (engine : Engine)
deriving DecidableEq, Repr

/-- Function `main` of the harness: the value it returns and what it did.  The device is the one
`InitDevice` created; the result of each `TestAll` is taken from `testAll`. -/
def main (device : Device) (testAll : Engine → Bool) : Except Nat (Int × List MainEvent) :=
  match GetDeviceInfo device with
  | Except.error hr => Except.error hr
  | Except.ok deviceInfo =>
    Except.ok (0,
      [ MainEvent.construct Engine.DeviceRadixSort deviceInfo GPUSorting.ORDER.ORDER_ASCENDING
          GPUSorting.KEY_TYPE.KEY_UINT32 GPUSorting.PAYLOAD_TYPE.PAYLOAD_UINT32,
        MainEvent.TestAll Engine.DeviceRadixSort (testAll Engine.DeviceRadixSort),
        MainEvent.BatchTiming Engine.DeviceRadixSort (1 <<< 28) 100 10
          GPUSorting.ENTROPY_PRESET.ENTROPY_PRESET_1,
        MainEvent.destruct Engine.DeviceRadixSort,
        MainEvent.construct Engine.OneSweep deviceInfo GPUSorting.ORDER.ORDER_ASCENDING
          GPUSorting.KEY_TYPE.KEY_UINT32 GPUSorting.PAYLOAD_TYPE.PAYLOAD_UINT32,
        MainEvent.TestAll Engine.OneSweep (testAll Engine.OneSweep),
        MainEvent.BatchTiming Engine.OneSweep (1 <<< 28) 100 10
          GPUSorting.ENTROPY_PRESET.ENTROPY_PRESET_1,
        MainEvent.destruct Engine.OneSweep,
        MainEvent.construct Engine.FFXParallelSort deviceInfo GPUSorting.ORDER.ORDER_ASCENDING
          GPUSorting.KEY_TYPE.KEY_UINT32 GPUSorting.PAYLOAD_TYPE.PAYLOAD_UINT32,
        MainEvent.TestAll Engine.FFXParallelSort (testAll Engine.FFXParallelSort),
        MainEvent.BatchTiming Engine.FFXParallelSort (1 <<< 25) 100 10
          GPUSorting.ENTROPY_PRESET.ENTROPY_PRESET_1,
        MainEvent.destruct Engine.FFXParallelSort ])

/-- The engines whose `TestAll` ran, with the results. -/
def testAllResults : List MainEvent → List (Engine × Bool)
  | [] => []
  | MainEvent.TestAll engine result :: rest => (engine, result) :: testAllResults rest
  | _ :: rest => testAllResults rest

/-- The engines that were constructed. -/
def constructed : List MainEvent → List Engine
  | [] => []
  | MainEvent.construct engine _ _ _ _ :: rest => engine :: constructed rest
  | _ :: rest => constructed rest

/-- The first statement of `GPUSortBase::SetCompileArguments`: the define for locked
waves. -/
def GPUSortBase.SetCompileArguments.lockWaves (shouldLockWavesTo32 : Bool)
    (m_compileArguments : List String) : List String :=
  if shouldLockWavesTo32 then m_compileArguments ++ ["-DLOCK_TO_W32"] else m_compileArguments

/-- The `switch` on `keysPerThread`: `case 5` has no `break` and falls through to
`case 7`. -/
def GPUSortBase.SetCompileArguments.keysPerThread (keysPerThread : Nat)
    (m_compileArguments : List String) : List String :=
  if keysPerThread = 5 then
    m_compileArguments ++ ["-DKEYS_PER_THREAD_5"] ++ ["-DKEYS_PER_THREAD_7"]
  else if keysPerThread = 7 then m_compileArguments ++ ["-DKEYS_PER_THREAD_7"]
  else if keysPerThread = 15 then m_compileArguments
  else m_compileArguments

/-- The `switch` on `threadsPerThreadblock`. -/
def GPUSortBase.SetCompileArguments.threadsPerThreadblock (threadsPerThreadblock : Nat)
    (m_compileArguments : List String) : List String :=
  if threadsPerThreadblock = 256 then m_compileArguments ++ ["-DD_DIM_256"]
  else if threadsPerThreadblock = 512 then m_compileArguments
  else m_compileArguments

/-- The `switch` on `partitionSize`. -/
def GPUSortBase.SetCompileArguments.partitionSize (partitionSize : Nat)
    (m_compileArguments : List String) : List String :=
  if partitionSize = 1792 then m_compileArguments ++ ["-DPART_SIZE_1792"]
  else if partitionSize = 2560 then m_compileArguments ++ ["-DPART_SIZE_2560"]
  else if partitionSize = 3584 then m_compileArguments ++ ["-DPART_SIZE_3584"]
  else if partitionSize = 3840 then m_compileArguments ++ ["-DPART_SIZE_3840"]
  else if partitionSize = 7680 then m_compileArguments
  else m_compileArguments

/-- The `switch` on `totalSharedMemory`. -/
def GPUSortBase.SetCompileArguments.totalSharedMemory (totalSharedMemory : Nat)
    (m_compileArguments : List String) : List String :=
  if totalSharedMemory = 4096 then m_compileArguments ++ ["-DD_TOTAL_SMEM_4096"]
  else if totalSharedMemory = 7936 then m_compileArguments
  else m_compileArguments

/-- The statements of `SetCompileArguments` that read `k_sortingConfig`: the sorting order,
the `switch` on the key type, and for pairs the `switch` on the payload type. -/
def GPUSortBase.SetCompileArguments.sortingConfig (k_sortingConfig : GPUSorting.GPUSortingConfig)
    (m_compileArguments : List String) : List String :=
  let args := m_compileArguments
  let args :=
    if k_sortingConfig.sortingOrder = GPUSorting.ORDER.ORDER_ASCENDING then
      args ++ ["-DSHOULD_ASCEND"]
    else args
  let args :=
    match k_sortingConfig.sortingKeyType with
    | GPUSorting.KEY_TYPE.KEY_UINT32 => args ++ ["-DKEY_UINT"]
    | GPUSorting.KEY_TYPE.KEY_INT32 => args ++ ["-DKEY_INT"]
    | GPUSorting.KEY_TYPE.KEY_FLOAT32 => args ++ ["-DKEY_FLOAT"]
  if k_sortingConfig.sortingMode = GPUSorting.MODE.MODE_PAIRS then
    match k_sortingConfig.sortingPayloadType with
    | GPUSorting.PAYLOAD_TYPE.PAYLOAD_UINT32 => args ++ ["-DSORT_PAIRS"] ++ ["-DPAYLOAD_UINT"]
    | GPUSorting.PAYLOAD_TYPE.PAYLOAD_INT32 => args ++ ["-DSORT_PAIRS"] ++ ["-DPAYLOAD_INT"]
    | GPUSorting.PAYLOAD_TYPE.PAYLOAD_FLOAT32 => args ++ ["-DSORT_PAIRS"] ++ ["-DPAYLOAD_FLOAT"]
  else args

/-- The last statements of `SetCompileArguments`: the 16-bit arguments, `-O3`, and `-Zi` in
a build that defines `_DEBUG`. -/
def GPUSortBase.SetCompileArguments.tail (debug supports16BitTypes : Bool)
    (m_compileArguments : List String) : List String :=
  let args := m_compileArguments
  let args :=
    if supports16BitTypes then args ++ ["-enable-16bit-types"] ++ ["-DENABLE_16_BIT"] else args
  let args := args ++ ["-O3"]
  if debug then args ++ ["-Zi"] else args

/-- `GPUSortBase::SetCompileArguments`: `m_compileArguments` after the call, its statements
in order.  `debug` says whether the build defines `_DEBUG`; `supports16BitTypes` is
`m_devInfo.Supports16BitTypes`. -/
def GPUSortBase.SetCompileArguments (debug : Bool) (k_tuningParameters : GPUSorting.TuningParameters)
    (k_sortingConfig : GPUSorting.GPUSortingConfig) (supports16BitTypes : Bool)
    (m_compileArguments : List String) : List String :=
  let args := SetCompileArguments.lockWaves k_tuningParameters.shouldLockWavesTo32
    m_compileArguments
  let args := SetCompileArguments.keysPerThread k_tuningParameters.keysPerThread args
  let args :=
    SetCompileArguments.threadsPerThreadblock k_tuningParameters.threadsPerThreadblock args
  let args := SetCompileArguments.partitionSize k_tuningParameters.partitionSize args
  let args := SetCompileArguments.totalSharedMemory k_tuningParameters.totalSharedMemory args
  let args := SetCompileArguments.sortingConfig k_sortingConfig args
  SetCompileArguments.tail debug supports16BitTypes args

/-- A device that supports everything the engines require. -/
def exampleDeviceCapable : Device :=
  ⟨"Discrete", 9, 4318, 1 <<< 33, 1 <<< 34, 0, 0x67, 32, 32, 4096, true, true⟩

/-- The default tuning parameters with a partition size that has no define. -/
def exampleUnknownTuning : GPUSorting.TuningParameters := ⟨false, 15, 512, 1000, 7936⟩

/-- The sorting configuration `main` passes: ascending pairs of `uint32` keys and
payloads. -/
def examplePairsConfig : GPUSorting.GPUSortingConfig :=
  ⟨GPUSorting.MODE.MODE_PAIRS, GPUSorting.ORDER.ORDER_ASCENDING, GPUSorting.KEY_TYPE.KEY_UINT32,
    GPUSorting.PAYLOAD_TYPE.PAYLOAD_UINT32⟩

/-- The define that names a key type. -/
def GPUSortBase.keyDefine : GPUSorting.KEY_TYPE → String
  | GPUSorting.KEY_TYPE.KEY_UINT32 => "-DKEY_UINT"
  | GPUSorting.KEY_TYPE.KEY_INT32 => "-DKEY_INT"
  | GPUSorting.KEY_TYPE.KEY_FLOAT32 => "-DKEY_FLOAT"

/-- The define that names a payload type. -/
def GPUSortBase.payloadDefine : GPUSorting.PAYLOAD_TYPE → String
  | GPUSorting.PAYLOAD_TYPE.PAYLOAD_UINT32 => "-DPAYLOAD_UINT"
  | GPUSorting.PAYLOAD_TYPE.PAYLOAD_INT32 => "-DPAYLOAD_INT"
  | GPUSorting.PAYLOAD_TYPE.PAYLOAD_FLOAT32 => "-DPAYLOAD_FLOAT"

/-- The tuning parameters of the defaults with five keys per thread. -/
def exampleFiveKeysTuning : GPUSorting.TuningParameters := ⟨false, 5, 512, 7680, 7936⟩

/-- A device whose highest shader model is 5.1 (`D3D_SHADER_MODEL_5_1 = 0x51`). -/
def exampleDeviceModel51 : Device :=
  ⟨"Legacy", 7, 4098, 1 <<< 31, 1 <<< 32, 0, 0x51, 64, 64, 2048, true, false⟩

/-- A device without wave intrinsics. -/
def exampleDeviceNoWaveOps : Device :=
  ⟨"NoWave", 1, 2, 1 <<< 30, 1 <<< 30, 0, 0x60, 32, 32, 1024, false, false⟩

/-- A software (WARP) adapter that otherwise supports everything required. -/
def exampleDeviceWarp : Device :=
  ⟨"Microsoft Basic Render Driver", 140, 5140, 0, 1 <<< 33, 2, 0x67, 4, 4, 64, true, true⟩

/-- The base object of a `DeviceRadixSort` for pairs with the default partition size. -/
def exampleBase : GPUSortBase :=
  GPUSortBase.constructPairs GPUSorting.ORDER.ORDER_ASCENDING GPUSorting.KEY_TYPE.KEY_UINT32
    GPUSorting.PAYLOAD_TYPE.PAYLOAD_UINT32 DeviceRadixSort.baseArgs ⟨false, 15, 512, 7680, 7936⟩

/-- The base-class state of a pairs engine whose tuning value is `partitionSize = 2 ^ 31`. -/
def exampleWideBase : GPUSortBase :=
  GPUSortBase.constructPairs GPUSorting.ORDER.ORDER_ASCENDING GPUSorting.KEY_TYPE.KEY_UINT32
    GPUSorting.PAYLOAD_TYPE.PAYLOAD_UINT32 DeviceRadixSort.baseArgs
    ⟨false, 15, 512, 2147483648, 7936⟩

/-- A device description without any memory. -/
def exampleNoMemory : DeviceInfo :=
  ⟨"", 0, 0, 0, 0, "cs_6_0", 32, 32, 1024, true, false, true, true⟩

/-! ## Contract of the prefix-sum engines -/

namespace PrefixSum

open DeviceRadixSort in
/-- Modelled from the spec: the inclusive scan of section 4.2 (the scan shaders are not
among the sources).  The input is cut into tiles of `partitionSize` elements; every
partition reduces its tile to an aggregate, obtains as exclusive prefix the sum of the
aggregates of all lower-indexed partitions, and adds it to the running sums of its tile. -/
def scanInclusive (partitionSize : Nat) (input : List Nat) : List Nat :=
  let ts := tiles partitionSize input
  let aggregates := ts.map List.sum
  let prefixes := exclusiveFrom 0 aggregates
  (ts.zip prefixes).flatMap fun tp => inclusiveFrom tp.2 tp.1

open DeviceRadixSort in
/-- Modelled from the spec: the exclusive scan of section 4.2, built like `scanInclusive`. -/
def scanExclusive (partitionSize : Nat) (input : List Nat) : List Nat :=
  let ts := tiles partitionSize input
  let aggregates := ts.map List.sum
  let prefixes := exclusiveFrom 0 aggregates
  (ts.zip prefixes).flatMap fun tp => exclusiveFrom tp.2 tp.1

end PrefixSum

/-! ## The decoupled-lookback protocol -/

namespace DecoupledLookback

/-- Modelled from the spec: the status of a lookback slot (section 3); the shaders that hold
the protocol are not among the sources. -/
inductive Status where
  | NotReady
  | Aggregate
  | Prefix
deriving DecidableEq, Repr

/-- Modelled from the spec: a lookback slot, status and value published as one unit. -/
structure Slot where
  status : Status
  value : Nat
deriving DecidableEq, Repr

/-- Modelled from the spec: where an execution group stands in the algorithm of section 4.1.
`waiting`: no partition ID obtained yet; `started p`: ID `p` obtained from the bump counter
and the local aggregate computed; `looking p k sum`: aggregate published, scanning backward,
slot `k` is read next and `sum` is the running sum; `resolved p x`: the exclusive prefix `x`
is known, the final publish is pending; `done p x`: finished with exclusive prefix `x`. -/
inductive Group where
  | waiting
  | started (p : Nat)
  | looking (p k sum : Nat)
  | resolved (p exclusivePrefix : Nat)
  | done (p exclusivePrefix : Nat)
deriving DecidableEq, Repr

/-- The partition ID a group holds. -/
def Group.partition? : Group → Option Nat
  | Group.waiting => none
  | Group.started p => some p
  | Group.looking p _ _ => some p
  | Group.resolved p _ => some p
  | Group.done p _ => some p

/-- The partition and exclusive prefix of a group that has determined its prefix. -/
def Group.prefix? : Group → Option (Nat × Nat)
  | Group.resolved p x => some (p, x)
  | Group.done p x => some (p, x)
  | _ => none

/-- Whether a group has finished. -/
def Group.isDone : Group → Bool
  | Group.done _ _ => true
  | _ => false

/-- How many of its own steps a group has at most left; `n` is the number of partitions. -/
def Group.rank (n : Nat) : Group → Nat
  | Group.waiting => n + 3
  | Group.started _ => n + 2
  | Group.looking _ k _ => k + 2
  | Group.resolved _ _ => 1
  | Group.done _ _ => 0

/-- Modelled from the spec: the device state of one dispatch: the dispatch-bump counter, the
lookback slots, and the execution groups. -/
structure State where
  bump : Nat
  slots : List Slot
  groups : List Group
deriving DecidableEq, Repr

/-- Modelled from the spec: the state at the start of a dispatch of `numPartitions` groups:
counter reset to 0, every slot `NotReady`, no group started. -/
def init (numPartitions : Nat) : State :=
  ⟨0, List.replicate numPartitions ⟨Status.NotReady, 0⟩,
    List.replicate numPartitions Group.waiting⟩

/-- Modelled from the spec: one atomic step of execution group `g` in the algorithm of
section 4.1, where `aggregate p` is the local aggregate of partition `p`.  A waiting group
takes its partition ID from the bump counter.  Partition 0 publishes `(Prefix, a)` and is
done with exclusive prefix 0; any other partition publishes `(Aggregate, a)` and starts
looking at slot `p - 1`.  A looking group reads one slot: on `Aggregate` it adds the value
and moves one slot back, on `Prefix` it adds the value and stops, on `NotReady` it retries.
A resolved group publishes `(Prefix, prefix + a)`. -/
def step (aggregate : Nat → Nat) (s : State) (g : Nat) : State :=
  match s.groups[g]? with
  | none => s
  | some Group.waiting =>
    { s with bump := s.bump + 1, groups := s.groups.set g (Group.started s.bump) }
  | some (Group.started p) =>
    if p = 0 then
      { s with slots := s.slots.set p ⟨Status.Prefix, aggregate p⟩,
               groups := s.groups.set g (Group.done p 0) }
    else
      { s with slots := s.slots.set p ⟨Status.Aggregate, aggregate p⟩,
               groups := s.groups.set g (Group.looking p (p - 1) 0) }
  | some (Group.looking p k sum) =>
    match s.slots[k]? with
    | none => s
    | some ⟨Status.NotReady, _⟩ => s
    | some ⟨Status.Aggregate, v⟩ =>
      { s with groups := s.groups.set g (Group.looking p (k - 1) (sum + v)) }
    | some ⟨Status.Prefix, v⟩ => { s with groups := s.groups.set g (Group.resolved p (sum + v)) }
  | some (Group.resolved p x) =>
    { s with slots := s.slots.set p ⟨Status.Prefix, x + aggregate p⟩,
             groups := s.groups.set g (Group.done p x) }
  | some (Group.done _ _) => s

/-- An interleaving of the groups is the sequence of the groups that take the steps. -/
def run (aggregate : Nat → Nat) (s : State) (schedule : List Nat) : State :=
  schedule.foldl (step aggregate) s

/-- The sum of the aggregates of the partitions with index lower than `p`. -/
def lowerSum (aggregate : Nat → Nat) (p : Nat) : Nat :=
  ((List.range p).map aggregate).sum

/-- Every group has finished. -/
def State.allDone (s : State) : Bool := s.groups.all Group.isDone

/-- The sum of the ranks of the groups. -/
def State.rank (n : Nat) (s : State) : Nat := (s.groups.map (Group.rank n)).sum

/-- What holds of a group in every state the protocol reaches: the running sum of a looking
group is the sum of the aggregates between the slot it reads next and its own, a prefix
that has been determined is the sum of the lower aggregates, and the own slot is published
from the first publish on. -/
def GroupOk (aggregate : Nat → Nat) (slots : List Slot) : Group → Prop
  | Group.waiting => True
  | Group.started _ => True
  | Group.looking p k sum =>
    k < p ∧ sum + lowerSum aggregate (k + 1) = lowerSum aggregate p ∧
      ∃ sl, slots[p]? = some sl ∧ sl.status ≠ Status.NotReady
  | Group.resolved p x =>
    x = lowerSum aggregate p ∧ ∃ sl, slots[p]? = some sl ∧ sl.status ≠ Status.NotReady
  | Group.done p x =>
    x = lowerSum aggregate p ∧ ∃ sl, slots[p]? = some sl ∧ sl.status ≠ Status.NotReady

/-- What holds of a slot in every state the protocol reaches: an `Aggregate` slot holds the
aggregate of its partition, which is not partition 0, and a `Prefix` slot holds the sum of
the aggregates up to and including its partition. -/
def SlotOk (aggregate : Nat → Nat) (k : Nat) (sl : Slot) : Prop :=
  (sl.status = Status.Aggregate → sl.value = aggregate k ∧ k ≠ 0) ∧
    (sl.status = Status.Prefix → sl.value = lowerSum aggregate (k + 1))

/-- The invariant of the protocol for `n` partitions. -/
structure Inv (n : Nat) (aggregate : Nat → Nat) (s : State) : Prop where
  slots_length : s.slots.length = n
  groups_length : s.groups.length = n
  ids : (s.groups.filterMap Group.partition?).Perm (List.range s.bump)
  slot_ok : ∀ (k : Nat) (sl : Slot), s.slots[k]? = some sl → SlotOk aggregate k sl
  group_ok : ∀ (g : Nat) (gr : Group), s.groups[g]? = some gr → GroupOk aggregate s.slots gr

end DecoupledLookback

/-! ## Concrete inputs used to instantiate the theorems -/

namespace DeviceRadixSort

/-- A pairs engine with the tuning value `partitionSize = 7680`, sized for six keys. -/
def exampleEngine : DeviceRadixSort :=
  UpdateSize (constructPairs ORDER.ORDER_ASCENDING KEY_TYPE.KEY_UINT32
    PAYLOAD_TYPE.PAYLOAD_UINT32 ⟨false, 15, 512, 7680, 7936⟩) 6

/-- Device memory holding the keys `[5, 3, 5, 1, 4, 3]` in the sort buffer of
`exampleEngine` (address 3) and the payloads `[10, ..., 15]` in its payload buffer
(address 6). -/
def exampleMemory : Nat → List Nat := fun a =>
  if a = 3 then [5, 3, 5, 1, 4, 3] else if a = 6 then [10, 11, 12, 13, 14, 15] else []

/-- Device memory in which every buffer of `exampleEngine` holds as many words as it was
created with: the keys `[5, 3, 5, 1, 4, 3]` and the payloads `[10, ..., 15]` in the sort
buffers (addresses 3 and 6), zeroes in the alternate buffers (4 and 7), in the pass
histogram (5), in the global histogram (0), in the error counter (1) and in the read-back
buffer (2). -/
def exampleDeviceMemory : Nat → List Nat := fun a =>
  if a = 3 then [5, 3, 5, 1, 4, 3]
  else if a = 6 then [10, 11, 12, 13, 14, 15]
  else if a = 4 ∨ a = 7 then List.replicate 6 0
  else if a = 5 then List.replicate 256 0
  else if a = 0 then List.replicate 1024 0
  else if a = 1 then [0]
  else if a = 2 then List.replicate 8192 0
  else []

end DeviceRadixSort

namespace DeviceRadixSort

/-- A pairs engine as the constructor leaves it: no size has been set, so the
size-dependent buffers are still null. -/
def freshEngine : DeviceRadixSort :=
  constructPairs ORDER.ORDER_ASCENDING KEY_TYPE.KEY_UINT32
    PAYLOAD_TYPE.PAYLOAD_UINT32 ⟨false, 15, 512, 7680, 7936⟩

end DeviceRadixSort

namespace DeviceRadixSort

end DeviceRadixSort

namespace Host

/-- The `radixShift` values of the pass kernels (`Upsweep`, `Downsweep`) a command list
dispatches, in order. -/
def passesOf (cmds : List SortCmd) : List Nat :=
  cmds.filterMap fun c => (DeviceRadixSort.SortCmd.dispatch? c).bind Prod.snd

/-- Every command list the queue has executed dispatches kernels of at most one radix pass:
the host has waited between the dispatches of any two different passes. -/
def OnePassPerSubmission (h : Host) : Prop :=
  ∀ l ∈ h.executed, ∀ a ∈ passesOf l, ∀ b ∈ passesOf l, a = b

end Host

namespace Host

/-- The command lists `TestSort` submits when `shouldReadBack` is set: the copy of the first
`readBackSize` keys to the read-back buffer between its two barriers and, in pairs mode, the
same for the payloads. -/
def readBackCmds (e : DeviceRadixSort) : List (List SortCmd) :=
  let readBackSize := if e.m_numKeys < e.k_maxReadBack then e.m_numKeys else e.k_maxReadBack
  [[SortCmd.ReadbackPreBarrier (DeviceRadixSort.addr e.m_sortBuffer),
    SortCmd.CopyBufferRegion (DeviceRadixSort.addr e.m_readBackBuffer) 0
      (DeviceRadixSort.addr e.m_sortBuffer) 0 (readBackSize * 4),
    SortCmd.ReadbackPostBarrier (DeviceRadixSort.addr e.m_sortBuffer)]] ++
  if e.k_sortingConfig.sortingMode = MODE.MODE_PAIRS then
    [[SortCmd.ReadbackPreBarrier (DeviceRadixSort.addr e.m_sortPayloadBuffer),
      SortCmd.CopyBufferRegion (DeviceRadixSort.addr e.m_readBackBuffer) 0
        (DeviceRadixSort.addr e.m_sortPayloadBuffer) 0 (u32 readBackSize * 4),
      SortCmd.ReadbackPostBarrier (DeviceRadixSort.addr e.m_sortPayloadBuffer)]]
  else []

end Host

/-! ## Conditions on the buffers and the device memory of a sort -/

namespace DeviceRadixSort

end DeviceRadixSort

namespace DeviceRadixSort

end DeviceRadixSort

/-! ## Theorems -/

namespace RTSKernels

theorem launchesFrom_append (cur : List Nat) (a b : List Cmd) :
    launchesFrom cur (a ++ b) = launchesFrom cur a ++ launchesFrom (boundConstants cur a) b := by
  induction a generalizing cur with
  | nil => simp [launchesFrom, boundConstants]
  | cons h t ih =>
    cases h <;> simp [launchesFrom, boundConstants, ih]

theorem launches_append_fresh (a : List Cmd) (k : String) (vals : List Nat) (b : List Cmd) :
    launches (a ++ Cmd.SetPipelineState k :: Cmd.SetComputeRoot32BitConstants 0 vals :: b) =
      launches a ++ launchesFrom vals b := by
  simp [launches, launchesFrom_append, launchesFrom]

theorem launches_Reduce (c : KernelConsts) (cmds : List Cmd) (a b vs tb : Nat) :
    launches (Reduce.Dispatch c cmds a b vs tb) = launches cmds ++ tiledLaunches c vs tb := by
  simp only [Reduce.Dispatch, tiledLaunches]
  generalize tb / c.k_maxDim = fb
  generalize sub32 tb (u32 (fb * c.k_maxDim)) = pb
  by_cases h1 : fb = 0 <;> by_cases h2 : pb = 0 <;>
    simp only [h1, h2, ne_eq, not_true_eq_false, not_false_eq_true, if_true, if_false,
      List.append_nil, List.nil_append, List.cons_append, launches_append_fresh, launchesFrom,
      List.append_assoc]

theorem launches_PropagateInclusive (c : KernelConsts) (cmds : List Cmd) (a b r vs tb : Nat) :
    launches (PropagateInclusive.Dispatch c cmds a b r vs tb) =
      launches cmds ++ tiledLaunches c vs tb := by
  simp only [PropagateInclusive.Dispatch, tiledLaunches]
  generalize tb / c.k_maxDim = fb
  generalize sub32 tb (u32 (fb * c.k_maxDim)) = pb
  by_cases h1 : fb = 0 <;> by_cases h2 : pb = 0 <;>
    simp only [h1, h2, ne_eq, not_true_eq_false, not_false_eq_true, if_true, if_false,
      List.append_nil, List.nil_append, List.cons_append, launches_append_fresh, launchesFrom,
      List.append_assoc]

theorem launches_PropagateExclusive (c : KernelConsts) (cmds : List Cmd) (a b r vs tb : Nat) :
    launches (PropagateExclusive.Dispatch c cmds a b r vs tb) =
      launches cmds ++ tiledLaunches c vs tb := by
  simp only [PropagateExclusive.Dispatch, tiledLaunches]
  generalize tb / c.k_maxDim = fb
  generalize sub32 tb (u32 (fb * c.k_maxDim)) = pb
  by_cases h1 : fb = 0 <;> by_cases h2 : pb = 0 <;>
    simp only [h1, h2, ne_eq, not_true_eq_false, not_false_eq_true, if_true, if_false,
      List.append_nil, List.nil_append, List.cons_append, launches_append_fresh, launchesFrom,
      List.append_assoc]

/-- In 32-bit arithmetic the tail count `threadBlocks - fullBlocks * k_maxDim` is the
remainder of the division; nothing wraps because the product is at most `threadBlocks`. -/
theorem partialBlocks_eq_mod (k tb : Nat) (htb : tb < 2 ^ 32) :
    sub32 tb (u32 (tb / k * k)) = tb % k := by
  have h1 : tb / k * k ≤ tb := Nat.div_mul_le_self tb k
  have h2 : tb / k * k + tb % k = tb := by
    have := Nat.div_add_mod tb k
    rw [Nat.mul_comm] at this
    exact this
  unfold sub32 u32
  generalize tb / k * k = q at h1 h2 ⊢
  generalize tb % k = r at h2 ⊢
  norm_num at htb ⊢
  omega

theorem range_rows (k rows : Nat) :
    ((List.range rows).flatMap fun gy => (List.range k).map fun gx => gx + gy * k) =
      List.range (rows * k) := by
  induction rows with
  | zero => simp
  | succ n ih =>
    rw [List.range_succ, List.flatMap_append, ih, Nat.succ_mul, List.range_add]
    simp [Nat.add_comm]

theorem indices_tiledLaunches (c : KernelConsts)
    (hflag : c.k_isNotPartialBitFlag ≠ c.k_isPartialBitFlag) (vs tb : Nat) (htb : tb < 2 ^ 32) :
    ((tiledLaunches c vs tb).flatMap fun l => l.groups.map (partitionIndex c l.constants)) =
      List.range tb := by
  unfold tiledLaunches
  rw [partialBlocks_eq_mod _ _ htb]
  have hsplit : List.range tb =
      List.range (tb / c.k_maxDim * c.k_maxDim) ++
        (List.range (tb % c.k_maxDim)).map (fun gx => gx + tb / c.k_maxDim * c.k_maxDim) := by
    have h2 : tb / c.k_maxDim * c.k_maxDim + tb % c.k_maxDim = tb := by
      have := Nat.div_add_mod tb c.k_maxDim
      rw [Nat.mul_comm] at this
      exact this
    conv_lhs => rw [← h2, List.range_add]
    simp [Nat.add_comm]
  rw [hsplit, List.flatMap_append]
  congr 1
  · by_cases h1 : tb / c.k_maxDim = 0
    · simp [h1]
    · simp only [h1, ne_eq, not_false_eq_true, if_true, List.flatMap_cons, List.flatMap_nil,
        List.append_nil, Launch.groups, List.map_flatMap, List.map_map]
      rw [← range_rows, show List.range 1 = [0] from rfl]
      simp only [List.flatMap_cons, List.flatMap_nil, List.append_nil]
      congr 1
      funext gy
      congr 1
      funext gx
      simp [partitionIndex, hflag]
  · by_cases h2 : tb % c.k_maxDim = 0
    · simp [h2]
    · simp only [h2, ne_eq, not_false_eq_true, if_true, List.flatMap_cons, List.flatMap_nil,
        List.append_nil, Launch.groups, List.map_flatMap, List.map_map]
      rw [show List.range 1 = [0] from rfl]
      simp [partitionIndex, Function.comp_def]

theorem groupCount_tiledLaunches (c : KernelConsts) (vs tb : Nat) (htb : tb < 2 ^ 32) :
    ((tiledLaunches c vs tb).map fun l => l.x * l.y * l.z).sum = tb := by
  unfold tiledLaunches
  rw [partialBlocks_eq_mod _ _ htb]
  have h2 : c.k_maxDim * (tb / c.k_maxDim) + tb % c.k_maxDim = tb := Nat.div_add_mod tb c.k_maxDim
  by_cases h1 : tb / c.k_maxDim = 0 <;> by_cases h3 : tb % c.k_maxDim = 0 <;>
    simp [h1, h3] <;> simp [h1, h3] at h2 <;> omega

theorem shapes_tiledLaunches (c : KernelConsts) (hk : 0 < c.k_maxDim) (vs tb : Nat)
    (htb : tb < 2 ^ 32) :
    ((tiledLaunches c vs tb).map fun l => (l.x, l.y, l.z)) = tiledShapes c.k_maxDim tb := by
  unfold tiledLaunches tiledShapes
  rw [partialBlocks_eq_mod _ _ htb]
  have hiff : tb / c.k_maxDim ≠ 0 ↔ c.k_maxDim ≤ tb := by
    rw [ne_eq, Nat.div_eq_zero_iff hk]
    omega
  by_cases h1 : c.k_maxDim ≤ tb
  · have h1' : tb / c.k_maxDim ≠ 0 := hiff.mpr h1
    by_cases h3 : tb % c.k_maxDim = 0 <;> simp [h1, h1', h3]
  · have h1' : ¬ (tb / c.k_maxDim ≠ 0) := fun h => h1 (hiff.mp h)
    by_cases h3 : tb % c.k_maxDim = 0 <;> simp [h1, h1', h3]

/-- C1: for every group count `threadBlocks` and per-dimension limit `k_maxDim > 0`, the
groups launched by `Reduce::Dispatch`, `PropagateInclusive::Dispatch` and
`PropagateExclusive::Dispatch` carry the logical partition indices `0, 1, ...,
threadBlocks - 1`, each exactly once (the list of launched indices is
`List.range threadBlocks`), and the number of groups launched is `threadBlocks`. -/
theorem C1_tiled_dispatch_covers_every_partition_once (c : KernelConsts)
    (hk : 0 < c.k_maxDim) (hflag : c.k_isNotPartialBitFlag ≠ c.k_isPartialBitFlag)
    (cmds : List Cmd) (scanIn scanOut reduction vs tb : Nat) (htb : tb < 2 ^ 32) :
    (launchedIndices c (Reduce.Dispatch c cmds scanIn reduction vs tb) =
        launchedIndices c cmds ++ List.range tb ∧
      groupCount (Reduce.Dispatch c cmds scanIn reduction vs tb) = groupCount cmds + tb) ∧
    (launchedIndices c (PropagateInclusive.Dispatch c cmds scanIn scanOut reduction vs tb) =
        launchedIndices c cmds ++ List.range tb ∧
      groupCount (PropagateInclusive.Dispatch c cmds scanIn scanOut reduction vs tb) =
        groupCount cmds + tb) ∧
    (launchedIndices c (PropagateExclusive.Dispatch c cmds scanIn scanOut reduction vs tb) =
        launchedIndices c cmds ++ List.range tb ∧
      groupCount (PropagateExclusive.Dispatch c cmds scanIn scanOut reduction vs tb) =
        groupCount cmds + tb) := by
  have _ := hk
  simp only [launchedIndices, groupCount, launches_Reduce, launches_PropagateInclusive,
    launches_PropagateExclusive, List.flatMap_append, List.map_append, List.sum_append,
    indices_tiledLaunches c hflag vs tb htb, groupCount_tiledLaunches c vs tb htb]
  simp

/-- Witness for C1: 11 groups with a limit of 3 per dimension. -/
theorem C1_tiled_dispatch_covers_every_partition_once_witness :
    launchedIndices ⟨3, 0, 1⟩ (Reduce.Dispatch ⟨3, 0, 1⟩ [] 100 200 5 11) =
      launchedIndices ⟨3, 0, 1⟩ [] ++ List.range 11 :=
  (C1_tiled_dispatch_covers_every_partition_once ⟨3, 0, 1⟩ (by decide) (by decide)
    [] 100 150 200 5 11 (by norm_num)).1.1

/-- C2: for every `threadBlocks`, each RTS tiled `Dispatch` issues the full dispatch
`(k_maxDim, threadBlocks / k_maxDim, 1)` exactly when `threadBlocks ≥ k_maxDim`, then the
partial dispatch `(threadBlocks mod k_maxDim, 1, 1)` exactly when the remainder is non-zero,
and nothing else; for `threadBlocks = 0` it issues nothing, and for `threadBlocks = 70000`
with `k_maxDim = 65535` it issues `(65535, 1, 1)` followed by `(4465, 1, 1)`. -/
theorem C2_tiled_dispatch_shapes (c : KernelConsts) (hk : 0 < c.k_maxDim)
    (cmds : List Cmd) (scanIn scanOut reduction vs tb : Nat) (htb : tb < 2 ^ 32) :
    (shapes (Reduce.Dispatch c cmds scanIn reduction vs tb) =
        shapes cmds ++ tiledShapes c.k_maxDim tb ∧
      shapes (PropagateInclusive.Dispatch c cmds scanIn scanOut reduction vs tb) =
        shapes cmds ++ tiledShapes c.k_maxDim tb ∧
      shapes (PropagateExclusive.Dispatch c cmds scanIn scanOut reduction vs tb) =
        shapes cmds ++ tiledShapes c.k_maxDim tb) ∧
    tiledShapes c.k_maxDim 0 = [] ∧
    tiledShapes 65535 70000 = [(65535, 1, 1), (4465, 1, 1)] := by
  refine ⟨?_, ?_, by decide⟩
  · simp only [shapes, launches_Reduce, launches_PropagateInclusive,
      launches_PropagateExclusive, List.map_append, shapes_tiledLaunches c hk vs tb htb]
    simp
  · simp [tiledShapes]
    omega

/-- Witness for C2: 70000 groups with the limit 65535. -/
theorem C2_tiled_dispatch_shapes_witness :
    shapes (Reduce.Dispatch ⟨65535, 0, 1⟩ [] 100 200 5 70000) =
      shapes [] ++ tiledShapes 65535 70000 :=
  (C2_tiled_dispatch_shapes ⟨65535, 0, 1⟩ (by decide) [] 100 150 200 5 70000
    (by norm_num)).1.1

end RTSKernels

namespace DeviceRadixSort

theorem loop_done (e : DeviceRadixSort) (radixShift : Nat) (h : ¬ radixShift < 32) :
    PrepareSortCmdList.loop e radixShift = some e := by
  rw [PrepareSortCmdList.loop, if_neg h]

theorem loop_step (e : DeviceRadixSort) (radixShift : Nat) (h : radixShift < 32)
    (s sp a ap g ph : Resource)
    (hs : e.m_sortBuffer = some s) (hsp : e.m_sortPayloadBuffer = some sp)
    (ha : e.m_altBuffer = some a) (hap : e.m_altPayloadBuffer = some ap)
    (hg : e.m_globalHistBuffer = some g) (hph : e.m_passHistBuffer = some ph) :
    PrepareSortCmdList.loop e radixShift =
      PrepareSortCmdList.loop
        { e with
          m_cmdList := e.m_cmdList ++
            passCmds s.address sp.address a.address ap.address g.address ph.address
              e.m_numKeys e.m_partitions radixShift
          m_sortBuffer := some a
          m_altBuffer := some s
          m_sortPayloadBuffer := some ap
          m_altPayloadBuffer := some sp }
        (radixShift + 8) := by
  rw [PrepareSortCmdList.loop, if_pos h]
  simp only [hs, hsp, ha, hap, hg, hph, Option.bind_eq_bind, Option.some_bind, passCmds]

theorem PrepareSortCmdList_unfold (e : DeviceRadixSort) (g : Resource)
    (hg : e.m_globalHistBuffer = some g) :
    PrepareSortCmdList e =
      PrepareSortCmdList.loop
        { e with
          m_cmdList := e.m_cmdList ++
            [SortCmd.InitDeviceRadixSort g.address, SortCmd.UAVBarrier g.address] } 0 := by
  unfold PrepareSortCmdList
  rw [hg]
  rfl

theorem loop_mk (k1 : String) (k2 k3 k4 k5 : Nat) (k6 : GPUSortingConfig)
    (k7 : TuningParameters) (n p : Nat) (cmds : List SortCmd) (s sp a ap : Resource)
    (ec rb : Option Resource) (al : Nat) (g ph : Resource) (radixShift : Nat)
    (h : radixShift < 32) :
    PrepareSortCmdList.loop
        ⟨⟨k1, k2, k3, k4, k5, k6, k7, n, p, cmds, some s, some sp, some a, some ap, ec, rb, al⟩,
          some g, some ph⟩ radixShift =
      PrepareSortCmdList.loop
        ⟨⟨k1, k2, k3, k4, k5, k6, k7, n, p,
            cmds ++ passCmds s.address sp.address a.address ap.address g.address ph.address
              n p radixShift,
            some a, some ap, some s, some sp, ec, rb, al⟩,
          some g, some ph⟩ (radixShift + 8) :=
  loop_step _ radixShift h s sp a ap g ph rfl rfl rfl rfl rfl rfl

theorem PrepareSortCmdList_eq (e : DeviceRadixSort) (h : Allocated e) :
    PrepareSortCmdList e = some { e with m_cmdList := e.m_cmdList ++ sortCmdsOf e } := by
  obtain ⟨h1, h2, h3, h4, h5, h6⟩ := h
  obtain ⟨s, hs⟩ := Option.isSome_iff_exists.mp h1
  obtain ⟨sp, hsp⟩ := Option.isSome_iff_exists.mp h2
  obtain ⟨a, ha⟩ := Option.isSome_iff_exists.mp h3
  obtain ⟨ap, hap⟩ := Option.isSome_iff_exists.mp h4
  obtain ⟨g, hg⟩ := Option.isSome_iff_exists.mp h5
  obtain ⟨ph, hph⟩ := Option.isSome_iff_exists.mp h6
  rw [PrepareSortCmdList_unfold e g hg]
  obtain ⟨b, gh, phb⟩ := e
  obtain ⟨n1, n2, n3, n4, n5, n6, n7, n8, n9, n10, b1, b2, b3, b4, b5, b6, n11⟩ := b
  simp only at hs hsp ha hap hg hph
  subst hs hsp ha hap hg hph
  show PrepareSortCmdList.loop ⟨⟨n1, n2, n3, n4, n5, n6, n7, n8, n9, _, some s, some sp, some a,
    some ap, b5, b6, n11⟩, some g, some ph⟩ 0 = _
  rw [loop_mk _ _ _ _ _ _ _ _ _ _ _ _ _ _ _ _ _ _ _ 0 (by decide)]
  rw [loop_mk _ _ _ _ _ _ _ _ _ _ _ _ _ _ _ _ _ _ _ 8 (by decide)]
  rw [loop_mk _ _ _ _ _ _ _ _ _ _ _ _ _ _ _ _ _ _ _ 16 (by decide)]
  rw [loop_mk _ _ _ _ _ _ _ _ _ _ _ _ _ _ _ _ _ _ _ 24 (by decide)]
  rw [loop_done _ 32 (by decide)]
  simp only [sortCmdsOf, sortCmds, addr, Option.map_some', Option.getD_some, List.append_assoc]

end DeviceRadixSort

namespace GPUSortBase

/-- Without wrap-around `divRoundUp` is the rounded-up quotient. -/
theorem divRoundUp_of_lt (x y : Nat) (hy : 0 < y) (h : x + y - 1 < 2 ^ 32) :
    divRoundUp x y = (x + y - 1) / y := by
  unfold divRoundUp sub32 u32
  simp only [Nat.reducePow, Nat.reduceMod] at h ⊢
  have hw : ((x + y) % 4294967296 + 4294967296 - 1) % 4294967296 = x + y - 1 := by omega
  rw [hw]

/-- Without wrap-around the partitions `divRoundUp` counts cover every key. -/
theorem divRoundUp_covers (x y : Nat) (hy : 0 < y) (h : x + y - 1 < 2 ^ 32) :
    x ≤ divRoundUp x y * y := by
  rw [divRoundUp_of_lt x y hy h]
  have h1 := Nat.div_add_mod (x + y - 1) y
  have h2 := Nat.mod_lt (x + y - 1) hy
  rw [Nat.mul_comm] at h1
  generalize (x + y - 1) / y * y = m at h1 ⊢
  generalize (x + y - 1) % y = r at h1 h2
  omega

theorem divRoundUp_self (P : Nat) (h1 : 1 ≤ P) (h2 : P < 2 ^ 31) : divRoundUp P P = 1 := by
  have e31 : (2 : Nat) ^ 31 = 2147483648 := by norm_num
  have e32 : (2 : Nat) ^ 32 = 4294967296 := by norm_num
  rw [e31] at h2
  rw [divRoundUp_of_lt P P h1 (by rw [e32]; omega)]
  apply Nat.div_eq_of_lt_le <;> omega

theorem divRoundUp_succ (P : Nat) (h1 : 1 ≤ P) (h2 : P < 2 ^ 31) :
    divRoundUp (P + 1) P = 2 := by
  have e31 : (2 : Nat) ^ 31 = 2147483648 := by norm_num
  have e32 : (2 : Nat) ^ 32 = 4294967296 := by norm_num
  rw [e31] at h2
  rw [divRoundUp_of_lt (P + 1) P h1 (by rw [e32]; omega)]
  apply Nat.div_eq_of_lt_le <;> omega

end GPUSortBase

namespace DeviceRadixSort

theorem InitBuffers_fields (e : DeviceRadixSort) (n t : Nat) :
    (InitBuffers e n t).m_numKeys = e.m_numKeys ∧
      (InitBuffers e n t).m_partitions = e.m_partitions ∧
      (InitBuffers e n t).k_tuningParameters = e.k_tuningParameters ∧
      (InitBuffers e n t).k_sortingConfig = e.k_sortingConfig := by
  simp only [InitBuffers, CreateBuffer]
  split <;> exact ⟨rfl, rfl, rfl, rfl⟩

theorem UpdateSize_same (e : DeviceRadixSort) (size : Nat) (h : e.m_numKeys = size) :
    UpdateSize e size = e := by
  unfold UpdateSize
  rw [if_neg (by simpa using h)]

theorem UpdateSize_fields (e : DeviceRadixSort) (size : Nat) (h : e.m_numKeys ≠ size) :
    (UpdateSize e size).m_numKeys = size ∧
      (UpdateSize e size).m_partitions =
        GPUSortBase.divRoundUp size e.k_tuningParameters.partitionSize ∧
      (UpdateSize e size).k_tuningParameters = e.k_tuningParameters := by
  unfold UpdateSize
  rw [if_pos h]
  obtain ⟨h1, h2, h3, _⟩ := InitBuffers_fields
    (DisposeBuffers
      { e with
        m_numKeys := size
        m_partitions := GPUSortBase.divRoundUp size e.k_tuningParameters.partitionSize })
    size (GPUSortBase.divRoundUp size e.k_tuningParameters.partitionSize)
  exact ⟨h1, h2, h3⟩

/-- The partition count is always the one `divRoundUp` yields for the current size. -/
theorem UpdateSize_partitions (e : DeviceRadixSort) (size : Nat)
    (hinv : e.m_partitions =
      GPUSortBase.divRoundUp e.m_numKeys e.k_tuningParameters.partitionSize) :
    (UpdateSize e size).m_numKeys = size ∧
      (UpdateSize e size).m_partitions =
        GPUSortBase.divRoundUp size e.k_tuningParameters.partitionSize ∧
      (UpdateSize e size).k_tuningParameters = e.k_tuningParameters := by
  by_cases h : e.m_numKeys = size
  · rw [UpdateSize_same e size h]
    exact ⟨h, by rw [hinv, h], rfl⟩
  · exact UpdateSize_fields e size h

end DeviceRadixSort

namespace DeviceRadixSort

theorem sweepFrom_eq_range' (testEnd : Nat) :
    ∀ (k i : Nat), testEnd - i = k → TestAll.sweepFrom testEnd i = List.range' i k := by
  intro k
  induction k with
  | zero =>
    intro i h
    rw [TestAll.sweepFrom, if_neg (by omega)]
    rfl
  | succ k ih =>
    intro i h
    rw [TestAll.sweepFrom, if_pos (by omega), ih (i + 1) (by omega)]
    rfl

/-- Without wrap-around the size sweep visits `partitionSize, ..., 2 * partitionSize`. -/
theorem sweepSizes_eq (P : Nat) (h : P < 2 ^ 31) :
    TestAll.sweepSizes P = List.range' P (P + 1) := by
  unfold TestAll.sweepSizes u32
  simp only [Nat.reducePow] at h ⊢
  have hw : (P * 2 + 1) % 4294967296 = P * 2 + 1 := by omega
  rw [hw, sweepFrom_eq_range' (P * 2 + 1) (P + 1) P (by omega)]

/-- C3 (evaluation at the failing input): with the tuning value `partitionSize = 7680`,
`UpdateSize(4294967295)` stores `m_numKeys = 4294967295` and `m_partitions = 0`, because
`x + y - 1` wraps to `7678` in `divRoundUp`; so `m_partitions * partitionSize` is below the
key count and no partition covers any element. -/
theorem C3_UpdateSize_partition_count_wraps :
    (UpdateSize (constructPairs ORDER.ORDER_ASCENDING KEY_TYPE.KEY_UINT32
        PAYLOAD_TYPE.PAYLOAD_UINT32 ⟨false, 15, 512, 7680, 7936⟩) 4294967295).m_numKeys =
        4294967295 ∧
      (UpdateSize (constructPairs ORDER.ORDER_ASCENDING KEY_TYPE.KEY_UINT32
        PAYLOAD_TYPE.PAYLOAD_UINT32 ⟨false, 15, 512, 7680, 7936⟩) 4294967295).m_partitions = 0 ∧
      GPUSortBase.divRoundUp 4294967295 7680 = 0 ∧
      ¬ (4294967295 ≤
        (UpdateSize (constructPairs ORDER.ORDER_ASCENDING KEY_TYPE.KEY_UINT32
          PAYLOAD_TYPE.PAYLOAD_UINT32 ⟨false, 15, 512, 7680, 7936⟩) 4294967295).m_partitions *
          7680) := by
  have hd : GPUSortBase.divRoundUp 4294967295 7680 = 0 := by
    unfold GPUSortBase.divRoundUp sub32 u32
    norm_num
  obtain ⟨h1, h2, _⟩ := UpdateSize_fields
    (constructPairs ORDER.ORDER_ASCENDING KEY_TYPE.KEY_UINT32
      PAYLOAD_TYPE.PAYLOAD_UINT32 ⟨false, 15, 512, 7680, 7936⟩) 4294967295 (by decide)
  rw [h1, h2]
  have hp : (constructPairs ORDER.ORDER_ASCENDING KEY_TYPE.KEY_UINT32
      PAYLOAD_TYPE.PAYLOAD_UINT32 ⟨false, 15, 512, 7680, 7936⟩).k_tuningParameters.partitionSize =
      7680 := rfl
  rw [hp, hd]
  exact ⟨rfl, rfl, rfl, by norm_num⟩

/-- C4 (counterexample): for `partitionSize = 2 ^ 31` the call `UpdateSize(P + 1)` yields no
partition at all instead of two, and the size sweep of `TestAll` is empty, because
`P + 1 + P - 1` and `P * 2 + 1` wrap around in `uint32_t`. -/
theorem C4_two_partitions_fails_at_large_partitionSize :
    (UpdateSize
        (UpdateSize (constructPairs ORDER.ORDER_ASCENDING KEY_TYPE.KEY_UINT32
          PAYLOAD_TYPE.PAYLOAD_UINT32 ⟨false, 15, 512, 2147483648, 7936⟩) 2147483648)
        (u32 (2147483648 + 1))).m_partitions = 0 ∧
      (UpdateSize
        (UpdateSize (constructPairs ORDER.ORDER_ASCENDING KEY_TYPE.KEY_UINT32
          PAYLOAD_TYPE.PAYLOAD_UINT32 ⟨false, 15, 512, 2147483648, 7936⟩) 2147483648)
        (u32 (2147483648 + 1))).m_partitions ≠ 2 ∧
      TestAll.sweepSizes 2147483648 = [] := by
  have hu : u32 (2147483648 + 1) = 2147483649 := by unfold u32; norm_num
  have hd : GPUSortBase.divRoundUp 2147483649 2147483648 = 0 := by
    unfold GPUSortBase.divRoundUp sub32 u32
    norm_num
  obtain ⟨a1, _, a3⟩ := UpdateSize_fields
    (constructPairs ORDER.ORDER_ASCENDING KEY_TYPE.KEY_UINT32
      PAYLOAD_TYPE.PAYLOAD_UINT32 ⟨false, 15, 512, 2147483648, 7936⟩) 2147483648 (by decide)
  obtain ⟨_, b2, _⟩ := UpdateSize_fields
    (UpdateSize (constructPairs ORDER.ORDER_ASCENDING KEY_TYPE.KEY_UINT32
      PAYLOAD_TYPE.PAYLOAD_UINT32 ⟨false, 15, 512, 2147483648, 7936⟩) 2147483648)
    2147483649 (by rw [a1]; decide)
  have hp : (constructPairs ORDER.ORDER_ASCENDING KEY_TYPE.KEY_UINT32
      PAYLOAD_TYPE.PAYLOAD_UINT32
      ⟨false, 15, 512, 2147483648, 7936⟩).k_tuningParameters.partitionSize = 2147483648 := rfl
  rw [hu, b2, a3, hp, hd]
  refine ⟨rfl, by decide, ?_⟩
  unfold TestAll.sweepSizes u32
  rw [TestAll.sweepFrom, if_neg (by norm_num)]

/-- C4 (amended): for every partition size `1 ≤ P < 2 ^ 31`, `UpdateSize(P)` yields exactly
one partition and `UpdateSize(P + 1)` yields exactly two, the first holding `P` elements and
the second `(P + 1) - P = 1` element; `P` and `P + 1` are the first two sizes of the size
sweep of `TestAll`, which visits `P, P + 1, ..., 2 * P`. -/
theorem C4_one_then_two_partitions (e : DeviceRadixSort) (P : Nat)
    (hP : e.k_tuningParameters.partitionSize = P) (h1 : 1 ≤ P) (h2 : P < 2 ^ 31)
    (hinv : e.m_partitions =
      GPUSortBase.divRoundUp e.m_numKeys e.k_tuningParameters.partitionSize) :
    (UpdateSize e P).m_numKeys = P ∧
      (UpdateSize e P).m_partitions = 1 ∧
      (UpdateSize (UpdateSize e P) (u32 (P + 1))).m_numKeys = P + 1 ∧
      (UpdateSize (UpdateSize e P) (u32 (P + 1))).m_partitions = 2 ∧
      tileLength (P + 1) P 0 = P ∧
      tileLength (P + 1) P 1 = 1 ∧
      TestAll.sweepSizes P = List.range' P (P + 1) ∧
      (TestAll.sweepSizes P).take 2 = [P, P + 1] := by
  have e31 : (2 : Nat) ^ 31 = 2147483648 := by norm_num
  have hu : u32 (P + 1) = P + 1 := by
    unfold u32
    simp only [Nat.reducePow] at h2 ⊢
    omega
  obtain ⟨a1, a2, a3⟩ := UpdateSize_partitions e P hinv
  have hinv1 : (UpdateSize e P).m_partitions =
      GPUSortBase.divRoundUp (UpdateSize e P).m_numKeys
        (UpdateSize e P).k_tuningParameters.partitionSize := by
    rw [a1, a2, a3]
  obtain ⟨b1, b2, _⟩ := UpdateSize_partitions (UpdateSize e P) (P + 1) hinv1
  rw [hu, a1, a2, b1, b2, a3, hP, GPUSortBase.divRoundUp_self P h1 h2,
    GPUSortBase.divRoundUp_succ P h1 h2, sweepSizes_eq P h2]
  refine ⟨rfl, rfl, rfl, rfl, ?_, ?_, rfl, ?_⟩
  · unfold tileLength; simp
  · unfold tileLength
    have : min ((1 + 1) * P) (P + 1) = P + 1 := by
      apply Nat.min_eq_right; omega
    rw [this]; omega
  · obtain ⟨k, rfl⟩ : ∃ k, P = k + 1 := ⟨P - 1, by omega⟩
    simp [List.range'_succ]

/-- Witness for C4 (amended): a fresh pairs engine with `partitionSize = 7680`. -/
theorem C4_one_then_two_partitions_witness :
    (UpdateSize (constructPairs ORDER.ORDER_ASCENDING KEY_TYPE.KEY_UINT32
        PAYLOAD_TYPE.PAYLOAD_UINT32 ⟨false, 15, 512, 7680, 7936⟩) 7680).m_partitions = 1 ∧
      (UpdateSize
        (UpdateSize (constructPairs ORDER.ORDER_ASCENDING KEY_TYPE.KEY_UINT32
          PAYLOAD_TYPE.PAYLOAD_UINT32 ⟨false, 15, 512, 7680, 7936⟩) 7680)
        (u32 (7680 + 1))).m_partitions = 2 :=
  have h := C4_one_then_two_partitions
    (constructPairs ORDER.ORDER_ASCENDING KEY_TYPE.KEY_UINT32
      PAYLOAD_TYPE.PAYLOAD_UINT32 ⟨false, 15, 512, 7680, 7936⟩) 7680 rfl (by decide)
    (by norm_num) (by decide)
  ⟨h.2.1, h.2.2.2.1⟩

end DeviceRadixSort

namespace DeviceRadixSort

theorem digit_eq (radixShift key : Nat) : digit radixShift key = key / 2 ^ radixShift % 256 := by
  unfold digit
  rw [Nat.shiftRight_eq_div_pow]
  exact Nat.and_pow_two_sub_one_eq_mod _ 8

theorem digit_lt (radixShift key : Nat) : digit radixShift key < 256 := by
  rw [digit_eq]
  exact Nat.mod_lt _ (by decide)

theorem flatMap_insert_perm {α : Type} (x : α) (d0 : Nat) (f : Nat → List α) :
    ∀ (l : List Nat), l.Nodup → d0 ∈ l →
      (l.flatMap fun d => if d0 = d then x :: f d else f d).Perm (x :: l.flatMap f) := by
  intro l
  induction l with
  | nil => intro _ h; simp at h
  | cons a t ih =>
    intro hnd hmem
    rw [List.nodup_cons] at hnd
    simp only [List.flatMap_cons]
    by_cases h : d0 = a
    · subst h
      have ht : (t.flatMap fun d => if d0 = d then x :: f d else f d) = t.flatMap f := by
        apply List.flatMap_congr
        intro d hd
        have : d0 ≠ d := fun hh => hnd.1 (hh ▸ hd)
        simp [this]
      simp [ht]
    · have hmem' : d0 ∈ t := by
        rcases List.mem_cons.mp hmem with h' | h'
        · exact absurd h' h
        · exact h'
      simp only [h, if_false]
      have := ih hnd.2 hmem'
      exact (List.Perm.append_left (f a) this).trans List.perm_middle

/-- Binning rearranges the elements: nothing is lost or duplicated. -/
theorem binByDigit_perm {α : Type} (key : α → Nat) (radixShift : Nat) (xs : List α) :
    (binByDigit key radixShift xs).Perm xs := by
  induction xs with
  | nil => simp [binByDigit]
  | cons x t ih =>
    have h1 : binByDigit key radixShift (x :: t) =
        (List.range 256).flatMap fun d =>
          if digit radixShift (key x) = d then
            x :: t.filter (fun y => digit radixShift (key y) == d)
          else t.filter (fun y => digit radixShift (key y) == d) := by
      unfold binByDigit
      apply List.flatMap_congr
      intro d _
      by_cases h : digit radixShift (key x) = d <;> simp [List.filter_cons, h]
    rw [h1]
    refine (flatMap_insert_perm x (digit radixShift (key x))
      (fun d => t.filter (fun y => digit radixShift (key y) == d)) (List.range 256)
      (List.nodup_range 256) (List.mem_range.mpr (digit_lt _ _))).trans ?_
    exact List.Perm.cons x ih

end DeviceRadixSort

namespace DeviceRadixSort

/-- Four passes at shifts 0, 8, 16 and 24 rearrange the input. -/
theorem four_passes_perm {α : Type} (key : α → Nat) (xs : List α) :
    (binByDigit key 24 (binByDigit key 16 (binByDigit key 8 (binByDigit key 0 xs)))).Perm xs :=
  (binByDigit_perm key 24 _).trans ((binByDigit_perm key 16 _).trans
    ((binByDigit_perm key 8 _).trans (binByDigit_perm key 0 _)))

end DeviceRadixSort

namespace DeviceRadixSort

theorem run_append (cfg : GPUSortingConfig) (P : Nat) (a b : List SortCmd)
    (m : Nat → List Nat) :
    run cfg P (a ++ b) m = run cfg P b (run cfg P a m) := by
  unfold run
  rw [List.foldl_append]

theorem run_passCmds (cfg : GPUSortingConfig) (P s sp a ap g ph n p shift : Nat)
    (m : Nat → List Nat) :
    run cfg P (passCmds s sp a ap g ph n p shift) m =
      exec cfg P (exec cfg P m (SortCmd.Scan ph p))
        (SortCmd.Downsweep s sp a ap g ph n p shift) :=
  rfl

theorem exec_Scan_of_ne (cfg : GPUSortingConfig) (P : Nat) (m : Nat → List Nat)
    (ph p x : Nat) (h : x ≠ ph) : exec cfg P m (SortCmd.Scan ph p) x = m x := by
  simp only [exec, Function.update_noteq h]

theorem binByDigit_length {α : Type} (key : α → Nat) (radixShift : Nat) (xs : List α) :
    (binByDigit key radixShift xs).length = xs.length :=
  (binByDigit_perm key radixShift xs).length_eq

/-- The count of a `Downsweep` that follows a `Scan` of the pass histogram is the count
taken before the `Scan`, when no key or payload buffer is the pass histogram. -/
theorem processed_after_Scan (cfg : GPUSortingConfig) (P : Nat) (m : Nat → List Nat)
    (s sp a ap ph N T p : Nat) (h1 : s ≠ ph) (h2 : sp ≠ ph) (h3 : a ≠ ph) (h4 : ap ≠ ph) :
    processed cfg P (exec cfg P m (SortCmd.Scan ph p)) s sp a ap N T =
      processed cfg P m s sp a ap N T := by
  unfold processed
  rw [exec_Scan_of_ne cfg P m ph p s h1, exec_Scan_of_ne cfg P m ph p sp h2,
    exec_Scan_of_ne cfg P m ph p a h3, exec_Scan_of_ne cfg P m ph p ap h4]

theorem processed_keys (cfg : GPUSortingConfig) (hmode : cfg.sortingMode = MODE.MODE_KEYS_ONLY)
    (P : Nat) (m : Nat → List Nat) (s sp a ap N T : Nat) :
    processed cfg P m s sp a ap N T =
      min (reached P N T) (min (m s).length (m a).length) := by
  unfold processed
  rw [hmode]

theorem processed_pairs (cfg : GPUSortingConfig) (hmode : cfg.sortingMode = MODE.MODE_PAIRS)
    (P : Nat) (m : Nat → List Nat) (s sp a ap N T : Nat) :
    processed cfg P m s sp a ap N T =
      min (reached P N T)
        (min (min (m s).length (m sp).length) (min (m a).length (m ap).length)) := by
  unfold processed
  rw [hmode]

/-- Writing `n` words to the front of a buffer of at least `n` words keeps its length and
the words behind. -/
theorem front_write {α : Type} (out old : List α) (n : Nat) (h1 : out.length = n)
    (h2 : n ≤ old.length) :
    (out ++ old.drop n).length = old.length ∧ (out ++ old.drop n).take n = out ∧
      (out ++ old.drop n).drop n = old.drop n := by
  refine ⟨?_, ?_, ?_⟩
  · rw [List.length_append, List.length_drop, h1]
    omega
  · rw [List.take_left' h1]
  · rw [List.drop_left' h1]

theorem run_sortCmds (cfg : GPUSortingConfig) (P s sp a ap g ph n p : Nat)
    (m : Nat → List Nat) :
    run cfg P (sortCmds s sp a ap g ph n p) m =
      run cfg P (passCmds a ap s sp g ph n p 24)
        (run cfg P (passCmds s sp a ap g ph n p 16)
          (run cfg P (passCmds a ap s sp g ph n p 8)
            (run cfg P (passCmds s sp a ap g ph n p 0) m))) := by
  unfold sortCmds
  rw [run_append, run_append, run_append, run_append]
  rfl

theorem zip_map_fst_snd {α β : Type} (l : List (α × β)) :
    (l.map Prod.fst).zip (l.map Prod.snd) = l := by
  induction l with
  | nil => rfl
  | cons x t ih => simp [ih]

theorem take_zip {α β : Type} (l1 : List α) (l2 : List β) (n : Nat) :
    (l1.zip l2).take n = (l1.take n).zip (l2.take n) :=
  List.take_zipWith

theorem drop_zip {α β : Type} (l1 : List α) (l2 : List β) (n : Nat) :
    (l1.zip l2).drop n = (l1.drop n).zip (l2.drop n) :=
  List.drop_zipWith

/-- Pairs mode: what one pass leaves in the alternate buffers and in every other buffer but
the pass histogram. -/
theorem pass_pairs (cfg : GPUSortingConfig) (hmode : cfg.sortingMode = MODE.MODE_PAIRS)
    (P s sp a ap g ph N T shift : Nat) (m : Nat → List Nat) (h1 : s ≠ ph) (h2 : sp ≠ ph)
    (h3 : a ≠ ph) (h4 : ap ≠ ph) (h5 : a ≠ ap) (n : Nat)
    (hn : n = min (reached P N T)
      (min (min (m s).length (m sp).length) (min (m a).length (m ap).length))) :
    run cfg P (passCmds s sp a ap g ph N T shift) m a =
        (binByDigit (fun x => sortKey cfg x.1) shift (((m s).zip (m sp)).take n)).map Prod.fst ++
          (m a).drop n ∧
      run cfg P (passCmds s sp a ap g ph N T shift) m ap =
        (binByDigit (fun x => sortKey cfg x.1) shift (((m s).zip (m sp)).take n)).map Prod.snd ++
          (m ap).drop n ∧
      ∀ x, x ≠ a → x ≠ ap → x ≠ ph →
        run cfg P (passCmds s sp a ap g ph N T shift) m x = m x := by
  rw [run_passCmds]
  have hp := processed_after_Scan cfg P m s sp a ap ph N T T h1 h2 h3 h4
  rw [processed_pairs cfg hmode P m, ← hn] at hp
  have e1 := exec_Scan_of_ne cfg P m ph T s h1
  have e2 := exec_Scan_of_ne cfg P m ph T sp h2
  have e3 := exec_Scan_of_ne cfg P m ph T a h3
  have e4 := exec_Scan_of_ne cfg P m ph T ap h4
  have e5 : ∀ x, x ≠ ph → exec cfg P m (SortCmd.Scan ph T) x = m x :=
    fun x hx => exec_Scan_of_ne cfg P m ph T x hx
  generalize exec cfg P m (SortCmd.Scan ph T) = m1 at hp e1 e2 e3 e4 e5 ⊢
  refine ⟨?_, ?_, ?_⟩
  · simp only [exec, hmode, hp, Function.update_same, Function.update_noteq h5, e1, e2, e3]
  · simp only [exec, hmode, hp, Function.update_same, e1, e2, e4]
  · intro x hxa hxap hph
    simp only [exec, hmode, Function.update_noteq hxa, Function.update_noteq hxap, e5 x hph]

/-- Pairs mode: one pass leaves the binned front of the current pair of buffers at the front
of the alternate pair, and keeps the length of every buffer and the words behind the
front. -/
theorem pass_pairs_facts (cfg : GPUSortingConfig) (hmode : cfg.sortingMode = MODE.MODE_PAIRS)
    (P s sp a ap g ph N T shift : Nat) (m : Nat → List Nat) (h1 : s ≠ ph) (h2 : sp ≠ ph)
    (h3 : a ≠ ph) (h4 : ap ≠ ph) (h5 : a ≠ ap) (n : Nat)
    (hn : n = min (reached P N T)
      (min (min (m s).length (m sp).length) (min (m a).length (m ap).length))) :
    ((run cfg P (passCmds s sp a ap g ph N T shift) m a).zip
        (run cfg P (passCmds s sp a ap g ph N T shift) m ap)).take n =
        binByDigit (fun x => sortKey cfg x.1) shift (((m s).zip (m sp)).take n) ∧
      ∀ x, x ≠ ph →
        (run cfg P (passCmds s sp a ap g ph N T shift) m x).length = (m x).length ∧
        (run cfg P (passCmds s sp a ap g ph N T shift) m x).drop n = (m x).drop n := by
  obtain ⟨ha, hap, hx⟩ := pass_pairs cfg hmode P s sp a ap g ph N T shift m h1 h2 h3 h4 h5 n hn
  have hlen : (binByDigit (fun x => sortKey cfg x.1) shift
      (((m s).zip (m sp)).take n)).length = n := by
    rw [binByDigit_length, List.length_take, List.length_zip]
    omega
  have hfa := front_write ((binByDigit (fun x => sortKey cfg x.1) shift
    (((m s).zip (m sp)).take n)).map Prod.fst) (m a) n (by rw [List.length_map, hlen])
    (by omega)
  have hfp := front_write ((binByDigit (fun x => sortKey cfg x.1) shift
    (((m s).zip (m sp)).take n)).map Prod.snd) (m ap) n (by rw [List.length_map, hlen])
    (by omega)
  refine ⟨?_, ?_⟩
  · rw [take_zip, ha, hap, hfa.2.1, hfp.2.1, zip_map_fst_snd]
  · intro x hph
    by_cases hxa : x = a
    · subst hxa
      rw [ha]
      exact ⟨hfa.1, hfa.2.2⟩
    · by_cases hxap : x = ap
      · subst hxap
        rw [hap]
        exact ⟨hfp.1, hfp.2.2⟩
      · rw [hx x hxa hxap hph]
        exact ⟨rfl, rfl⟩

/-- Pairs mode: after the recorded sort the fronts of the buffers `sort` and `sortPayload`
hold the pairs that were there, put through the four passes; the words behind are as
before. -/
theorem run_sortCmds_pairs (cfg : GPUSortingConfig) (hmode : cfg.sortingMode = MODE.MODE_PAIRS)
    (P s sp a ap g ph N T : Nat) (m : Nat → List Nat)
    (h1 : s ≠ sp) (h2 : a ≠ ap) (h3 : s ≠ ph) (h4 : sp ≠ ph) (h5 : a ≠ ph) (h6 : ap ≠ ph)
    (n : Nat)
    (hn : n = min (reached P N T)
      (min (min (m s).length (m sp).length) (min (m a).length (m ap).length))) :
    (run cfg P (sortCmds s sp a ap g ph N T) m s).zip
        (run cfg P (sortCmds s sp a ap g ph N T) m sp) =
      binByDigit (fun x => sortKey cfg x.1) 24 (binByDigit (fun x => sortKey cfg x.1) 16
        (binByDigit (fun x => sortKey cfg x.1) 8 (binByDigit (fun x => sortKey cfg x.1) 0
          (((m s).zip (m sp)).take n)))) ++ ((m s).zip (m sp)).drop n ∧
    (run cfg P (sortCmds s sp a ap g ph N T) m s).length = (m s).length ∧
    (run cfg P (sortCmds s sp a ap g ph N T) m sp).length = (m sp).length := by
  rw [run_sortCmds]
  obtain ⟨t1, f1⟩ := pass_pairs_facts cfg hmode P s sp a ap g ph N T 0 m h3 h4 h5 h6 h2 n hn
  generalize run cfg P (passCmds s sp a ap g ph N T 0) m = m1 at t1 f1 ⊢
  have l1 : n = min (reached P N T)
      (min (min (m1 a).length (m1 ap).length) (min (m1 s).length (m1 sp).length)) := by
    rw [(f1 a h5).1, (f1 ap h6).1, (f1 s h3).1, (f1 sp h4).1, hn,
      Nat.min_comm (min (m a).length (m ap).length)]
  obtain ⟨t2, f2⟩ := pass_pairs_facts cfg hmode P a ap s sp g ph N T 8 m1 h5 h6 h3 h4 h1 n l1
  generalize run cfg P (passCmds a ap s sp g ph N T 8) m1 = m2 at t2 f2 ⊢
  have l2 : n = min (reached P N T)
      (min (min (m2 s).length (m2 sp).length) (min (m2 a).length (m2 ap).length)) := by
    rw [(f2 a h5).1, (f2 ap h6).1, (f2 s h3).1, (f2 sp h4).1, (f1 a h5).1, (f1 ap h6).1,
      (f1 s h3).1, (f1 sp h4).1, hn]
  obtain ⟨t3, f3⟩ := pass_pairs_facts cfg hmode P s sp a ap g ph N T 16 m2 h3 h4 h5 h6 h2 n l2
  generalize run cfg P (passCmds s sp a ap g ph N T 16) m2 = m3 at t3 f3 ⊢
  have l3 : n = min (reached P N T)
      (min (min (m3 a).length (m3 ap).length) (min (m3 s).length (m3 sp).length)) := by
    rw [(f3 a h5).1, (f3 ap h6).1, (f3 s h3).1, (f3 sp h4).1, (f2 a h5).1, (f2 ap h6).1,
      (f2 s h3).1, (f2 sp h4).1, (f1 a h5).1, (f1 ap h6).1, (f1 s h3).1, (f1 sp h4).1, hn,
      Nat.min_comm (min (m a).length (m ap).length)]
  obtain ⟨t4, f4⟩ := pass_pairs_facts cfg hmode P a ap s sp g ph N T 24 m3 h5 h6 h3 h4 h1 n l3
  generalize run cfg P (passCmds a ap s sp g ph N T 24) m3 = m4 at t4 f4 ⊢
  refine ⟨?_, ?_, ?_⟩
  · rw [← List.take_append_drop n ((m4 s).zip (m4 sp)), t4, t3, t2, t1, drop_zip, drop_zip,
      (f4 s h3).2, (f3 s h3).2, (f2 s h3).2, (f1 s h3).2, (f4 sp h4).2, (f3 sp h4).2,
      (f2 sp h4).2, (f1 sp h4).2]
  · rw [(f4 s h3).1, (f3 s h3).1, (f2 s h3).1, (f1 s h3).1]
  · rw [(f4 sp h4).1, (f3 sp h4).1, (f2 sp h4).1, (f1 sp h4).1]

/-- C6: `PrepareSortCmdList` returns, and afterwards `m_sortBuffer`, `m_altBuffer`,
`m_sortPayloadBuffer` and `m_altPayloadBuffer` refer to the resources they referred to
before the call; the entries it records contain no buffer copy. -/
theorem C6_buffers_return_to_original_slots (e : DeviceRadixSort) (halloc : Allocated e) :
    ∃ r, PrepareSortCmdList e = some r ∧
      r.m_sortBuffer = e.m_sortBuffer ∧ r.m_altBuffer = e.m_altBuffer ∧
      r.m_sortPayloadBuffer = e.m_sortPayloadBuffer ∧
      r.m_altPayloadBuffer = e.m_altPayloadBuffer ∧
      r.m_cmdList = e.m_cmdList ++ sortCmdsOf e ∧
      ∀ c ∈ sortCmdsOf e, SortCmd.isCopy c = false := by
  refine ⟨_, PrepareSortCmdList_eq e halloc, rfl, rfl, rfl, rfl, rfl, ?_⟩
  intro c hc
  simp only [sortCmdsOf, sortCmds, passCmds, List.cons_append, List.nil_append,
    List.mem_cons, List.mem_singleton, List.not_mem_nil, or_false] at hc
  rcases hc with h | h | h | h | h | h | h | h | h | h | h | h | h | h | h | h | h | h | h | h |
    h | h | h | h | h | h | h | h | h | h | h | h | h | h | h | h | h | h | h | h | h | h <;>
    rw [h] <;> rfl

end DeviceRadixSort

namespace DeviceRadixSort

theorem exampleEngine_allocated : Allocated exampleEngine := by decide

theorem exampleEngine_addresses :
    addr exampleEngine.m_sortBuffer = 3 ∧ addr exampleEngine.m_sortPayloadBuffer = 6 ∧
      addr exampleEngine.m_altBuffer = 4 ∧ addr exampleEngine.m_altPayloadBuffer = 7 ∧
      addr exampleEngine.m_passHistBuffer = 5 ∧ addr exampleEngine.m_globalHistBuffer = 0 := by
  decide

/-- Witness for C6: the buffers of `exampleEngine`. -/
theorem C6_buffers_return_to_original_slots_witness :
    ∃ r, PrepareSortCmdList exampleEngine = some r ∧
      r.m_sortBuffer = exampleEngine.m_sortBuffer ∧ r.m_altBuffer = exampleEngine.m_altBuffer ∧
      r.m_sortPayloadBuffer = exampleEngine.m_sortPayloadBuffer ∧
      r.m_altPayloadBuffer = exampleEngine.m_altPayloadBuffer ∧
      r.m_cmdList = exampleEngine.m_cmdList ++ sortCmdsOf exampleEngine ∧
      ∀ c ∈ sortCmdsOf exampleEngine, SortCmd.isCopy c = false :=
  C6_buffers_return_to_original_slots exampleEngine exampleEngine_allocated

end DeviceRadixSort

namespace DeviceRadixSort

/-- C7: `PrepareSortCmdList` returns and records exactly one `InitDeviceRadixSort`
dispatch followed by exactly four passes with `radixShift` 0, 8, 16, 24 in that order, each
pass being `Upsweep`, then `Scan`, then `Downsweep` with that pass's `radixShift`; both
`DeviceRadixSort` and `OneSweep` are constructed with `radixPasses = 4` and `radix = 256`,
and the four 8-bit digits cover each of the 32 key bits exactly once. -/
theorem C7_one_init_then_four_passes (e : DeviceRadixSort) (halloc : Allocated e) :
    (∃ r, PrepareSortCmdList e = some r ∧ r.m_cmdList = e.m_cmdList ++ sortCmdsOf e ∧
      (sortCmdsOf e).filterMap SortCmd.dispatch? =
        [("InitDeviceRadixSort", none),
         ("Upsweep", some 0), ("Scan", none), ("Downsweep", some 0),
         ("Upsweep", some 8), ("Scan", none), ("Downsweep", some 8),
         ("Upsweep", some 16), ("Scan", none), ("Downsweep", some 16),
         ("Upsweep", some 24), ("Scan", none), ("Downsweep", some 24)]) ∧
    (∀ (o : ORDER) (k : KEY_TYPE) (p : PAYLOAD_TYPE) (t : TuningParameters),
      (constructKeysOnly o k t).k_radixPasses = 4 ∧ (constructKeysOnly o k t).k_radix = 256 ∧
      (constructPairs o k p t).k_radixPasses = 4 ∧ (constructPairs o k p t).k_radix = 256 ∧
      (OneSweep.constructKeysOnly o k t).k_radixPasses = 4 ∧
      (OneSweep.constructKeysOnly o k t).k_radix = 256 ∧
      (OneSweep.constructPairs o k p t).k_radixPasses = 4 ∧
      (OneSweep.constructPairs o k p t).k_radix = 256) ∧
    (∀ b, b < 32 → ([0, 8, 16, 24].filter fun s => decide (s ≤ b ∧ b < s + 8)).length = 1) ∧
    (∀ key, key < 2 ^ 32 →
      key = digit 0 key + 2 ^ 8 * digit 8 key + 2 ^ 16 * digit 16 key +
        2 ^ 24 * digit 24 key) := by
  refine ⟨⟨_, PrepareSortCmdList_eq e halloc, rfl, rfl⟩, ?_, by decide, ?_⟩
  · intro o k p t
    exact ⟨rfl, rfl, rfl, rfl, rfl, rfl, rfl, rfl⟩
  · intro key hkey
    simp only [digit_eq, Nat.reducePow] at hkey ⊢
    omega

/-- Witness for C7: the command list of `exampleEngine`. -/
theorem C7_one_init_then_four_passes_witness :
    ∃ r, PrepareSortCmdList exampleEngine = some r ∧
      r.m_cmdList = exampleEngine.m_cmdList ++ sortCmdsOf exampleEngine ∧
      (sortCmdsOf exampleEngine).filterMap SortCmd.dispatch? =
        [("InitDeviceRadixSort", none),
         ("Upsweep", some 0), ("Scan", none), ("Downsweep", some 0),
         ("Upsweep", some 8), ("Scan", none), ("Downsweep", some 8),
         ("Upsweep", some 16), ("Scan", none), ("Downsweep", some 16),
         ("Upsweep", some 24), ("Scan", none), ("Downsweep", some 24)] :=
  (C7_one_init_then_four_passes exampleEngine exampleEngine_allocated).1

/-- C8: in the four passes recorded by `PrepareSortCmdList` keys and payloads are swapped in
lock-step: the `Upsweep` and `Downsweep` of pass `k` read from the original sort and
sort-payload resources when `k` is even and from the original alt and alt-payload resources
when `k` is odd, and `Downsweep` writes to the other pair; consequently, in pairs mode, the
pairs of key and payload found in the sort buffers after the sort are a rearrangement of the
pairs found there before it. -/
theorem C8_keys_and_payloads_swap_in_lock_step (e : DeviceRadixSort) (halloc : Allocated e) :
    (∃ r, PrepareSortCmdList e = some r ∧ r.m_cmdList = e.m_cmdList ++ sortCmdsOf e ∧
      r.m_sortBuffer = e.m_sortBuffer ∧ r.m_sortPayloadBuffer = e.m_sortPayloadBuffer ∧
      (sortCmdsOf e).filterMap SortCmd.downsweep? =
        [(addr e.m_sortBuffer, addr e.m_sortPayloadBuffer,
            addr e.m_altBuffer, addr e.m_altPayloadBuffer, 0),
         (addr e.m_altBuffer, addr e.m_altPayloadBuffer,
            addr e.m_sortBuffer, addr e.m_sortPayloadBuffer, 8),
         (addr e.m_sortBuffer, addr e.m_sortPayloadBuffer,
            addr e.m_altBuffer, addr e.m_altPayloadBuffer, 16),
         (addr e.m_altBuffer, addr e.m_altPayloadBuffer,
            addr e.m_sortBuffer, addr e.m_sortPayloadBuffer, 24)] ∧
      (sortCmdsOf e).filterMap SortCmd.upsweep? =
        [(addr e.m_sortBuffer, 0), (addr e.m_altBuffer, 8),
         (addr e.m_sortBuffer, 16), (addr e.m_altBuffer, 24)]) ∧
    (∀ m : Nat → List Nat,
      e.k_sortingConfig.sortingMode = MODE.MODE_PAIRS →
      addr e.m_sortBuffer ≠ addr e.m_sortPayloadBuffer →
      addr e.m_altBuffer ≠ addr e.m_altPayloadBuffer →
      addr e.m_sortBuffer ≠ addr e.m_passHistBuffer →
      addr e.m_sortPayloadBuffer ≠ addr e.m_passHistBuffer →
      addr e.m_altBuffer ≠ addr e.m_passHistBuffer →
      addr e.m_altPayloadBuffer ≠ addr e.m_passHistBuffer →
      ((run e.k_sortingConfig e.k_tuningParameters.partitionSize (sortCmdsOf e) m
          (addr e.m_sortBuffer)).zip
        (run e.k_sortingConfig e.k_tuningParameters.partitionSize (sortCmdsOf e) m
          (addr e.m_sortPayloadBuffer))).Perm
        ((m (addr e.m_sortBuffer)).zip (m (addr e.m_sortPayloadBuffer)))) := by
  refine ⟨⟨_, PrepareSortCmdList_eq e halloc, rfl, rfl, rfl, rfl, rfl⟩, ?_⟩
  intro m hmode h1 h2 h3 h4 h5 h6
  unfold sortCmdsOf
  rw [(run_sortCmds_pairs _ hmode e.k_tuningParameters.partitionSize _ _ _ _ _ _ _ _ m
    h1 h2 h3 h4 h5 h6 _ rfl).1]
  refine ((four_passes_perm _ _).append_right _).trans ?_
  rw [List.take_append_drop]

/-- Witness for C8: the passes recorded for `exampleEngine`. -/
theorem C8_keys_and_payloads_swap_in_lock_step_witness :
    (sortCmdsOf exampleEngine).filterMap SortCmd.downsweep? =
        [(3, 6, 4, 7, 0), (4, 7, 3, 6, 8), (3, 6, 4, 7, 16), (4, 7, 3, 6, 24)] := by
  obtain ⟨_, _, _, _, _, h, _⟩ :=
    (C8_keys_and_payloads_swap_in_lock_step exampleEngine exampleEngine_allocated).1
  rw [exampleEngine_addresses.1, exampleEngine_addresses.2.1,
    exampleEngine_addresses.2.2.1, exampleEngine_addresses.2.2.2.1] at h
  exact h

end DeviceRadixSort

namespace DeviceRadixSort

theorem tiles_nil (P : Nat) : tiles P [] = [] := by
  rw [tiles]
  simp

theorem tiles_cons (P : Nat) (hP : 0 < P) (x : Nat) (t : List Nat) :
    tiles P (x :: t) = (x :: t).take P :: tiles P ((x :: t).drop P) := by
  rw [tiles]
  simp [hP]

theorem tiles_flatten (P : Nat) (hP : 0 < P) :
    ∀ (n : Nat) (xs : List Nat), xs.length = n → (tiles P xs).flatten = xs := by
  intro n
  induction n using Nat.strong_induction_on with
  | _ n ih =>
    intro xs hlen
    cases xs with
    | nil => rw [tiles_nil]; rfl
    | cons x t =>
      rw [tiles_cons P hP, List.flatten_cons,
        ih ((x :: t).drop P).length (by simp only [List.length_drop, List.length_cons] at hlen ⊢; omega)
          _ rfl]
      exact List.take_append_drop P (x :: t)

theorem inclusiveFrom_append (acc : Nat) (a b : List Nat) :
    inclusiveFrom acc (a ++ b) = inclusiveFrom acc a ++ inclusiveFrom (acc + a.sum) b := by
  induction a generalizing acc with
  | nil => simp [inclusiveFrom]
  | cons x t ih => simp [inclusiveFrom, ih, Nat.add_assoc]

theorem exclusiveFrom_append (acc : Nat) (a b : List Nat) :
    exclusiveFrom acc (a ++ b) = exclusiveFrom acc a ++ exclusiveFrom (acc + a.sum) b := by
  induction a generalizing acc with
  | nil => simp [exclusiveFrom]
  | cons x t ih => simp [exclusiveFrom, ih, Nat.add_assoc]

/-- Scanning tile by tile, each tile started at the sum of the aggregates of the tiles
before it, is scanning the concatenation. -/
theorem inclusive_by_tiles (ts : List (List Nat)) (acc : Nat) :
    ((ts.zip (exclusiveFrom acc (ts.map List.sum))).flatMap fun tp => inclusiveFrom tp.2 tp.1) =
      inclusiveFrom acc ts.flatten := by
  induction ts generalizing acc with
  | nil => rfl
  | cons t rest ih =>
    simp only [List.map_cons, exclusiveFrom, List.zip_cons_cons, List.flatMap_cons,
      List.flatten_cons, inclusiveFrom_append, ih]

theorem exclusive_by_tiles (ts : List (List Nat)) (acc : Nat) :
    ((ts.zip (exclusiveFrom acc (ts.map List.sum))).flatMap fun tp => exclusiveFrom tp.2 tp.1) =
      exclusiveFrom acc ts.flatten := by
  induction ts generalizing acc with
  | nil => rfl
  | cons t rest ih =>
    simp only [List.map_cons, exclusiveFrom, List.zip_cons_cons, List.flatMap_cons,
      List.flatten_cons, exclusiveFrom_append, ih]

theorem inclusiveFrom_getElem? (xs : List Nat) :
    ∀ (acc i : Nat), i < xs.length →
      (inclusiveFrom acc xs)[i]? = some (acc + (xs.take (i + 1)).sum) := by
  induction xs with
  | nil => intro acc i h; simp at h
  | cons x t ih =>
    intro acc i h
    cases i with
    | zero => simp [inclusiveFrom]
    | succ j =>
      simp only [inclusiveFrom, List.getElem?_cons_succ, List.take_succ_cons, List.sum_cons]
      rw [ih (acc + x) j (by simpa using h), Nat.add_assoc]

theorem exclusiveFrom_getElem? (xs : List Nat) :
    ∀ (acc i : Nat), i < xs.length →
      (exclusiveFrom acc xs)[i]? = some (acc + (xs.take i).sum) := by
  induction xs with
  | nil => intro acc i h; simp at h
  | cons x t ih =>
    intro acc i h
    cases i with
    | zero => simp [exclusiveFrom]
    | succ j =>
      simp only [exclusiveFrom, List.getElem?_cons_succ, List.take_succ_cons, List.sum_cons]
      rw [ih (acc + x) j (by simpa using h), Nat.add_assoc]

theorem inclusiveFrom_length (xs : List Nat) (acc : Nat) :
    (inclusiveFrom acc xs).length = xs.length := by
  induction xs generalizing acc with
  | nil => rfl
  | cons x t ih => simp [inclusiveFrom, ih]

theorem exclusiveFrom_length (xs : List Nat) (acc : Nat) :
    (exclusiveFrom acc xs).length = xs.length := by
  induction xs generalizing acc with
  | nil => rfl
  | cons x t ih => simp [exclusiveFrom, ih]

theorem exclusiveFrom_ones (n acc : Nat) :
    exclusiveFrom acc (List.replicate n 1) = List.range' acc n := by
  induction n generalizing acc with
  | zero => rfl
  | succ k ih => simp [List.replicate_succ, exclusiveFrom, ih, List.range'_succ]

end DeviceRadixSort

namespace PrefixSum

open DeviceRadixSort

theorem scanInclusive_eq (P : Nat) (hP : 0 < P) (xs : List Nat) :
    scanInclusive P xs = inclusiveFrom 0 xs := by
  unfold scanInclusive
  simp only [inclusive_by_tiles, tiles_flatten P hP xs.length xs rfl]

theorem scanExclusive_eq (P : Nat) (hP : 0 < P) (xs : List Nat) :
    scanExclusive P xs = exclusiveFrom 0 xs := by
  unfold scanExclusive
  simp only [exclusive_by_tiles, tiles_flatten P hP xs.length xs rfl]

end PrefixSum

namespace Host

open DeviceRadixSort

theorem ValidateScan_loop_iff (vecOut : List Nat) (size : Nat) :
    ∀ (k i : Nat), size - i = k →
      (ValidateScan.loop vecOut size i = true ↔
        ∀ j, i ≤ j → j < size → vecOut[j]? = some j) := by
  intro k
  induction k with
  | zero =>
    intro i h
    rw [ValidateScan.loop, if_neg (by omega)]
    simp only [true_iff]
    intro j h1 h2
    omega
  | succ k ih =>
    intro i h
    rw [ValidateScan.loop, if_pos (by omega)]
    by_cases hi : vecOut[i]? = some i
    · rw [if_neg (by simpa using hi), ih (i + 1) (by omega)]
      constructor
      · intro hall j h1 h2
        rcases Nat.eq_or_lt_of_le h1 with h3 | h3
        · rw [← h3]; exact hi
        · exact hall j h3 h2
      · intro hall j h1 h2
        exact hall j (by omega) h2
    · rw [if_pos (by simpa using hi)]
      simp only [Bool.false_eq_true, false_iff]
      intro hall
      exact hi (hall i (Nat.le_refl i) (by omega))

end Host

namespace Host

open DeviceRadixSort

/-- Device side of the scan test: after the test values are initialised and scanned, the
first `size` words of the pass histogram are `0, 1, ..., size - 1`. -/
theorem scan_of_test_values (cfg : GPUSortingConfig) (P : Nat) (m : Nat → List Nat)
    (ph size : Nat) (hcap : size ≤ (m ph).length) :
    (run cfg P [SortCmd.InitScanTestValues ph size, SortCmd.UAVBarrier ph, SortCmd.Scan ph size]
      m ph).take size = List.range size := by
  have hrun : run cfg P [SortCmd.InitScanTestValues ph size, SortCmd.UAVBarrier ph,
      SortCmd.Scan ph size] m ph =
      (tiles size (List.replicate size 1 ++ (m ph).drop size)).flatMap (exclusiveFrom 0) := by
    simp only [run, List.foldl_cons, List.foldl_nil, exec, Function.update_same,
      Nat.min_eq_left hcap]
  rw [hrun]
  cases size with
  | zero => simp
  | succ k =>
    have ht : tiles (k + 1) (List.replicate (k + 1) 1 ++ (m ph).drop (k + 1)) =
        List.replicate (k + 1) 1 :: tiles (k + 1) ((m ph).drop (k + 1)) := by
      rw [List.replicate_succ, List.cons_append, tiles_cons (k + 1) (by omega),
        ← List.cons_append, ← List.replicate_succ]
      rw [List.take_left' (by simp), List.drop_left' (by simp)]
    rw [ht, List.flatMap_cons, exclusiveFrom_ones, List.take_left' (by simp)]
    exact (List.range_eq_range' _).symm

/-- Device side of the read-back: copying `size` words from offset 0 to offset 0. -/
theorem copy_words (cfg : GPUSortingConfig) (P : Nat) (m : Nat → List Nat)
    (dst src size : Nat) :
    run cfg P [SortCmd.CopyBufferRegion dst 0 src 0 (size * 4)] m dst =
      (m src).take size ++ (m dst).drop size := by
  simp only [run, List.foldl_cons, List.foldl_nil, exec, Function.update_same,
    Nat.zero_div, List.take_zero, List.nil_append, List.drop_zero,
    Nat.mul_div_cancel _ (show 0 < 4 by decide), Nat.zero_add]

/-- Host side of the scan test: `ValidateScan` returns, and it returns `true`, for every
size the pass histogram has room for. -/
theorem ValidateScan_true (h : Host) (size : Nat) (ph rb : Resource)
    (hph : h.engine.m_passHistBuffer = some ph) (hrb : h.engine.m_readBackBuffer = some rb)
    (hfresh : h.engine.m_cmdList = []) (hcap : size ≤ (h.mem ph.address).length) :
    ∃ r, ValidateScan h size = some (true, r) ∧ r.ReadBackBuffer rb size = List.range size := by
  have hvec : ((h.record
      [SortCmd.InitScanTestValues ph.address size, SortCmd.UAVBarrier ph.address,
       SortCmd.Scan ph.address size]).ExecuteCommandList.record
      [SortCmd.CopyBufferRegion rb.address 0 ph.address 0 (size * 4)]).ExecuteCommandList.ReadBackBuffer
        rb size = List.range size := by
    simp only [ReadBackBuffer, ExecuteCommandList, record, hfresh, List.nil_append, copy_words]
    rw [List.take_append_of_le_length (by
      rw [List.length_take]
      have := congrArg List.length (scan_of_test_values h.engine.k_sortingConfig
        h.engine.k_tuningParameters.partitionSize h.mem ph.address size hcap)
      rw [List.length_take, List.length_range] at this
      omega), List.take_take, Nat.min_self]
    exact scan_of_test_values _ _ _ _ _ hcap
  refine ⟨_, ?_, hvec⟩
  unfold ValidateScan
  simp only [hph, Option.bind_eq_bind, Option.some_bind]
  have hrb' : (h.record
      [SortCmd.InitScanTestValues ph.address size, SortCmd.UAVBarrier ph.address,
       SortCmd.Scan ph.address size]).ExecuteCommandList.engine.m_readBackBuffer = some rb := hrb
  rw [hrb']
  simp only [Option.some_bind, hvec]
  have hl : ValidateScan.loop (List.range size) size 0 = true := by
    rw [ValidateScan_loop_iff (List.range size) size size 0 rfl]
    intro j _ hj
    simp [hj]
  rw [hl]
  rfl

end Host

namespace Host

open DeviceRadixSort

/-- `ValidateScan` returns, for any contents of the device buffers: its result is the outcome
of the comparison loop on the words read back after the two command lists it submits, the
scan of the test values and the copy to the read-back buffer. -/
theorem ValidateScan_eq (h : Host) (size : Nat) (ph rb : Resource)
    (hph : h.engine.m_passHistBuffer = some ph) (hrb : h.engine.m_readBackBuffer = some rb) :
    ValidateScan h size =
      some (ValidateScan.loop
        (((h.record
          [SortCmd.InitScanTestValues ph.address size, SortCmd.UAVBarrier ph.address,
           SortCmd.Scan ph.address size]).ExecuteCommandList.record
          [SortCmd.CopyBufferRegion rb.address 0 ph.address 0
            (size * 4)]).ExecuteCommandList.ReadBackBuffer rb size) size 0,
        ((h.record
          [SortCmd.InitScanTestValues ph.address size, SortCmd.UAVBarrier ph.address,
           SortCmd.Scan ph.address size]).ExecuteCommandList.record
          [SortCmd.CopyBufferRegion rb.address 0 ph.address 0
            (size * 4)]).ExecuteCommandList) := by
  unfold ValidateScan
  simp only [hph, Option.bind_eq_bind, Option.some_bind]
  have hrb' : (h.record
      [SortCmd.InitScanTestValues ph.address size, SortCmd.UAVBarrier ph.address,
       SortCmd.Scan ph.address size]).ExecuteCommandList.engine.m_readBackBuffer =
      some rb := hrb
  rw [hrb']
  rfl

/-- The scan test on a pass histogram that holds no word: nothing is initialised, scanned or
copied, and the comparison fails at the first index. -/
theorem ValidateScan_exampleMemory :
    ∃ r, ValidateScan ⟨exampleEngine, exampleMemory, []⟩ 7 = some (false, r) := by
  have h1 := ValidateScan_eq ⟨exampleEngine, exampleMemory, []⟩ 7 ⟨5, 1024⟩
    ⟨2, 32768⟩ (by decide) (by decide)
  rw [h1]
  refine ⟨_, congrArg some (Prod.ext ?_ rfl)⟩
  have hfresh : exampleEngine.m_cmdList = [] := by decide
  have hvec : ((((⟨exampleEngine, exampleMemory, []⟩ : Host).record
      [SortCmd.InitScanTestValues 5 7, SortCmd.UAVBarrier 5,
       SortCmd.Scan 5 7]).ExecuteCommandList.record
      [SortCmd.CopyBufferRegion 2 0 5 0 (7 * 4)]).ExecuteCommandList.ReadBackBuffer
        ⟨2, 32768⟩ 7) = [] := by
    simp only [ReadBackBuffer, ExecuteCommandList, record, hfresh, List.nil_append, copy_words]
    have h5 : run exampleEngine.k_sortingConfig exampleEngine.k_tuningParameters.partitionSize
        [SortCmd.InitScanTestValues 5 7, SortCmd.UAVBarrier 5, SortCmd.Scan 5 7]
        exampleMemory 5 = [] := by
      simp only [run, List.foldl_cons, List.foldl_nil, exec, Function.update_same]
      have : exampleMemory 5 = [] := by decide
      rw [this, List.length_nil, Nat.min_zero, List.replicate_zero, List.drop_nil,
        List.nil_append, tiles_nil]
      rfl
    have h2 : run exampleEngine.k_sortingConfig exampleEngine.k_tuningParameters.partitionSize
        [SortCmd.InitScanTestValues 5 7, SortCmd.UAVBarrier 5, SortCmd.Scan 5 7]
        exampleMemory 2 = [] := by
      simp only [run, List.foldl_cons, List.foldl_nil, exec,
        Function.update_noteq (show (2 : Nat) ≠ 5 by decide)]
      decide
    rw [h5, h2]
    rfl
  show ValidateScan.loop ((((⟨exampleEngine, exampleMemory, []⟩ : Host).record
      [SortCmd.InitScanTestValues 5 7, SortCmd.UAVBarrier 5,
       SortCmd.Scan 5 7]).ExecuteCommandList.record
      [SortCmd.CopyBufferRegion 2 0 5 0 (7 * 4)]).ExecuteCommandList.ReadBackBuffer
        ⟨2, 32768⟩ 7) 7 0 = false
  rw [hvec, ValidateScan.loop, if_pos (by decide)]
  rfl

end Host

namespace PrefixSum

open DeviceRadixSort Host

/-- C9: for every input sequence (of any length) and every positive partition size, the
inclusive scan output at `i` is the sum of `input[0..i]` and the exclusive scan output at
`i` is the sum of `input[0..i-1]`, so its first entry is `0`; outputs are as long as the
input.  `ValidateScan` returns for any contents of the device buffers; it submits the scan
of the test values and then the copy to the read-back buffer, and its result is `true`
exactly when every one of the `size` words read back equals its index.  When the pass
histogram holds at least `size` words, the exclusive scan of the initialised test values
(all ones) reads back as `0, 1, ..., size - 1` and the result is `true`; on a pass histogram
without room for the test values the result is `false`.  `TestAll` runs `ValidateScan` for
the sizes 1 to 255. -/
theorem C9_scan_is_prefix_sum :
    (∀ (P : Nat) (xs : List Nat) (i : Nat), 0 < P → i < xs.length →
      (scanInclusive P xs)[i]? = some ((xs.take (i + 1)).sum) ∧
      (scanExclusive P xs)[i]? = some ((xs.take i).sum)) ∧
    (∀ (P : Nat) (xs : List Nat), 0 < P →
      (scanInclusive P xs).length = xs.length ∧ (scanExclusive P xs).length = xs.length ∧
      (scanExclusive P xs).head? = xs.head?.map fun _ => 0) ∧
    (∀ (h : Host) (size : Nat) (ph rb : Resource),
      h.engine.m_passHistBuffer = some ph → h.engine.m_readBackBuffer = some rb →
      ∃ b r, ValidateScan h size = some (b, r) ∧
        (b = true ↔ ∀ i, i < size → (r.ReadBackBuffer rb size)[i]? = some i) ∧
        r.executed = h.executed ++
          [h.engine.m_cmdList ++
            [SortCmd.InitScanTestValues ph.address size, SortCmd.UAVBarrier ph.address,
             SortCmd.Scan ph.address size],
           [SortCmd.CopyBufferRegion rb.address 0 ph.address 0 (size * 4)]]) ∧
    (∀ (P size : Nat), 0 < P →
      ValidateScan.loop (scanExclusive P (List.replicate size 1)) size 0 = true) ∧
    (∀ (h : Host) (size : Nat) (ph rb : Resource),
      h.engine.m_passHistBuffer = some ph → h.engine.m_readBackBuffer = some rb →
      h.engine.m_cmdList = [] → size ≤ (h.mem ph.address).length →
      ∃ r, ValidateScan h size = some (true, r) ∧
        r.ReadBackBuffer rb size = List.range size) ∧
    (∃ r, ValidateScan ⟨exampleEngine, exampleMemory, []⟩ 7 = some (false, r)) ∧
    TestAll.scanSizes = List.range' 1 255 := by
  refine ⟨?_, ?_, ?_, ?_, ?_, ValidateScan_exampleMemory, ?_⟩
  · intro P xs i hP hi
    rw [scanInclusive_eq P hP, scanExclusive_eq P hP, inclusiveFrom_getElem? xs 0 i hi,
      exclusiveFrom_getElem? xs 0 i hi, Nat.zero_add, Nat.zero_add]
    exact ⟨rfl, rfl⟩
  · intro P xs hP
    rw [scanInclusive_eq P hP, scanExclusive_eq P hP, inclusiveFrom_length,
      exclusiveFrom_length]
    refine ⟨rfl, rfl, ?_⟩
    cases xs with
    | nil => rfl
    | cons x t => rfl
  · intro h size ph rb hph hrb
    refine ⟨_, _, ValidateScan_eq h size ph rb hph hrb, ?_, ?_⟩
    · rw [ValidateScan_loop_iff _ size size 0 rfl]
      constructor
      · intro hall i hi
        exact hall i (Nat.zero_le i) hi
      · intro hall j _ hj
        exact hall j hj
    · simp only [ExecuteCommandList, record, List.nil_append, List.append_assoc,
        List.cons_append]
  · intro P size hP
    rw [scanExclusive_eq P hP, exclusiveFrom_ones, ← List.range_eq_range',
      ValidateScan_loop_iff (List.range size) size size 0 rfl]
    intro j _ hj
    simp [hj]
  · intro h size ph rb hph hrb hfresh hcap
    exact ValidateScan_true h size ph rb hph hrb hfresh hcap
  · unfold TestAll.scanSizes
    exact sweepFrom_eq_range' 256 255 1 rfl

/-- Witness for C9: the scenario of two partitions of four ones, and the scan test of size
seven on `exampleEngine` with a pass histogram of 256 words. -/
theorem C9_scan_is_prefix_sum_witness :
    ((scanInclusive 4 [1, 1, 1, 1, 1, 1, 1, 1])[7]? = some 8 ∧
      (scanExclusive 4 [1, 1, 1, 1, 1, 1, 1, 1])[7]? = some 7) ∧
    ∃ r, ValidateScan ⟨exampleEngine, exampleDeviceMemory, []⟩ 7 = some (true, r) ∧
      r.ReadBackBuffer ⟨2, 32768⟩ 7 = List.range 7 :=
  ⟨C9_scan_is_prefix_sum.1 4 [1, 1, 1, 1, 1, 1, 1, 1] 7 (by decide) (by decide),
    C9_scan_is_prefix_sum.2.2.2.2.1 ⟨exampleEngine, exampleDeviceMemory, []⟩ 7 ⟨5, 1024⟩
      ⟨2, 32768⟩ (by decide) (by decide) (by decide) (by
        show 7 ≤ (exampleDeviceMemory 5).length
        simp only [exampleDeviceMemory]
        rw [if_neg (by decide), if_neg (by decide), if_neg (by decide), if_pos trivial,
          List.length_replicate]
        decide)⟩

end PrefixSum

namespace DeviceRadixSort

/-- `InitBuffers` allocates the five size-dependent buffers and keeps the static ones. -/
theorem InitBuffers_buffers (e : DeviceRadixSort) (n t : Nat) :
    (InitBuffers e n t).m_sortBuffer.isSome ∧ (InitBuffers e n t).m_sortPayloadBuffer.isSome ∧
      (InitBuffers e n t).m_altBuffer.isSome ∧ (InitBuffers e n t).m_altPayloadBuffer.isSome ∧
      (InitBuffers e n t).m_passHistBuffer.isSome ∧
      (InitBuffers e n t).m_globalHistBuffer = e.m_globalHistBuffer ∧
      (InitBuffers e n t).m_errorCountBuffer = e.m_errorCountBuffer ∧
      (InitBuffers e n t).m_readBackBuffer = e.m_readBackBuffer ∧
      (InitBuffers e n t).m_cmdList = e.m_cmdList := by
  simp only [InitBuffers, CreateBuffer]
  split <;> exact ⟨rfl, rfl, rfl, rfl, rfl, rfl, rfl, rfl, rfl⟩

/-- After `UpdateSize` every buffer a sort needs is allocated, provided the static buffers
are and the size changed (or the buffers were allocated before). -/
theorem UpdateSize_allocated (e : DeviceRadixSort) (size : Nat)
    (hg : e.m_globalHistBuffer.isSome)
    (h : e.m_numKeys ≠ size ∨ Allocated e) :
    Allocated (UpdateSize e size) ∧
      (UpdateSize e size).m_errorCountBuffer = e.m_errorCountBuffer ∧
      (UpdateSize e size).m_readBackBuffer = e.m_readBackBuffer ∧
      (UpdateSize e size).m_cmdList = e.m_cmdList ∧
      (UpdateSize e size).k_sortingConfig = e.k_sortingConfig := by
  by_cases hn : e.m_numKeys = size
  · rw [UpdateSize_same e size hn]
    rcases h with h | h
    · exact absurd hn h
    · exact ⟨h, rfl, rfl, rfl, rfl⟩
  · unfold UpdateSize
    rw [if_pos hn]
    obtain ⟨h1, h2, h3, h4, h5, h6, h7, h8, h9⟩ := InitBuffers_buffers
      (DisposeBuffers
        { e with
          m_numKeys := size
          m_partitions := GPUSortBase.divRoundUp size e.k_tuningParameters.partitionSize })
      size (GPUSortBase.divRoundUp size e.k_tuningParameters.partitionSize)
    obtain ⟨_, _, _, h10⟩ := InitBuffers_fields
      (DisposeBuffers
        { e with
          m_numKeys := size
          m_partitions := GPUSortBase.divRoundUp size e.k_tuningParameters.partitionSize })
      size (GPUSortBase.divRoundUp size e.k_tuningParameters.partitionSize)
    exact ⟨⟨h1, h2, h3, h4, (congrArg Option.isSome h6).trans hg, h5⟩, h7, h8, h9, h10⟩

end DeviceRadixSort

namespace Host

open DeviceRadixSort

theorem CreateTestInput_eq (h : Host) (seed : Nat) (s sp : Resource)
    (hs : h.engine.m_sortBuffer = some s) (hsp : h.engine.m_sortPayloadBuffer = some sp) :
    CreateTestInput h seed =
      some (h.record
        [SortCmd.InitSortInput s.address sp.address h.engine.m_numKeys
           ENTROPY_PRESET.ENTROPY_PRESET_1 seed,
         SortCmd.UAVBarrier s.address]).ExecuteCommandList := by
  unfold CreateTestInput
  rw [hs, hsp]
  rfl

end Host

namespace Host

open DeviceRadixSort

/-- Device side of the validation: the counter read back is the number of inversions of the
key buffer, whatever the counter held before. -/
theorem validate_counter (cfg : GPUSortingConfig) (P : Nat) (m : Nat → List Nat)
    (err s sp n rb : Nat) (hne : s ≠ err) :
    (run cfg P [SortCmd.CopyBufferRegion rb 0 err 0 4]
      (run cfg P (validateCmds err s sp n) m) rb).take 1 =
      [u32 (inversions cfg.sortingOrder (m s))] := by
  simp only [validateCmds, run, List.foldl_cons, List.foldl_nil, exec, Function.update_same,
    Function.update_noteq hne, List.headD_cons, Nat.zero_add, Nat.zero_div, List.take_zero,
    List.nil_append, List.drop_zero, Nat.reduceDiv, List.take_succ_cons, List.cons_append,
    List.take_zero]

theorem ValidateOutput_eq (h : Host) (shouldPrint : Bool) (err s sp rb : Resource)
    (herr : h.engine.m_errorCountBuffer = some err) (hs : h.engine.m_sortBuffer = some s)
    (hsp : h.engine.m_sortPayloadBuffer = some sp) (hrb : h.engine.m_readBackBuffer = some rb)
    (hfresh : h.engine.m_cmdList = []) (hne : s.address ≠ err.address) :
    ValidateOutput h shouldPrint =
      some (u32 (inversions h.engine.k_sortingConfig.sortingOrder (h.mem s.address)) == 0,
        ((h.record (validateCmds err.address s.address sp.address
            h.engine.m_numKeys)).ExecuteCommandList.record
          [SortCmd.CopyBufferRegion rb.address 0 err.address 0 4]).ExecuteCommandList) := by
  have hvec : (((h.record (validateCmds err.address s.address sp.address
      h.engine.m_numKeys)).ExecuteCommandList.record
      [SortCmd.CopyBufferRegion rb.address 0 err.address 0 4]).ExecuteCommandList.ReadBackBuffer
        rb 1) = [u32 (inversions h.engine.k_sortingConfig.sortingOrder (h.mem s.address))] := by
    simp only [ReadBackBuffer, ExecuteCommandList, record, hfresh, List.nil_append]
    exact validate_counter _ _ _ _ _ _ _ _ hne
  unfold ValidateOutput
  rw [herr, hs, hsp]
  simp only [Option.bind_eq_bind, Option.some_bind]
  have hrb' : (h.record (validateCmds err.address s.address sp.address
      h.engine.m_numKeys)).ExecuteCommandList.engine.m_readBackBuffer = some rb := hrb
  simp only [validateCmds] at hrb' hvec ⊢
  rw [hrb']
  simp only [Option.some_bind, hvec]
  rfl

end Host

namespace Host

open DeviceRadixSort

/-- What `ValidateSort` does for an engine with allocated static buffers: it returns, the
queue has executed four more command lists (test input, the whole sort, validation, copy of
the counter), and the result is `true` exactly when the sorted buffer has no inversion. -/
theorem ValidateSort_eq (h : Host) (size seed : Nat)
    (hfresh : h.engine.m_cmdList = [])
    (hg : h.engine.m_globalHistBuffer.isSome) (herr : h.engine.m_errorCountBuffer.isSome)
    (hrb : h.engine.m_readBackBuffer.isSome)
    (hsz : h.engine.m_numKeys ≠ size ∨ Allocated h.engine)
    (hne : addr (h.engine.UpdateSize size).m_sortBuffer ≠ addr h.engine.m_errorCountBuffer) :
    ∃ b r, ValidateSort h size seed = some (b, r) ∧
      r.executed = h.executed ++
        [[SortCmd.InitSortInput (addr (h.engine.UpdateSize size).m_sortBuffer)
            (addr (h.engine.UpdateSize size).m_sortPayloadBuffer) (h.engine.UpdateSize size).m_numKeys
            ENTROPY_PRESET.ENTROPY_PRESET_1 seed,
          SortCmd.UAVBarrier (addr (h.engine.UpdateSize size).m_sortBuffer)],
         sortCmdsOf (h.engine.UpdateSize size),
         validateCmds (addr h.engine.m_errorCountBuffer)
           (addr (h.engine.UpdateSize size).m_sortBuffer)
           (addr (h.engine.UpdateSize size).m_sortPayloadBuffer)
           (h.engine.UpdateSize size).m_numKeys,
         [SortCmd.CopyBufferRegion (addr h.engine.m_readBackBuffer) 0
           (addr h.engine.m_errorCountBuffer) 0 4]] ∧
      r.engine = { h.engine.UpdateSize size with m_cmdList := [] } := by
  obtain ⟨hall, e1, e2, e3, _⟩ := UpdateSize_allocated h.engine size hg hsz
  simp only [ValidateSort]
  generalize h.engine.UpdateSize size = e at hall e1 e2 e3 hne ⊢
  obtain ⟨a1, a2, a3, a4, a5, a6⟩ := hall
  obtain ⟨s, hs⟩ := Option.isSome_iff_exists.mp a1
  obtain ⟨sp, hsp⟩ := Option.isSome_iff_exists.mp a2
  obtain ⟨er, her⟩ := Option.isSome_iff_exists.mp herr
  obtain ⟨rb, hrb'⟩ := Option.isSome_iff_exists.mp hrb
  rw [CreateTestInput_eq { h with engine := e } seed s sp hs hsp]
  simp only [Option.bind_eq_bind, Option.some_bind]
  have hall2 : Allocated (({ h with engine := e } : Host).record
      [SortCmd.InitSortInput s.address sp.address e.m_numKeys
         ENTROPY_PRESET.ENTROPY_PRESET_1 seed,
       SortCmd.UAVBarrier s.address]).ExecuteCommandList.engine := ⟨a1, a2, a3, a4, a5, a6⟩
  rw [PrepareSortCmdList_eq _ hall2]
  simp only [Option.some_bind]
  rw [ValidateOutput_eq _ false er s sp rb (e1.trans her) hs hsp (e2.trans hrb') rfl
    (by rw [hs, her] at hne; exact hne)]
  refine ⟨_, _, rfl, ?_, ?_⟩
  · simp only [ExecuteCommandList, record, e3, hfresh, List.nil_append, List.append_assoc,
      List.cons_append, hs, hsp, her, hrb', addr, Option.map_some', Option.getD_some,
      sortCmdsOf]
  · simp only [ExecuteCommandList, record]

end Host

namespace Host

open DeviceRadixSort

/-- The sixteen kernels one `ValidateSort` dispatches. -/
theorem dispatched_ValidateSort (s sp a ap g ph n p er rb seed : Nat) :
    ([[SortCmd.InitSortInput s sp n ENTROPY_PRESET.ENTROPY_PRESET_1 seed, SortCmd.UAVBarrier s],
      sortCmds s sp a ap g ph n p, validateCmds er s sp n,
      [SortCmd.CopyBufferRegion rb 0 er 0 4]] : List (List SortCmd)).flatten.filterMap
        SortCmd.dispatch? =
      [("InitSortInput", none), ("InitDeviceRadixSort", none),
       ("Upsweep", some 0), ("Scan", none), ("Downsweep", some 0),
       ("Upsweep", some 8), ("Scan", none), ("Downsweep", some 8),
       ("Upsweep", some 16), ("Scan", none), ("Downsweep", some 16),
       ("Upsweep", some 24), ("Scan", none), ("Downsweep", some 24),
       ("ClearErrorCount", none), ("Validate", none)] := rfl

theorem UpdateSize_numKeys (e : DeviceRadixSort) (size : Nat) :
    (e.UpdateSize size).m_numKeys = size := by
  by_cases h : e.m_numKeys = size
  · rw [UpdateSize_same e size h]
    exact h
  · exact (UpdateSize_fields e size h).1

/-- The kernels `TestSort` dispatches: those of the sort and, when `shouldValidate` is set,
those of the validation; reading back dispatches none. -/
theorem dispatched_TestSort (e : DeviceRadixSort) (seed er rb : Nat)
    (shouldReadBack shouldValidate : Bool) :
    ([[SortCmd.InitSortInput (addr e.m_sortBuffer) (addr e.m_sortPayloadBuffer) e.m_numKeys
          ENTROPY_PRESET.ENTROPY_PRESET_1 seed, SortCmd.UAVBarrier (addr e.m_sortBuffer)],
        sortCmdsOf e] ++
      (if shouldValidate then
        [validateCmds er (addr e.m_sortBuffer) (addr e.m_sortPayloadBuffer) e.m_numKeys,
         [SortCmd.CopyBufferRegion rb 0 er 0 4]]
       else []) ++
      (if shouldReadBack then readBackCmds e else [])).flatten.filterMap SortCmd.dispatch? =
      [("InitSortInput", none), ("InitDeviceRadixSort", none),
       ("Upsweep", some 0), ("Scan", none), ("Downsweep", some 0),
       ("Upsweep", some 8), ("Scan", none), ("Downsweep", some 8),
       ("Upsweep", some 16), ("Scan", none), ("Downsweep", some 16),
       ("Upsweep", some 24), ("Scan", none), ("Downsweep", some 24)] ++
      (if shouldValidate then [("ClearErrorCount", none), ("Validate", none)] else []) := by
  cases shouldValidate <;> cases shouldReadBack <;>
    by_cases hmode : e.k_sortingConfig.sortingMode = MODE.MODE_PAIRS <;>
    simp only [readBackCmds, hmode, if_true, if_false, Bool.false_eq_true, List.append_nil] <;>
    rfl

/-- What `TestSort` does for an engine with allocated static buffers, for either value of
its two flags: it returns, the queue has executed the test input and the whole sort, then
the two lists of the validation when `shouldValidate` is set, then the read-back lists when
`shouldReadBack` is set. -/
theorem TestSort_all (h : Host) (size seed : Nat) (shouldReadBack shouldValidate : Bool)
    (hfresh : h.engine.m_cmdList = [])
    (hg : h.engine.m_globalHistBuffer.isSome) (herr : h.engine.m_errorCountBuffer.isSome)
    (hrb : h.engine.m_readBackBuffer.isSome)
    (hsz : h.engine.m_numKeys ≠ size ∨ Allocated h.engine)
    (hne : addr (h.engine.UpdateSize size).m_sortBuffer ≠ addr h.engine.m_errorCountBuffer) :
    ∃ r, TestSort h size seed shouldReadBack shouldValidate = some r ∧
      r.executed = h.executed ++
        ([[SortCmd.InitSortInput (addr (h.engine.UpdateSize size).m_sortBuffer)
            (addr (h.engine.UpdateSize size).m_sortPayloadBuffer)
            (h.engine.UpdateSize size).m_numKeys ENTROPY_PRESET.ENTROPY_PRESET_1 seed,
          SortCmd.UAVBarrier (addr (h.engine.UpdateSize size).m_sortBuffer)],
         sortCmdsOf (h.engine.UpdateSize size)] ++
        (if shouldValidate then
          [validateCmds (addr h.engine.m_errorCountBuffer)
             (addr (h.engine.UpdateSize size).m_sortBuffer)
             (addr (h.engine.UpdateSize size).m_sortPayloadBuffer)
             (h.engine.UpdateSize size).m_numKeys,
           [SortCmd.CopyBufferRegion (addr h.engine.m_readBackBuffer) 0
             (addr h.engine.m_errorCountBuffer) 0 4]]
         else []) ++
        (if shouldReadBack then readBackCmds (h.engine.UpdateSize size) else [])) ∧
      r.engine = { h.engine.UpdateSize size with m_cmdList := [] } := by
  obtain ⟨hall, e1, e2, e3, _⟩ := UpdateSize_allocated h.engine size hg hsz
  simp only [TestSort]
  generalize h.engine.UpdateSize size = e at hall e1 e2 e3 hne ⊢
  obtain ⟨a1, a2, a3, a4, a5, a6⟩ := hall
  obtain ⟨s, hs⟩ := Option.isSome_iff_exists.mp a1
  obtain ⟨sp, hsp⟩ := Option.isSome_iff_exists.mp a2
  obtain ⟨er, her⟩ := Option.isSome_iff_exists.mp herr
  obtain ⟨rb, hrb'⟩ := Option.isSome_iff_exists.mp hrb
  rw [CreateTestInput_eq { h with engine := e } seed s sp hs hsp]
  simp only [Option.bind_eq_bind, Option.some_bind]
  have hall2 : Allocated (({ h with engine := e } : Host).record
      [SortCmd.InitSortInput s.address sp.address e.m_numKeys
         ENTROPY_PRESET.ENTROPY_PRESET_1 seed,
       SortCmd.UAVBarrier s.address]).ExecuteCommandList.engine := ⟨a1, a2, a3, a4, a5, a6⟩
  rw [PrepareSortCmdList_eq _ hall2]
  simp only [Option.some_bind]
  rw [ValidateOutput_eq _ true er s sp rb (e1.trans her) hs hsp (e2.trans hrb') rfl
    (by rw [hs, her] at hne; exact hne)]
  have hrbe : e.m_readBackBuffer = some rb := e2.trans hrb'
  cases shouldValidate <;> cases shouldReadBack <;>
    by_cases hmode : e.k_sortingConfig.sortingMode = MODE.MODE_PAIRS <;>
    simp [ExecuteCommandList, record, e3, hfresh, hs, hsp, her, hrb', hrbe, addr, sortCmdsOf,
      readBackCmds, validateCmds, hmode]

end Host

namespace ChainedScanDecoupledLookback

theorem PrepareScanCmdListInclusive_eq (e : ChainedScanDecoupledLookback) (h : Allocated e) :
    PrepareScanCmdListInclusive e =
      some { e with
        m_cmdList := e.m_cmdList ++
          [ScanCmd.InitCSDL (DeviceRadixSort.addr e.m_scanBumpBuffer)
             (DeviceRadixSort.addr e.m_threadBlockReductionBuffer) e.m_partitions,
           ScanCmd.UAVBarrier (DeviceRadixSort.addr e.m_scanBumpBuffer),
           ScanCmd.UAVBarrier (DeviceRadixSort.addr e.m_threadBlockReductionBuffer),
           ScanCmd.CSDLInclusive (DeviceRadixSort.addr e.m_scanInBuffer)
             (DeviceRadixSort.addr e.m_scanOutBuffer) (DeviceRadixSort.addr e.m_scanBumpBuffer)
             (DeviceRadixSort.addr e.m_threadBlockReductionBuffer) e.m_vectorizedSize
             e.m_partitions] } := by
  obtain ⟨h1, h2, h3, h4⟩ := h
  obtain ⟨b, hb⟩ := Option.isSome_iff_exists.mp h1
  obtain ⟨r, hr⟩ := Option.isSome_iff_exists.mp h2
  obtain ⟨i, hi⟩ := Option.isSome_iff_exists.mp h3
  obtain ⟨o, ho⟩ := Option.isSome_iff_exists.mp h4
  unfold PrepareScanCmdListInclusive
  rw [hb, hr, hi, ho]
  rfl

theorem PrepareScanCmdListExclusive_eq (e : ChainedScanDecoupledLookback) (h : Allocated e) :
    PrepareScanCmdListExclusive e =
      some { e with
        m_cmdList := e.m_cmdList ++
          [ScanCmd.InitCSDL (DeviceRadixSort.addr e.m_scanBumpBuffer)
             (DeviceRadixSort.addr e.m_threadBlockReductionBuffer) e.m_partitions,
           ScanCmd.UAVBarrier (DeviceRadixSort.addr e.m_scanBumpBuffer),
           ScanCmd.UAVBarrier (DeviceRadixSort.addr e.m_threadBlockReductionBuffer),
           ScanCmd.CSDLExclusive (DeviceRadixSort.addr e.m_scanInBuffer)
             (DeviceRadixSort.addr e.m_scanOutBuffer) (DeviceRadixSort.addr e.m_scanBumpBuffer)
             (DeviceRadixSort.addr e.m_threadBlockReductionBuffer) e.m_vectorizedSize
             e.m_partitions] } := by
  obtain ⟨h1, h2, h3, h4⟩ := h
  obtain ⟨b, hb⟩ := Option.isSome_iff_exists.mp h1
  obtain ⟨r, hr⟩ := Option.isSome_iff_exists.mp h2
  obtain ⟨i, hi⟩ := Option.isSome_iff_exists.mp h3
  obtain ⟨o, ho⟩ := Option.isSome_iff_exists.mp h4
  unfold PrepareScanCmdListExclusive
  rw [hb, hr, hi, ho]
  rfl

end ChainedScanDecoupledLookback

namespace Host

open DeviceRadixSort

theorem exampleEngine_static :
    exampleEngine.m_cmdList = [] ∧ exampleEngine.m_globalHistBuffer.isSome ∧
      exampleEngine.m_errorCountBuffer.isSome ∧ exampleEngine.m_readBackBuffer.isSome ∧
      exampleEngine.m_numKeys ≠ 0 ∧
      addr (exampleEngine.UpdateSize 0).m_sortBuffer ≠ addr exampleEngine.m_errorCountBuffer ∧
      (exampleEngine.UpdateSize 0).m_numKeys = 0 ∧
      (exampleEngine.UpdateSize 0).m_partitions = 0 := by
  decide

/-- C11 (counterexample): `ValidateSort(0, 1)` on a freshly constructed engine fails, because
`UpdateSize(0)` allocates nothing and `CreateTestInput` dereferences the null sort buffer;
on an engine sized before, it records and executes all sixteen kernel dispatches of a sort
run; and the scan lists for zero partitions hold two dispatches each. -/
theorem C11_size_zero_is_not_skipped :
    ValidateSort ⟨freshEngine, exampleMemory, []⟩ 0 1 = none ∧
    (∃ b r, ValidateSort ⟨exampleEngine, exampleMemory, []⟩ 0 1 = some (b, r) ∧
      dispatched r =
        [("InitSortInput", none), ("InitDeviceRadixSort", none),
         ("Upsweep", some 0), ("Scan", none), ("Downsweep", some 0),
         ("Upsweep", some 8), ("Scan", none), ("Downsweep", some 8),
         ("Upsweep", some 16), ("Scan", none), ("Downsweep", some 16),
         ("Upsweep", some 24), ("Scan", none), ("Downsweep", some 24),
         ("ClearErrorCount", none), ("Validate", none)]) ∧
    (ChainedScanDecoupledLookback.PrepareScanCmdListInclusive
        ChainedScanDecoupledLookback.exampleEmpty).map
        (fun r => r.m_cmdList.filterMap ChainedScanDecoupledLookback.ScanCmd.dispatch?) =
      some ["InitCSDL", "CSDLInclusive"] := by
  refine ⟨?_, ?_, by decide⟩
  · simp only [ValidateSort]
    rw [UpdateSize_same freshEngine 0 rfl]
    rfl
  · obtain ⟨b, r, h1, h2, _⟩ := ValidateSort_eq ⟨exampleEngine, exampleMemory, []⟩ 0 1
      exampleEngine_static.1 exampleEngine_static.2.1 exampleEngine_static.2.2.1
      exampleEngine_static.2.2.2.1 (Or.inl exampleEngine_static.2.2.2.2.1)
      exampleEngine_static.2.2.2.2.2.1
    refine ⟨b, r, h1, ?_⟩
    unfold dispatched
    rw [h2, List.nil_append]
    exact dispatched_ValidateSort _ _ _ _ _ _ _ _ _ _ _

/-- C11 (amended): there is no early return for `N == 0`.  On an engine with a positive
partition size whose static buffers are allocated and whose size changes (or whose buffers
are allocated), `ValidateSort` and `TestSort`, the latter for either value of its two
flags, return for every size, zero included, and record the same kernel dispatches: the
test input, `InitDeviceRadixSort` and four passes of `Upsweep`, `Scan`, `Downsweep`, then
`ClearErrorCount` and `Validate` for `ValidateSort` and for `TestSort` with
`shouldValidate`; reading back dispatches nothing.  The engine is left at
`m_numKeys = size`.  The scan lists of `ChainedScanDecoupledLookback` hold the `InitCSDL`
dispatch and the scan dispatch for every partition count, zero included. -/
theorem C11_every_size_records_the_full_run (h : Host) (size seed : Nat)
    (shouldReadBack shouldValidate : Bool)
    (hP : 0 < h.engine.k_tuningParameters.partitionSize)
    (hfresh : h.engine.m_cmdList = [])
    (hg : h.engine.m_globalHistBuffer.isSome) (herr : h.engine.m_errorCountBuffer.isSome)
    (hrb : h.engine.m_readBackBuffer.isSome)
    (hsz : h.engine.m_numKeys ≠ size ∨ Allocated h.engine)
    (hne : addr (h.engine.UpdateSize size).m_sortBuffer ≠ addr h.engine.m_errorCountBuffer)
    (c : ChainedScanDecoupledLookback) (hc : ChainedScanDecoupledLookback.Allocated c) :
    (∃ b r, ValidateSort h size seed = some (b, r) ∧
      dispatched r = dispatched h ++
        [("InitSortInput", none), ("InitDeviceRadixSort", none),
         ("Upsweep", some 0), ("Scan", none), ("Downsweep", some 0),
         ("Upsweep", some 8), ("Scan", none), ("Downsweep", some 8),
         ("Upsweep", some 16), ("Scan", none), ("Downsweep", some 16),
         ("Upsweep", some 24), ("Scan", none), ("Downsweep", some 24),
         ("ClearErrorCount", none), ("Validate", none)] ∧
      r.engine.m_numKeys = size ∧
      r.engine.m_partitions = (h.engine.UpdateSize size).m_partitions) ∧
    (∃ r, TestSort h size seed shouldReadBack shouldValidate = some r ∧
      dispatched r = dispatched h ++
        ([("InitSortInput", none), ("InitDeviceRadixSort", none),
          ("Upsweep", some 0), ("Scan", none), ("Downsweep", some 0),
          ("Upsweep", some 8), ("Scan", none), ("Downsweep", some 8),
          ("Upsweep", some 16), ("Scan", none), ("Downsweep", some 16),
          ("Upsweep", some 24), ("Scan", none), ("Downsweep", some 24)] ++
         (if shouldValidate then [("ClearErrorCount", none), ("Validate", none)] else [])) ∧
      r.engine.m_numKeys = size ∧
      r.engine.m_partitions = (h.engine.UpdateSize size).m_partitions) ∧
    (h.engine.m_numKeys ≠ size →
      (h.engine.UpdateSize size).m_partitions =
        GPUSortBase.divRoundUp size h.engine.k_tuningParameters.partitionSize ∧
      (size + h.engine.k_tuningParameters.partitionSize - 1 < 2 ^ 32 →
        size ≤ (h.engine.UpdateSize size).m_partitions *
          h.engine.k_tuningParameters.partitionSize)) ∧
    (∃ r, ChainedScanDecoupledLookback.PrepareScanCmdListInclusive c = some r ∧
      r.m_cmdList.filterMap ChainedScanDecoupledLookback.ScanCmd.dispatch? =
        c.m_cmdList.filterMap ChainedScanDecoupledLookback.ScanCmd.dispatch? ++
          ["InitCSDL", "CSDLInclusive"]) ∧
    (∃ r, ChainedScanDecoupledLookback.PrepareScanCmdListExclusive c = some r ∧
      r.m_cmdList.filterMap ChainedScanDecoupledLookback.ScanCmd.dispatch? =
        c.m_cmdList.filterMap ChainedScanDecoupledLookback.ScanCmd.dispatch? ++
          ["InitCSDL", "CSDLExclusive"]) := by
  refine ⟨?_, ?_, ?_, ?_, ?_⟩
  · obtain ⟨b, r, h1, h2, h3⟩ := ValidateSort_eq h size seed hfresh hg herr hrb hsz hne
    refine ⟨b, r, h1, ?_, by rw [h3]; exact UpdateSize_numKeys _ _, by rw [h3]⟩
    unfold dispatched
    rw [h2, List.flatten_append, List.filterMap_append]
    exact congrArg _ (dispatched_ValidateSort _ _ _ _ _ _ _ _ _ _ _)
  · obtain ⟨r, h1, h2, h3⟩ :=
      TestSort_all h size seed shouldReadBack shouldValidate hfresh hg herr hrb hsz hne
    refine ⟨r, h1, ?_, by rw [h3]; exact UpdateSize_numKeys _ _, by rw [h3]⟩
    unfold dispatched
    rw [h2, List.flatten_append, List.filterMap_append]
    exact congrArg _ (dispatched_TestSort _ _ _ _ _ _)
  · intro hne2
    obtain ⟨_, f2, _⟩ := UpdateSize_fields h.engine size hne2
    refine ⟨f2, ?_⟩
    intro hlt
    rw [f2]
    exact GPUSortBase.divRoundUp_covers size _ hP hlt
  · exact ⟨_, ChainedScanDecoupledLookback.PrepareScanCmdListInclusive_eq c hc, by
      simp only [List.filterMap_append]; rfl⟩
  · exact ⟨_, ChainedScanDecoupledLookback.PrepareScanCmdListExclusive_eq c hc, by
      simp only [List.filterMap_append]; rfl⟩

/-- Witness for C11 (amended): size zero on `exampleEngine`, validated and read back. -/
theorem C11_every_size_records_the_full_run_witness :
    ∃ r, TestSort ⟨exampleEngine, exampleMemory, []⟩ 0 1 true true = some r ∧
      dispatched r = dispatched ⟨exampleEngine, exampleMemory, []⟩ ++
        ([("InitSortInput", none), ("InitDeviceRadixSort", none),
          ("Upsweep", some 0), ("Scan", none), ("Downsweep", some 0),
          ("Upsweep", some 8), ("Scan", none), ("Downsweep", some 8),
          ("Upsweep", some 16), ("Scan", none), ("Downsweep", some 16),
          ("Upsweep", some 24), ("Scan", none), ("Downsweep", some 24)] ++
         [("ClearErrorCount", none), ("Validate", none)]) ∧
      r.engine.m_numKeys = 0 := by
  obtain ⟨r, h1, h2, h3, _⟩ :=
    (C11_every_size_records_the_full_run ⟨exampleEngine, exampleMemory, []⟩ 0 1 true true
      (by decide) exampleEngine_static.1 exampleEngine_static.2.1 exampleEngine_static.2.2.1
      exampleEngine_static.2.2.2.1 (Or.inl exampleEngine_static.2.2.2.2.1)
      exampleEngine_static.2.2.2.2.2.1
      ChainedScanDecoupledLookback.exampleEmpty (by decide)).2.1
  rw [if_pos rfl] at h2
  exact ⟨r, h1, h2, h3⟩

end Host

namespace Host

open DeviceRadixSort

end Host

namespace Host

open DeviceRadixSort

theorem passesOf_sortCmds (s sp a ap g ph n p : Nat) :
    passesOf (sortCmds s sp a ap g ph n p) = [0, 0, 8, 8, 16, 16, 24, 24] := rfl

/-- C17 (counterexample): in the run `ValidateSort(6, 1)` on `exampleEngine` the queue
executes a command list that dispatches kernels of four different radix passes; the host
does not wait between the passes. -/
theorem C17_passes_share_one_submission :
    ∃ b r, ValidateSort ⟨exampleEngine, exampleMemory, []⟩ 6 1 = some (b, r) ∧
      ¬ OnePassPerSubmission r := by
  obtain ⟨b, r, h1, h2, _⟩ := ValidateSort_eq ⟨exampleEngine, exampleMemory, []⟩ 6 1
    (by decide) (by decide) (by decide) (by decide) (Or.inr exampleEngine_allocated) (by decide)
  refine ⟨b, r, h1, ?_⟩
  intro hone
  have hmem : sortCmdsOf (exampleEngine.UpdateSize 6) ∈ r.executed := by
    rw [h2]
    simp
  have := hone _ hmem 0 (by unfold sortCmdsOf; rw [passesOf_sortCmds]; decide) 8
    (by unfold sortCmdsOf; rw [passesOf_sortCmds]; decide)
  exact absurd this (by decide)

/-- C17 (amended): in a sort run on an engine with a positive partition size the host
submits the test input as one command list and then all four radix passes together as one
command list, recorded by `PrepareSortCmdList` and submitted by a single
`ExecuteCommandList`; it waits on the fence once per submitted list, that is once after the
whole sort and not between passes.  `ValidateSort` adds the two lists of the validation;
`TestSort` adds them when `shouldValidate` is set and one list per buffer read back when
`shouldReadBack` is set; none of the added lists dispatches a radix pass. -/
theorem C17_whole_sort_is_one_submission (h : Host) (size seed : Nat)
    (shouldReadBack shouldValidate : Bool)
    (hP : 0 < h.engine.k_tuningParameters.partitionSize)
    (hfresh : h.engine.m_cmdList = [])
    (hg : h.engine.m_globalHistBuffer.isSome) (herr : h.engine.m_errorCountBuffer.isSome)
    (hrb : h.engine.m_readBackBuffer.isSome)
    (hsz : h.engine.m_numKeys ≠ size ∨ Allocated h.engine)
    (hne : addr (h.engine.UpdateSize size).m_sortBuffer ≠ addr h.engine.m_errorCountBuffer) :
    (∃ b r l0 l2 l3, ValidateSort h size seed = some (b, r) ∧
      r.executed = h.executed ++ [l0, sortCmdsOf (h.engine.UpdateSize size), l2, l3] ∧
      passesOf l0 = [] ∧ passesOf l2 = [] ∧ passesOf l3 = [] ∧
      passesOf (sortCmdsOf (h.engine.UpdateSize size)) = [0, 0, 8, 8, 16, 16, 24, 24] ∧
      r.executed.length = h.executed.length + 4) ∧
    (∃ r l0 rest, TestSort h size seed shouldReadBack shouldValidate = some r ∧
      r.executed = h.executed ++ ([l0, sortCmdsOf (h.engine.UpdateSize size)] ++ rest) ∧
      passesOf l0 = [] ∧ (∀ l ∈ rest, passesOf l = []) ∧
      rest.length = (if shouldValidate then 2 else 0) +
        (if shouldReadBack then
          (if h.engine.k_sortingConfig.sortingMode = MODE.MODE_PAIRS then 2 else 1)
         else 0) ∧
      r.executed.length = h.executed.length + 2 + rest.length) ∧
    (h.engine.UpdateSize size).m_numKeys = size ∧
    (h.engine.m_numKeys ≠ size →
      (h.engine.UpdateSize size).m_partitions =
        GPUSortBase.divRoundUp size h.engine.k_tuningParameters.partitionSize ∧
      (size + h.engine.k_tuningParameters.partitionSize - 1 < 2 ^ 32 →
        size ≤ (h.engine.UpdateSize size).m_partitions *
          h.engine.k_tuningParameters.partitionSize)) := by
  refine ⟨?_, ?_, UpdateSize_numKeys _ _, ?_⟩
  · obtain ⟨b, r, h1, h2, _⟩ := ValidateSort_eq h size seed hfresh hg herr hrb hsz hne
    exact ⟨b, r, _, _, _, h1, h2, rfl, rfl, rfl, passesOf_sortCmds _ _ _ _ _ _ _ _, by
      rw [h2]; simp⟩
  · obtain ⟨r, h1, h2, _⟩ :=
      TestSort_all h size seed shouldReadBack shouldValidate hfresh hg herr hrb hsz hne
    have hcfg := (UpdateSize_allocated h.engine size hg hsz).2.2.2.2
    refine ⟨r,
      [SortCmd.InitSortInput (addr (h.engine.UpdateSize size).m_sortBuffer)
          (addr (h.engine.UpdateSize size).m_sortPayloadBuffer)
          (h.engine.UpdateSize size).m_numKeys ENTROPY_PRESET.ENTROPY_PRESET_1 seed,
        SortCmd.UAVBarrier (addr (h.engine.UpdateSize size).m_sortBuffer)],
      (if shouldValidate then
          [validateCmds (addr h.engine.m_errorCountBuffer)
             (addr (h.engine.UpdateSize size).m_sortBuffer)
             (addr (h.engine.UpdateSize size).m_sortPayloadBuffer)
             (h.engine.UpdateSize size).m_numKeys,
           [SortCmd.CopyBufferRegion (addr h.engine.m_readBackBuffer) 0
             (addr h.engine.m_errorCountBuffer) 0 4]]
         else []) ++
        (if shouldReadBack then readBackCmds (h.engine.UpdateSize size) else []),
      h1, ?_, rfl, ?_, ?_, ?_⟩
    · rw [h2, List.append_assoc]
    · intro l hl
      rw [List.mem_append] at hl
      rcases hl with hl | hl
      · cases shouldValidate
        · simp at hl
        · simp only [if_true, List.mem_cons, List.mem_singleton, List.not_mem_nil,
            or_false] at hl
          rcases hl with hl | hl <;> rw [hl] <;> rfl
      · cases shouldReadBack
        · simp at hl
        · simp only [if_true, readBackCmds, List.mem_append, List.mem_singleton] at hl
          rcases hl with hl | hl
          · rw [hl]
            rfl
          · split at hl
            · rw [List.mem_singleton] at hl
              rw [hl]
              rfl
            · simp at hl
    · rw [← hcfg]
      cases shouldValidate <;> cases shouldReadBack <;>
        by_cases hmode : (h.engine.UpdateSize size).k_sortingConfig.sortingMode =
          MODE.MODE_PAIRS <;>
        simp [readBackCmds, hmode]
    · rw [h2]
      simp only [List.length_append, List.length_cons, List.length_nil]
      omega
  · intro hne2
    obtain ⟨_, f2, _⟩ := UpdateSize_fields h.engine size hne2
    refine ⟨f2, ?_⟩
    intro hlt
    rw [f2]
    exact GPUSortBase.divRoundUp_covers size _ hP hlt

/-- Witness for C17 (amended): `TestSort(6, 1, true, true)` on `exampleEngine`. -/
theorem C17_whole_sort_is_one_submission_witness :
    ∃ r l0 rest, TestSort ⟨exampleEngine, exampleMemory, []⟩ 6 1 true true = some r ∧
      r.executed = [] ++ ([l0, sortCmdsOf (exampleEngine.UpdateSize 6)] ++ rest) ∧
      passesOf l0 = [] ∧ (∀ l ∈ rest, passesOf l = []) ∧ rest.length = 4 := by
  obtain ⟨r, l0, rest, h1, h2, h3, h4, h5, _⟩ :=
    (C17_whole_sort_is_one_submission ⟨exampleEngine, exampleMemory, []⟩ 6 1 true true
      (by decide) (by decide) (by decide) (by decide) (by decide)
      (Or.inr exampleEngine_allocated) (by decide)).2.1
  exact ⟨r, l0, rest, h1, h2, h3, h4, by rw [h5]; decide⟩

end Host

namespace ChainedScanDecoupledLookback

/-- C19: both scan command lists record, in order, exactly one `InitCSDL` dispatch on the
bump counter and the per-partition reduction (lookback) buffer for `m_partitions`
partitions, a barrier on each of those two buffers, and then exactly one scan dispatch;
the inclusive and the exclusive list are identical except for the scan kernel. -/
theorem C19_scan_lists_reinitialise_then_scan (e : ChainedScanDecoupledLookback)
    (h : Allocated e) :
    ∃ ri rx, PrepareScanCmdListInclusive e = some ri ∧ PrepareScanCmdListExclusive e = some rx ∧
      ri.m_cmdList = e.m_cmdList ++
        [ScanCmd.InitCSDL (DeviceRadixSort.addr e.m_scanBumpBuffer)
           (DeviceRadixSort.addr e.m_threadBlockReductionBuffer) e.m_partitions,
         ScanCmd.UAVBarrier (DeviceRadixSort.addr e.m_scanBumpBuffer),
         ScanCmd.UAVBarrier (DeviceRadixSort.addr e.m_threadBlockReductionBuffer),
         ScanCmd.CSDLInclusive (DeviceRadixSort.addr e.m_scanInBuffer)
           (DeviceRadixSort.addr e.m_scanOutBuffer) (DeviceRadixSort.addr e.m_scanBumpBuffer)
           (DeviceRadixSort.addr e.m_threadBlockReductionBuffer) e.m_vectorizedSize
           e.m_partitions] ∧
      rx.m_cmdList = e.m_cmdList ++
        [ScanCmd.InitCSDL (DeviceRadixSort.addr e.m_scanBumpBuffer)
           (DeviceRadixSort.addr e.m_threadBlockReductionBuffer) e.m_partitions,
         ScanCmd.UAVBarrier (DeviceRadixSort.addr e.m_scanBumpBuffer),
         ScanCmd.UAVBarrier (DeviceRadixSort.addr e.m_threadBlockReductionBuffer),
         ScanCmd.CSDLExclusive (DeviceRadixSort.addr e.m_scanInBuffer)
           (DeviceRadixSort.addr e.m_scanOutBuffer) (DeviceRadixSort.addr e.m_scanBumpBuffer)
           (DeviceRadixSort.addr e.m_threadBlockReductionBuffer) e.m_vectorizedSize
           e.m_partitions] ∧
      rx.m_cmdList.map ScanCmd.eraseKernel = ri.m_cmdList.map ScanCmd.eraseKernel ∧
      ri.m_cmdList.filterMap ScanCmd.dispatch? =
        e.m_cmdList.filterMap ScanCmd.dispatch? ++ ["InitCSDL", "CSDLInclusive"] ∧
      rx.m_cmdList.filterMap ScanCmd.dispatch? =
        e.m_cmdList.filterMap ScanCmd.dispatch? ++ ["InitCSDL", "CSDLExclusive"] := by
  refine ⟨_, _, PrepareScanCmdListInclusive_eq e h, PrepareScanCmdListExclusive_eq e h,
    rfl, rfl, ?_, ?_, ?_⟩
  · simp only [List.map_append]
    rfl
  · simp only [List.filterMap_append]
    rfl
  · simp only [List.filterMap_append]
    rfl

/-- Witness for C19: the lists recorded for `exampleEmpty`. -/
theorem C19_scan_lists_reinitialise_then_scan_witness :
    ∃ ri rx, PrepareScanCmdListInclusive exampleEmpty = some ri ∧
      PrepareScanCmdListExclusive exampleEmpty = some rx ∧
      rx.m_cmdList.map ScanCmd.eraseKernel = ri.m_cmdList.map ScanCmd.eraseKernel := by
  obtain ⟨ri, rx, h1, h2, _, _, h3, _⟩ :=
    C19_scan_lists_reinitialise_then_scan exampleEmpty (by decide)
  exact ⟨ri, rx, h1, h2, h3⟩

end ChainedScanDecoupledLookback

theorem hazardFree_sound (l : List Access) :
    ∀ dirty, hazardFree dirty l = true →
      (∀ (j : Nat) (rs2 ws2 : List Nat) (b : Nat),
        l[j]? = some (Access.dispatch rs2 ws2) → b ∈ rs2 → b ∈ dirty →
        ∃ k, k < j ∧ l[k]? = some (Access.barrier b)) ∧ Covered l := by
  induction l with
  | nil =>
    intro dirty _
    refine ⟨?_, ?_⟩
    · intro j rs2 ws2 b h; simp at h
    · intro i j rs ws rs2 ws2 b _ h; simp at h
  | cons x rest ih =>
    intro dirty hz
    cases x with
    | dispatch rs ws =>
      simp only [hazardFree, Bool.and_eq_true, List.all_eq_true, Bool.not_eq_true'] at hz
      obtain ⟨hall0, hrest⟩ := hz
      have hall : ∀ b ∈ rs, b ∉ dirty := by
        intro b hb hd
        have := hall0 b hb
        simp [hd] at this
      obtain ⟨ihA, ihB⟩ := ih (ws ++ dirty) hrest
      refine ⟨?_, ?_⟩
      · intro j rs2 ws2 b hj hb hd
        cases j with
        | zero =>
          simp only [List.getElem?_cons_zero, Option.some.injEq, Access.dispatch.injEq] at hj
          exact absurd hd (hall b (hj.1 ▸ hb))
        | succ j2 =>
          rw [List.getElem?_cons_succ] at hj
          obtain ⟨k, hk, hkb⟩ := ihA j2 rs2 ws2 b hj hb (List.mem_append_right ws hd)
          exact ⟨k + 1, by omega, by rw [List.getElem?_cons_succ]; exact hkb⟩
      · intro i j rs1 ws1 rs2 ws2 b hij hi hbw hj hbr
        cases j with
        | zero => omega
        | succ j2 =>
          rw [List.getElem?_cons_succ] at hj
          cases i with
          | zero =>
            simp only [List.getElem?_cons_zero, Option.some.injEq, Access.dispatch.injEq] at hi
            obtain ⟨k, hk, hkb⟩ := ihA j2 rs2 ws2 b hj hbr
              (List.mem_append_left dirty (hi.2 ▸ hbw))
            exact ⟨k + 1, by omega, by omega, by rw [List.getElem?_cons_succ]; exact hkb⟩
          | succ i2 =>
            rw [List.getElem?_cons_succ] at hi
            obtain ⟨k, hk1, hk2, hkb⟩ := ihB i2 j2 rs1 ws1 rs2 ws2 b (by omega) hi hbw hj hbr
            exact ⟨k + 1, by omega, by omega, by rw [List.getElem?_cons_succ]; exact hkb⟩
    | barrier r =>
      simp only [hazardFree] at hz
      obtain ⟨ihA, ihB⟩ := ih _ hz
      refine ⟨?_, ?_⟩
      · intro j rs2 ws2 b hj hb hd
        cases j with
        | zero => simp at hj
        | succ j2 =>
          rw [List.getElem?_cons_succ] at hj
          by_cases hbr : b = r
          · exact ⟨0, by omega, by rw [hbr]; simp⟩
          · obtain ⟨k, hk, hkb⟩ := ihA j2 rs2 ws2 b hj hb
              (List.mem_filter.mpr ⟨hd, by simpa using hbr⟩)
            exact ⟨k + 1, by omega, by rw [List.getElem?_cons_succ]; exact hkb⟩
      · intro i j rs1 ws1 rs2 ws2 b hij hi hbw hj hbr
        cases j with
        | zero => omega
        | succ j2 =>
          rw [List.getElem?_cons_succ] at hj
          cases i with
          | zero => simp at hi
          | succ i2 =>
            rw [List.getElem?_cons_succ] at hi
            obtain ⟨k, hk1, hk2, hkb⟩ := ihB i2 j2 rs1 ws1 rs2 ws2 b (by omega) hi hbw hj hbr
            exact ⟨k + 1, by omega, by omega, by rw [List.getElem?_cons_succ]; exact hkb⟩
    | other =>
      simp only [hazardFree] at hz
      obtain ⟨ihA, ihB⟩ := ih _ hz
      refine ⟨?_, ?_⟩
      · intro j rs2 ws2 b hj hb hd
        cases j with
        | zero => simp at hj
        | succ j2 =>
          rw [List.getElem?_cons_succ] at hj
          obtain ⟨k, hk, hkb⟩ := ihA j2 rs2 ws2 b hj hb hd
          exact ⟨k + 1, by omega, by rw [List.getElem?_cons_succ]; exact hkb⟩
      · intro i j rs1 ws1 rs2 ws2 b hij hi hbw hj hbr
        cases j with
        | zero => omega
        | succ j2 =>
          rw [List.getElem?_cons_succ] at hj
          cases i with
          | zero => simp at hi
          | succ i2 =>
            rw [List.getElem?_cons_succ] at hi
            obtain ⟨k, hk1, hk2, hkb⟩ := ihB i2 j2 rs1 ws1 rs2 ws2 b (by omega) hi hbw hj hbr
            exact ⟨k + 1, by omega, by omega, by rw [List.getElem?_cons_succ]; exact hkb⟩

namespace DeviceRadixSort

theorem hazardFree_sortCmds (s sp a ap g ph n p : Nat)
    (hnd : [s, sp, a, ap, g, ph].Nodup) :
    hazardFree [] ((sortCmds s sp a ap g ph n p).map SortCmd.access) = true := by
  simp only [List.nodup_cons, List.mem_cons, List.mem_singleton, List.not_mem_nil, or_false,
    not_or, List.nodup_nil, and_true] at hnd
  obtain ⟨⟨h1, h2, h3, h4, h5⟩, ⟨h6, h7, h8, h9⟩, ⟨h10, h11, h12⟩, ⟨h13, h14⟩, h15, _⟩ := hnd
  have k1 := Ne.symm h1
  have k2 := Ne.symm h2
  have k3 := Ne.symm h3
  have k4 := Ne.symm h4
  have k5 := Ne.symm h5
  have k6 := Ne.symm h6
  have k7 := Ne.symm h7
  have k8 := Ne.symm h8
  have k9 := Ne.symm h9
  have k10 := Ne.symm h10
  have k11 := Ne.symm h11
  have k12 := Ne.symm h12
  have k13 := Ne.symm h13
  have k14 := Ne.symm h14
  have k15 := Ne.symm h15
  simp [sortCmds, passCmds, SortCmd.access, hazardFree, List.filter_cons, h1, h2, h3, h4, h5,
    h6, h7, h8, h9, h10, h11, h12, h13, h14, h15, k1, k2, k3, k4, k5, k6, k7, k8, k9, k10, k11,
    k12, k13, k14, k15]

end DeviceRadixSort

namespace ChainedScanDecoupledLookback

theorem hazardFree_scan (i o b r v p : Nat) :
    hazardFree [] ([ScanCmd.InitCSDL b r p, ScanCmd.UAVBarrier b, ScanCmd.UAVBarrier r,
        ScanCmd.CSDLInclusive i o b r v p].map ScanCmd.access) = true ∧
      hazardFree [] ([ScanCmd.InitCSDL b r p, ScanCmd.UAVBarrier b, ScanCmd.UAVBarrier r,
        ScanCmd.CSDLExclusive i o b r v p].map ScanCmd.access) = true := by
  by_cases h : r = b
  · subst h
    simp [ScanCmd.access, hazardFree, List.filter_cons]
  · simp [ScanCmd.access, hazardFree, List.filter_cons, h]

end ChainedScanDecoupledLookback

namespace DeviceRadixSort

/-- C18: in the command list recorded by `PrepareSortCmdList`, with the read and write sets
of section 4.3, every dispatch that reads a buffer written by an earlier dispatch of the
list is preceded by a UAV barrier on that buffer recorded after the writing dispatch, across
all four passes and the buffer swaps; the same holds for the `InitCSDL` dispatch and the
scan dispatch of both scan lists of `ChainedScanDecoupledLookback`. -/
theorem C18_reads_after_writes_are_covered (e : DeviceRadixSort) (halloc : Allocated e)
    (hnd : [addr e.m_sortBuffer, addr e.m_sortPayloadBuffer, addr e.m_altBuffer,
      addr e.m_altPayloadBuffer, addr e.m_globalHistBuffer, addr e.m_passHistBuffer].Nodup)
    (c : ChainedScanDecoupledLookback) (hc : ChainedScanDecoupledLookback.Allocated c) :
    (∃ r, PrepareSortCmdList e = some r ∧ r.m_cmdList = e.m_cmdList ++ sortCmdsOf e ∧
      Covered ((sortCmdsOf e).map SortCmd.access)) ∧
    (∃ r l, ChainedScanDecoupledLookback.PrepareScanCmdListInclusive c = some r ∧
      r.m_cmdList = c.m_cmdList ++ l ∧ Covered (l.map ScanCmd.access)) ∧
    (∃ r l, ChainedScanDecoupledLookback.PrepareScanCmdListExclusive c = some r ∧
      r.m_cmdList = c.m_cmdList ++ l ∧ Covered (l.map ScanCmd.access)) := by
  refine ⟨⟨_, PrepareSortCmdList_eq e halloc, rfl, ?_⟩, ?_, ?_⟩
  · exact (hazardFree_sound _ [] (hazardFree_sortCmds _ _ _ _ _ _ _ _ hnd)).2
  · exact ⟨_, _, ChainedScanDecoupledLookback.PrepareScanCmdListInclusive_eq c hc, rfl,
      (hazardFree_sound _ [] (ChainedScanDecoupledLookback.hazardFree_scan _ _ _ _ _ _).1).2⟩
  · exact ⟨_, _, ChainedScanDecoupledLookback.PrepareScanCmdListExclusive_eq c hc, rfl,
      (hazardFree_sound _ [] (ChainedScanDecoupledLookback.hazardFree_scan _ _ _ _ _ _).2).2⟩

/-- Witness for C18: the sort list of `exampleEngine`. -/
theorem C18_reads_after_writes_are_covered_witness :
    ∃ r, PrepareSortCmdList exampleEngine = some r ∧
      r.m_cmdList = exampleEngine.m_cmdList ++ sortCmdsOf exampleEngine ∧
      Covered ((sortCmdsOf exampleEngine).map SortCmd.access) :=
  (C18_reads_after_writes_are_covered exampleEngine exampleEngine_allocated (by decide)
    ChainedScanDecoupledLookback.exampleEmpty (by decide)).1

end DeviceRadixSort


/-! ## The test drivers -/

theorem u32_of_lt {n : Nat} (h : n < 4294967296) : u32 n = n := by
  unfold u32
  exact Nat.mod_eq_of_lt (by simpa using h)

theorem countPassed_eq (rs : List Bool) :
    ∀ c, c + rs.length < 4294967296 → countPassed rs c = c + rs.count true := by
  induction rs with
  | nil => intro c _; simp [countPassed]
  | cons b rs ih =>
    intro c h
    simp only [List.length_cons] at h
    have hstep : countPassed (b :: rs) c = countPassed rs (u32 (c + if b then 1 else 0)) := rfl
    have hb : (if b then 1 else 0) ≤ 1 := by split <;> omega
    rw [hstep, u32_of_lt (by omega), ih _ (by omega)]
    cases b <;> simp [List.count_cons]; omega

theorem count_true_eq_length (rs : List Bool) :
    rs.count true = rs.length ↔ ∀ b ∈ rs, b = true := by
  rw [List.count_eq_length]
  constructor
  · intro h b hb; exact (h b hb).symm
  · intro h b hb; exact (h b hb).symm

theorem filterMap_result_sorts (vs : Nat → Nat → Bool) (l : List (Nat × Nat)) :
    (l.map fun t => TestEvent.validateSort t.1 t.2 (vs t.1 t.2)).filterMap TestEvent.result? =
      l.map fun t => vs t.1 t.2 := by
  induction l with
  | nil => rfl
  | cons a l ih => simp [TestEvent.result?, ih]

theorem filterMap_result_sweep (vs : Nat → Nat → Bool) (l : List Nat) :
    (l.map fun i => TestEvent.validateSort i i (vs i i)).filterMap TestEvent.result? =
      l.map fun i => vs i i := by
  induction l with
  | nil => rfl
  | cons a l ih => simp [TestEvent.result?, ih]

theorem filterMap_result_scans (vsc : Nat → Bool) (l : List Nat) :
    (l.map fun i => TestEvent.validateScan i (vsc i)).filterMap TestEvent.result? =
      l.map vsc := by
  induction l with
  | nil => rfl
  | cons a l ih => simp [TestEvent.result?, ih]

theorem all_results_iff (log : List TestEvent) :
    (∀ b ∈ log.filterMap TestEvent.result?, b = true) ↔
      ∀ ev ∈ log, ev.result? ≠ some false := by
  constructor
  · intro h ev hev hf
    have := h false (List.mem_filterMap.2 ⟨ev, hev, hf⟩)
    exact Bool.noConfusion this
  · intro h b hb
    obtain ⟨ev, hev, hr⟩ := List.mem_filterMap.1 hb
    cases b
    · exact absurd hr (h ev hev)
    · rfl

namespace DeviceRadixSort

/-- The run of `DeviceRadixSort::TestAll` written out, for a partition size whose sweep bound
does not wrap. -/
theorem TestAll_report (e : GPUSortBase) (devInfo : DeviceInfo) (vs : Nat → Nat → Bool)
    (vsc : Nat → Bool) (hP : e.k_tuningParameters.partitionSize < 2147483648) :
    ∃ maxd : List (Nat × Nat),
      maxd = (if u64 (devInfo.dedicatedVideoMemory + devInfo.sharedSystemMemory) ≥
          TestAll.pairsMemoryRequirements e then TestAll.maxDim e else []) ∧
      (TestAll e devInfo vs vsc).events =
        ((List.range' e.k_tuningParameters.partitionSize
            (e.k_tuningParameters.partitionSize + 1)).map
            fun i => TestEvent.validateSort i i (vs i i)) ++
          TestEvent.updateSize 4194304 ::
            ((List.range' 1 255).map fun i => TestEvent.validateScan i (vsc i)) ++
          (TestAll.large.map fun t => TestEvent.validateSort t.1 t.2 (vs t.1 t.2)) ++
          [TestEvent.memoryCheck (u64 (devInfo.dedicatedVideoMemory + devInfo.sharedSystemMemory))
            (TestAll.pairsMemoryRequirements e)] ++
          (maxd.map fun t => TestEvent.validateSort t.1 t.2 (vs t.1 t.2)) ∧
      (TestAll e devInfo vs vsc).testsExpected =
        e.k_tuningParameters.partitionSize + 1 + 255 + 3 + maxd.length ∧
      (TestAll e devInfo vs vsc).testsPassed =
        (((TestAll e devInfo vs vsc).events.filterMap TestEvent.result?).count true) ∧
      (TestAll e devInfo vs vsc).result =
        decide ((TestAll e devInfo vs vsc).testsPassed =
          (TestAll e devInfo vs vsc).testsExpected) := by
  have hsweep := sweepSizes_eq e.k_tuningParameters.partitionSize (by simpa using hP)
  have hscan : TestAll.sweepFrom 256 1 = List.range' 1 255 := sweepFrom_eq_range' 256 255 1 rfl
  have hl : TestAll.large.length = 3 := rfl
  have hm : (TestAll.maxDim e).length = 3 := rfl
  have hc1 := List.count_le_length true
    ((List.range' e.k_tuningParameters.partitionSize
      (e.k_tuningParameters.partitionSize + 1)).map fun i => vs i i)
  have hc2 := List.count_le_length true ((List.range' 1 255).map vsc)
  have hc3 := List.count_le_length true (TestAll.large.map fun t => vs t.1 t.2)
  have hc4 := List.count_le_length true ((TestAll.maxDim e).map fun t => vs t.1 t.2)
  simp only [List.length_map, List.length_range', hl, hm] at hc1 hc2 hc3 hc4
  by_cases hmem : u64 (devInfo.dedicatedVideoMemory + devInfo.sharedSystemMemory) ≥
      TestAll.pairsMemoryRequirements e
  · refine ⟨_, rfl, ?_⟩
    simp only [TestAll, if_pos hmem, hsweep, hscan]
    rw [countPassed_eq _ 0 (by simp; omega), countPassed_eq _ 0 (by simp),
      countPassed_eq (TestAll.large.map fun t => vs t.1 t.2) _ (by simp [hl]; omega),
      countPassed_eq ((TestAll.maxDim e).map fun t => vs t.1 t.2) _ (by simp [hm]; omega)]
    rw [u32_of_lt (n := e.k_tuningParameters.partitionSize + 1) (by omega),
      u32_of_lt (n := e.k_tuningParameters.partitionSize + 1 + 255) (by omega),
      u32_of_lt (n := e.k_tuningParameters.partitionSize + 1 + 255 + 3) (by omega),
      u32_of_lt (n := e.k_tuningParameters.partitionSize + 1 + 255 + 3 + 3) (by omega),
      u32_of_lt (by omega)]
    refine ⟨by simp, by simp [hm], ?_, ?_⟩
    · simp only [List.filterMap_append, List.filterMap_cons, TestEvent.result?,
        List.filterMap_nil, filterMap_result_sorts, filterMap_result_sweep,
        filterMap_result_scans, List.count_append, List.count_nil]
      omega
    · simp [beq_eq_decide]
  · refine ⟨_, rfl, ?_⟩
    simp only [TestAll, if_neg hmem, hsweep, hscan]
    rw [countPassed_eq _ 0 (by simp; omega), countPassed_eq _ 0 (by simp),
      countPassed_eq (TestAll.large.map fun t => vs t.1 t.2) _ (by simp [hl]; omega)]
    rw [u32_of_lt (n := e.k_tuningParameters.partitionSize + 1) (by omega),
      u32_of_lt (n := e.k_tuningParameters.partitionSize + 1 + 255) (by omega),
      u32_of_lt (n := e.k_tuningParameters.partitionSize + 1 + 255 + 3) (by omega),
      u32_of_lt (by omega)]
    refine ⟨by simp, by simp, ?_, ?_⟩
    · simp only [List.filterMap_append, List.filterMap_cons, TestEvent.result?,
        List.filterMap_nil, filterMap_result_sorts, filterMap_result_sweep,
        filterMap_result_scans, List.count_append, List.count_nil, List.map_nil]
      omega
    · simp [beq_eq_decide]

end DeviceRadixSort


/-- The run of `GPUSortBase::TestAll` written out, for a partition size whose sweep bound
does not wrap. -/
theorem GPUSortBase.TestAll_base_report (e : GPUSortBase) (vs : Nat → Nat → Bool)
    (hP : e.k_tuningParameters.partitionSize < 2147483648) :
    (GPUSortBase.TestAll e vs).events =
        ((List.range' e.k_tuningParameters.partitionSize
            (e.k_tuningParameters.partitionSize + 1)).map
            fun i => TestEvent.validateSort i i (vs i i)) ++
          (DeviceRadixSort.TestAll.large.map
            fun t => TestEvent.validateSort t.1 t.2 (vs t.1 t.2)) ∧
      (GPUSortBase.TestAll e vs).testsExpected = e.k_tuningParameters.partitionSize + 1 + 3 ∧
      (GPUSortBase.TestAll e vs).testsPassed =
        (((GPUSortBase.TestAll e vs).events.filterMap TestEvent.result?).count true) ∧
      (GPUSortBase.TestAll e vs).result =
        decide ((GPUSortBase.TestAll e vs).testsPassed =
          (GPUSortBase.TestAll e vs).testsExpected) := by
  have hsweep := DeviceRadixSort.sweepSizes_eq e.k_tuningParameters.partitionSize
    (by simpa using hP)
  have hl : DeviceRadixSort.TestAll.large.length = 3 := rfl
  have hc1 := List.count_le_length true
    ((List.range' e.k_tuningParameters.partitionSize
      (e.k_tuningParameters.partitionSize + 1)).map fun i => vs i i)
  simp only [List.length_map, List.length_range'] at hc1
  simp only [GPUSortBase.TestAll, hsweep]
  rw [countPassed_eq _ 0 (by simp; omega),
    countPassed_eq (DeviceRadixSort.TestAll.large.map fun t => vs t.1 t.2) _
      (by simp [hl]; omega)]
  rw [u32_of_lt (n := e.k_tuningParameters.partitionSize + 1) (by omega),
    u32_of_lt (n := e.k_tuningParameters.partitionSize + 1 + 3) (by omega)]
  refine ⟨trivial, rfl, ?_, ?_⟩
  · simp only [List.filterMap_append, filterMap_result_sorts, filterMap_result_sweep,
      List.count_append]
    omega
  · simp [beq_eq_decide]

/-- C13 (amended): for a partition size below 2 ^ 31, `TestAll` returns true exactly when
every validation it ran returned true.  For
`DeviceRadixSort::TestAll` the validations run are the partitionSize + 1 sweep sorts of sizes
partitionSize..2*partitionSize, the 255 scans of sizes 1..255 and the 3 large sorts, plus the
3 maximum-dimension sorts exactly when the memory suffices, and their number is
`testsExpected` on both branches; for `GPUSortBase::TestAll` they are the sweep sorts and the
3 large sorts, partitionSize + 1 + 3 in number.  Below 2 ^ 31 the sweep bound
`partitionSize * 2 + 1` fits `uint32_t`. -/
theorem DeviceRadixSort.C13_TestAll_true_iff_every_validation_passed (e : GPUSortBase)
    (devInfo : DeviceInfo) (vs : Nat → Nat → Bool) (vsc : Nat → Bool)
    (hP : e.k_tuningParameters.partitionSize < 2 ^ 31) :
    ((DeviceRadixSort.TestAll e devInfo vs vsc).result = true ↔
        ∀ ev ∈ (DeviceRadixSort.TestAll e devInfo vs vsc).events, ev.result? ≠ some false) ∧
      ((DeviceRadixSort.TestAll e devInfo vs vsc).events.filterMap TestEvent.result?).length =
        (DeviceRadixSort.TestAll e devInfo vs vsc).testsExpected ∧
      (DeviceRadixSort.TestAll e devInfo vs vsc).testsExpected =
        e.k_tuningParameters.partitionSize + 1 + 255 + 3 +
          (if u64 (devInfo.dedicatedVideoMemory + devInfo.sharedSystemMemory) ≥
            DeviceRadixSort.TestAll.pairsMemoryRequirements e then 3 else 0) ∧
      (DeviceRadixSort.TestAll e devInfo vs vsc).events.filter
          (fun ev => ev.isSort || ev.isScan) =
        ((List.range' e.k_tuningParameters.partitionSize
            (e.k_tuningParameters.partitionSize + 1)).map
            fun i => TestEvent.validateSort i i (vs i i)) ++
          ((List.range' 1 255).map fun i => TestEvent.validateScan i (vsc i)) ++
          (DeviceRadixSort.TestAll.large.map
            fun t => TestEvent.validateSort t.1 t.2 (vs t.1 t.2)) ++
          ((if u64 (devInfo.dedicatedVideoMemory + devInfo.sharedSystemMemory) ≥
              DeviceRadixSort.TestAll.pairsMemoryRequirements e then
              DeviceRadixSort.TestAll.maxDim e else []).map
            fun t => TestEvent.validateSort t.1 t.2 (vs t.1 t.2)) ∧
      ((GPUSortBase.TestAll e vs).result = true ↔
        ∀ ev ∈ (GPUSortBase.TestAll e vs).events, ev.result? ≠ some false) ∧
      ((GPUSortBase.TestAll e vs).events.filterMap TestEvent.result?).length =
        (GPUSortBase.TestAll e vs).testsExpected ∧
      (GPUSortBase.TestAll e vs).testsExpected = e.k_tuningParameters.partitionSize + 1 + 3 ∧
      (GPUSortBase.TestAll e vs).events =
        ((List.range' e.k_tuningParameters.partitionSize
            (e.k_tuningParameters.partitionSize + 1)).map
            fun i => TestEvent.validateSort i i (vs i i)) ++
          (DeviceRadixSort.TestAll.large.map
            fun t => TestEvent.validateSort t.1 t.2 (vs t.1 t.2)) := by
  have e31 : (2 : Nat) ^ 31 = 2147483648 := by norm_num
  rw [e31] at hP
  obtain ⟨maxd, hmaxd, hev, hexp, hpass, hres⟩ :=
    DeviceRadixSort.TestAll_report e devInfo vs vsc hP
  obtain ⟨bev, bexp, bpass, bres⟩ := GPUSortBase.TestAll_base_report e vs hP
  have hl : DeviceRadixSort.TestAll.large.length = 3 := rfl
  have hm : (DeviceRadixSort.TestAll.maxDim e).length = 3 := rfl
  have hlen : ((DeviceRadixSort.TestAll e devInfo vs vsc).events.filterMap
      TestEvent.result?).length = (DeviceRadixSort.TestAll e devInfo vs vsc).testsExpected := by
    rw [hexp, hev]
    simp only [List.filterMap_append, List.filterMap_cons, TestEvent.result?,
      List.filterMap_nil, filterMap_result_sorts, filterMap_result_sweep,
      filterMap_result_scans, List.length_append, List.length_map, List.length_range', hl,
      List.length_nil]
  have blen : ((GPUSortBase.TestAll e vs).events.filterMap TestEvent.result?).length =
      (GPUSortBase.TestAll e vs).testsExpected := by
    rw [bexp, bev]
    simp only [List.filterMap_append, filterMap_result_sorts, filterMap_result_sweep,
      List.length_append, List.length_map, List.length_range', hl]
  refine ⟨?_, hlen, ?_, ?_, ?_, blen, bexp, bev⟩
  · rw [hres, decide_eq_true_iff, hpass, ← hlen, count_true_eq_length, all_results_iff]
  · rw [hexp, hmaxd]
    split <;> simp [hm]
  · rw [hev, hmaxd]
    simp [List.filter_append, List.filter_map, TestEvent.isSort, TestEvent.isScan,
      Function.comp_def]
  · rw [bres, decide_eq_true_iff, bpass, ← blen, count_true_eq_length, all_results_iff]

theorem DeviceRadixSort.C13_TestAll_true_iff_every_validation_passed_witness :
    ((DeviceRadixSort.TestAll exampleBase exampleNoMemory
          (fun _ _ => true) (fun _ => true)).result = true ↔
        ∀ ev ∈ (DeviceRadixSort.TestAll exampleBase exampleNoMemory
          (fun _ _ => true) (fun _ => true)).events, ev.result? ≠ some false) ∧
      (DeviceRadixSort.TestAll exampleBase exampleNoMemory
        (fun _ _ => true) (fun _ => true)).testsExpected = 7680 + 1 + 255 + 3 + 0 ∧
      (GPUSortBase.TestAll exampleBase (fun _ _ => false)).testsExpected = 7680 + 1 + 3 :=
  have h := DeviceRadixSort.C13_TestAll_true_iff_every_validation_passed exampleBase
    exampleNoMemory (fun _ _ => true) (fun _ => true) (by decide)
  have h2 := DeviceRadixSort.C13_TestAll_true_iff_every_validation_passed exampleBase
    exampleNoMemory (fun _ _ => false) (fun _ => true) (by decide)
  ⟨h.1, h.2.2.1, h2.2.2.2.2.2.2.1⟩


/-- The memory requirement of `TestAll` for the constants of `DeviceRadixSort`, when the
product of the dispatch dimension and the partition size fits 32 bits. -/
theorem DeviceRadixSort.pairsMemoryRequirements_eq (e : GPUSortBase)
    (hdim : e.k_maxDispatchDimension = 65535) (hradix : e.k_radix = 256)
    (hpasses : e.k_radixPasses = 4) (hrb : e.k_maxReadBack = 8192)
    (hP : e.k_tuningParameters.partitionSize ≤ 65537) :
    DeviceRadixSort.TestAll.pairsMemoryRequirements e =
      65535 * e.k_tuningParameters.partitionSize * 4 * 5 + 36868 + 4194304 := by
  have h64 : ∀ n, n < 18446744073709551616 → u64 n = n := by
    intro n hn
    unfold u64
    exact Nat.mod_eq_of_lt (by simpa using hn)
  simp only [DeviceRadixSort.TestAll.pairsMemoryRequirements, hdim, hradix, hpasses, hrb]
  rw [u32_of_lt (n := 65535 * e.k_tuningParameters.partitionSize) (by omega),
    u32_of_lt (n := 256 * 4) (by norm_num)]
  have h1 : (1 <<< 20) * 4 = 4194304 := by decide
  rw [h1, h64 (256 * 4 * 4) (by norm_num), h64 (256 * 4 * 4 + 4) (by norm_num),
    h64 (8192 * 4) (by norm_num), h64 (256 * 4 * 4 + 4 + 8192 * 4) (by norm_num),
    h64 4194304 (by norm_num), h64 (65535 * e.k_tuningParameters.partitionSize * 4) (by omega),
    h64 (65535 * e.k_tuningParameters.partitionSize * 4 * 5) (by omega),
    h64 (65535 * e.k_tuningParameters.partitionSize * 4 * 5 + (256 * 4 * 4 + 4 + 8192 * 4))
      (by omega), h64 _ (by omega)]

/-- C16 as stated fails: on a device without any memory the size sweep of
`DeviceRadixSort::TestAll` still sorts, starting with the first event of the run, and the
2^21 sort is issued as well; no memory check comes before them. -/
theorem DeviceRadixSort.C16_sorts_run_without_memory_check :
    u64 (exampleNoMemory.dedicatedVideoMemory + exampleNoMemory.sharedSystemMemory) <
        DeviceRadixSort.TestAll.pairsMemoryRequirements exampleBase ∧
      ¬ GuardedByMemoryCheck
        (DeviceRadixSort.TestAll exampleBase exampleNoMemory
          (fun _ _ => true) (fun _ => true)).events ∧
      TestEvent.validateSort 2097152 5 true ∈
        (DeviceRadixSort.TestAll exampleBase exampleNoMemory
          (fun _ _ => true) (fun _ => true)).events := by
  obtain ⟨maxd, _, hev, _⟩ := DeviceRadixSort.TestAll_report exampleBase exampleNoMemory
    (fun _ _ => true) (fun _ => true) (by decide)
  have hP : exampleBase.k_tuningParameters.partitionSize = 7680 := rfl
  refine ⟨by decide, ?_, ?_⟩
  · intro hg
    rw [hev, hP] at hg
    obtain ⟨c, hc, _⟩ := hg [] (TestEvent.validateSort 7680 7680 true) _
      (by rw [List.range'_succ]; rfl) rfl
    exact absurd hc (List.not_mem_nil c)
  · rw [hev]
    simp [DeviceRadixSort.TestAll.large]

/-- C16, amended: in `DeviceRadixSort::TestAll` only the three maximum-dimension sorts are
guarded by the memory check.  The run consists of the size sweep, the scans and the three
large sorts, which do not depend on the memory of the device, then the comparison of
dedicatedVideoMemory + sharedSystemMemory with
65535 * partitionSize * 4 * 5 + 36868 + 2^20 * 4 bytes, and then the three
maximum-dimension sorts if and only if the memory is at least that much. -/
theorem DeviceRadixSort.C16_only_maximum_dimension_sorts_are_guarded (e : GPUSortBase)
    (devInfo : DeviceInfo) (vs : Nat → Nat → Bool) (vsc : Nat → Bool)
    (hdim : e.k_maxDispatchDimension = 65535) (hradix : e.k_radix = 256)
    (hpasses : e.k_radixPasses = 4) (hrb : e.k_maxReadBack = 8192)
    (hP : e.k_tuningParameters.partitionSize ≤ 65537)
    (hmem : devInfo.dedicatedVideoMemory + devInfo.sharedSystemMemory < 2 ^ 64) :
    (DeviceRadixSort.TestAll e devInfo vs vsc).events =
        (((List.range' e.k_tuningParameters.partitionSize
            (e.k_tuningParameters.partitionSize + 1)).map
            fun i => TestEvent.validateSort i i (vs i i)) ++
          TestEvent.updateSize 4194304 ::
            ((List.range' 1 255).map fun i => TestEvent.validateScan i (vsc i)) ++
          (DeviceRadixSort.TestAll.large.map
            fun t => TestEvent.validateSort t.1 t.2 (vs t.1 t.2))) ++
        TestEvent.memoryCheck (devInfo.dedicatedVideoMemory + devInfo.sharedSystemMemory)
            (65535 * e.k_tuningParameters.partitionSize * 4 * 5 + 36868 + 2 ^ 20 * 4) ::
          (if devInfo.dedicatedVideoMemory + devInfo.sharedSystemMemory ≥
              65535 * e.k_tuningParameters.partitionSize * 4 * 5 + 36868 + 2 ^ 20 * 4 then
            (DeviceRadixSort.TestAll.maxDim e).map
              fun t => TestEvent.validateSort t.1 t.2 (vs t.1 t.2)
          else []) ∧
      (DeviceRadixSort.TestAll.maxDim e).map Prod.snd = [13, 17, 19] ∧
      DeviceRadixSort.TestAll.large = [(2 ^ 21, 5), (2 ^ 22, 7), (2 ^ 23, 11)] := by
  obtain ⟨maxd, hmaxd, hev, _⟩ := DeviceRadixSort.TestAll_report e devInfo vs vsc (by omega)
  have hreq := DeviceRadixSort.pairsMemoryRequirements_eq e hdim hradix hpasses hrb hP
  have h64 : u64 (devInfo.dedicatedVideoMemory + devInfo.sharedSystemMemory) =
      devInfo.dedicatedVideoMemory + devInfo.sharedSystemMemory := by
    unfold u64
    exact Nat.mod_eq_of_lt hmem
  have h20 : (2 : Nat) ^ 20 * 4 = 4194304 := by norm_num
  refine ⟨?_, rfl, by decide⟩
  rw [hev, hmaxd, hreq, h64, h20]
  split <;> simp

theorem DeviceRadixSort.C16_only_maximum_dimension_sorts_are_guarded_witness :
    (DeviceRadixSort.TestAll exampleBase exampleNoMemory (fun _ _ => true)
        (fun _ => true)).events =
        (((List.range' exampleBase.k_tuningParameters.partitionSize
            (exampleBase.k_tuningParameters.partitionSize + 1)).map
            fun i => TestEvent.validateSort i i ((fun _ _ => true) i i)) ++
          TestEvent.updateSize 4194304 ::
            ((List.range' 1 255).map fun i => TestEvent.validateScan i ((fun _ => true) i)) ++
          (DeviceRadixSort.TestAll.large.map
            fun t => TestEvent.validateSort t.1 t.2 ((fun _ _ => true) t.1 t.2))) ++
        TestEvent.memoryCheck
            (exampleNoMemory.dedicatedVideoMemory + exampleNoMemory.sharedSystemMemory)
            (65535 * exampleBase.k_tuningParameters.partitionSize * 4 * 5 + 36868 + 2 ^ 20 * 4) ::
          (if exampleNoMemory.dedicatedVideoMemory + exampleNoMemory.sharedSystemMemory ≥
              65535 * exampleBase.k_tuningParameters.partitionSize * 4 * 5 + 36868 +
                2 ^ 20 * 4 then
            (DeviceRadixSort.TestAll.maxDim exampleBase).map
              fun t => TestEvent.validateSort t.1 t.2 ((fun _ _ => true) t.1 t.2)
          else []) :=
  (DeviceRadixSort.C16_only_maximum_dimension_sorts_are_guarded exampleBase exampleNoMemory
    (fun _ _ => true) (fun _ => true) rfl rfl rfl rfl (by decide) (by decide)).1


/-! ## The entry point -/

/-- C14 as stated fails: on a capable device `main` returns the success status 0 although
each of the three `TestAll` runs returned false. -/
theorem C14_main_returns_success_after_failed_tests :
    ∃ ev, main exampleDeviceCapable (fun _ => false) = Except.ok (0, ev) ∧
      testAllResults ev = [(Engine.DeviceRadixSort, false), (Engine.OneSweep, false),
        (Engine.FFXParallelSort, false)] :=
  ⟨_, rfl, rfl⟩

/-- C14, amended: whenever the device queries succeed, `main` returns the status 0 whatever
the three `TestAll` runs (DeviceRadixSort, OneSweep, FFXParallelSort, in this order)
returned: their results are discarded. -/
theorem C14_main_status_ignores_test_results (device : Device) (deviceInfo : DeviceInfo)
    (testAll : Engine → Bool) (h : GetDeviceInfo device = Except.ok deviceInfo) :
    ∃ ev, main device testAll = Except.ok (0, ev) ∧
      testAllResults ev = [(Engine.DeviceRadixSort, testAll Engine.DeviceRadixSort),
        (Engine.OneSweep, testAll Engine.OneSweep),
        (Engine.FFXParallelSort, testAll Engine.FFXParallelSort)] := by
  unfold main
  rw [h]
  exact ⟨_, rfl, rfl⟩

theorem C14_main_status_ignores_test_results_witness :
    ∃ ev, main exampleDeviceCapable (fun engine => engine != Engine.OneSweep) =
        Except.ok (0, ev) ∧
      testAllResults ev = [(Engine.DeviceRadixSort, true), (Engine.OneSweep, false),
        (Engine.FFXParallelSort, true)] :=
  C14_main_status_ignores_test_results exampleDeviceCapable _
    (fun engine => engine != Engine.OneSweep) rfl

/-- C15 on the code: for every device whose queries succeed, `GetDeviceInfo` computes the
two support flags from the wave width, the wave intrinsics, the shader model and the software
flag, and `main` constructs and tests DeviceRadixSort, OneSweep and FFXParallelSort whatever
the flags are, also when `SupportsOneSweep` and `SupportsDeviceRadixSort` are false. -/
theorem C15_main_runs_OneSweep_without_support (device : Device) (deviceInfo : DeviceInfo)
    (testAll : Engine → Bool) (h : GetDeviceInfo device = Except.ok deviceInfo) :
    deviceInfo.SupportsDeviceRadixSort =
        (decide (device.WaveLaneCountMin ≥ 4) && device.WaveOps &&
          decide (device.HighestShaderModel ≥ D3D_SHADER_MODEL_6_0)) ∧
      (deviceInfo.SupportsOneSweep = true →
        deviceInfo.SupportsDeviceRadixSort = true ∧
          device.Flags &&& DXGI_ADAPTER_FLAG_SOFTWARE ≠ DXGI_ADAPTER_FLAG_SOFTWARE) ∧
      ∃ ev, main device testAll = Except.ok (0, ev) ∧
        constructed ev = [Engine.DeviceRadixSort, Engine.OneSweep, Engine.FFXParallelSort] ∧
        testAllResults ev = [(Engine.DeviceRadixSort, testAll Engine.DeviceRadixSort),
          (Engine.OneSweep, testAll Engine.OneSweep),
          (Engine.FFXParallelSort, testAll Engine.FFXParallelSort)] := by
  have hm : ∃ ev, main device testAll = Except.ok (0, ev) ∧
      constructed ev = [Engine.DeviceRadixSort, Engine.OneSweep, Engine.FFXParallelSort] ∧
      testAllResults ev = [(Engine.DeviceRadixSort, testAll Engine.DeviceRadixSort),
        (Engine.OneSweep, testAll Engine.OneSweep),
        (Engine.FFXParallelSort, testAll Engine.FFXParallelSort)] := by
    unfold main
    rw [h]
    exact ⟨_, rfl, rfl, rfl⟩
  unfold GetDeviceInfo at h
  simp only [] at h
  split at h
  · exact Except.noConfusion h
  · injection h with h
    subst h
    refine ⟨rfl, ?_, hm⟩
    intro hs
    simp only [Bool.and_eq_true, Bool.not_eq_true', Bool.or_eq_false_iff, beq_eq_false_iff_ne,
      ne_eq] at hs
    exact ⟨by simp only [Bool.and_eq_true]; exact hs.1, hs.2.1⟩

theorem C15_main_runs_OneSweep_without_support_witness :
    (∃ deviceInfo, GetDeviceInfo exampleDeviceNoWaveOps = Except.ok deviceInfo ∧
        deviceInfo.SupportsOneSweep = false ∧ deviceInfo.SupportsDeviceRadixSort = false) ∧
      (∃ deviceInfo, GetDeviceInfo exampleDeviceWarp = Except.ok deviceInfo ∧
        deviceInfo.SupportsOneSweep = false) ∧
      ∃ ev, main exampleDeviceNoWaveOps (fun _ => false) = Except.ok (0, ev) ∧
        constructed ev = [Engine.DeviceRadixSort, Engine.OneSweep, Engine.FFXParallelSort] ∧
        testAllResults ev = [(Engine.DeviceRadixSort, false), (Engine.OneSweep, false),
          (Engine.FFXParallelSort, false)] :=
  ⟨⟨_, rfl, rfl, rfl⟩, ⟨_, rfl, rfl⟩,
    (C15_main_runs_OneSweep_without_support exampleDeviceNoWaveOps _ (fun _ => false) rfl).2.2⟩


/-! ## The compile arguments -/

namespace GPUSortBase

theorem mem_lockWaves {s : String} {b : Bool} {args : List String}
    (h : s ∈ SetCompileArguments.lockWaves b args) : s ∈ args ∨ s = "-DLOCK_TO_W32" := by
  unfold SetCompileArguments.lockWaves at h
  split at h <;> (try simp at h) <;> tauto

theorem mem_keysPerThread {s : String} {k : Nat} {args : List String}
    (h : s ∈ SetCompileArguments.keysPerThread k args) :
    s ∈ args ∨ (k = 5 ∧ s = "-DKEYS_PER_THREAD_5") ∨
      ((k = 5 ∨ k = 7) ∧ s = "-DKEYS_PER_THREAD_7") := by
  unfold SetCompileArguments.keysPerThread at h
  split_ifs at h <;> (try simp at h) <;> tauto

theorem mem_threadsPerThreadblock {s : String} {k : Nat} {args : List String}
    (h : s ∈ SetCompileArguments.threadsPerThreadblock k args) :
    s ∈ args ∨ (k = 256 ∧ s = "-DD_DIM_256") := by
  unfold SetCompileArguments.threadsPerThreadblock at h
  split_ifs at h <;> (try simp at h) <;> tauto

theorem mem_partitionSize {s : String} {k : Nat} {args : List String}
    (h : s ∈ SetCompileArguments.partitionSize k args) :
    s ∈ args ∨ (k = 1792 ∧ s = "-DPART_SIZE_1792") ∨ (k = 2560 ∧ s = "-DPART_SIZE_2560") ∨
      (k = 3584 ∧ s = "-DPART_SIZE_3584") ∨ (k = 3840 ∧ s = "-DPART_SIZE_3840") := by
  unfold SetCompileArguments.partitionSize at h
  split_ifs at h <;> (try simp at h) <;> tauto

theorem mem_totalSharedMemory {s : String} {k : Nat} {args : List String}
    (h : s ∈ SetCompileArguments.totalSharedMemory k args) :
    s ∈ args ∨ (k = 4096 ∧ s = "-DD_TOTAL_SMEM_4096") := by
  unfold SetCompileArguments.totalSharedMemory at h
  split_ifs at h <;> (try simp at h) <;> tauto

theorem mem_sortingConfig {s : String} {c : GPUSorting.GPUSortingConfig} {args : List String}
    (h : s ∈ SetCompileArguments.sortingConfig c args) :
    s ∈ args ∨ s ∈ ["-DSHOULD_ASCEND", "-DKEY_UINT", "-DKEY_INT", "-DKEY_FLOAT", "-DSORT_PAIRS",
      "-DPAYLOAD_UINT", "-DPAYLOAD_INT", "-DPAYLOAD_FLOAT"] := by
  obtain ⟨m, o, k, p⟩ := c
  cases m <;> cases o <;> cases k <;> cases p <;>
    simp [SetCompileArguments.sortingConfig] at h ⊢ <;> tauto

theorem mem_tail {s : String} {d b : Bool} {args : List String}
    (h : s ∈ SetCompileArguments.tail d b args) :
    s ∈ args ∨ s ∈ ["-enable-16bit-types", "-DENABLE_16_BIT", "-O3", "-Zi"] := by
  cases d <;> cases b <;> simp [SetCompileArguments.tail] at h ⊢ <;> tauto

/-- Every argument of the result was there before or is one of the arguments the statement
for its parameter pushes for the value at hand. -/
theorem mem_SetCompileArguments {s : String} {debug : Bool} {t : GPUSorting.TuningParameters}
    {c : GPUSorting.GPUSortingConfig} {b : Bool} {args : List String}
    (h : s ∈ SetCompileArguments debug t c b args) :
    s ∈ args ∨ s = "-DLOCK_TO_W32" ∨
      ((t.keysPerThread = 5 ∧ s = "-DKEYS_PER_THREAD_5") ∨
        ((t.keysPerThread = 5 ∨ t.keysPerThread = 7) ∧ s = "-DKEYS_PER_THREAD_7")) ∨
      (t.threadsPerThreadblock = 256 ∧ s = "-DD_DIM_256") ∨
      ((t.partitionSize = 1792 ∧ s = "-DPART_SIZE_1792") ∨
        (t.partitionSize = 2560 ∧ s = "-DPART_SIZE_2560") ∨
        (t.partitionSize = 3584 ∧ s = "-DPART_SIZE_3584") ∨
        (t.partitionSize = 3840 ∧ s = "-DPART_SIZE_3840")) ∨
      (t.totalSharedMemory = 4096 ∧ s = "-DD_TOTAL_SMEM_4096") ∨
      s ∈ ["-DSHOULD_ASCEND", "-DKEY_UINT", "-DKEY_INT", "-DKEY_FLOAT", "-DSORT_PAIRS",
        "-DPAYLOAD_UINT", "-DPAYLOAD_INT", "-DPAYLOAD_FLOAT"] ∨
      s ∈ ["-enable-16bit-types", "-DENABLE_16_BIT", "-O3", "-Zi"] := by
  unfold SetCompileArguments at h
  simp only [] at h
  rcases mem_tail h with h | h
  swap
  · iterate 7 right
    exact h
  rcases mem_sortingConfig h with h | h
  swap
  · iterate 6 right
    exact Or.inl h
  rcases mem_totalSharedMemory h with h | h
  swap
  · iterate 5 right
    exact Or.inl h
  rcases mem_partitionSize h with h | h
  swap
  · iterate 4 right
    exact Or.inl h
  rcases mem_threadsPerThreadblock h with h | h
  swap
  · iterate 3 right
    exact Or.inl h
  rcases mem_keysPerThread h with h | h
  swap
  · iterate 2 right
    exact Or.inl h
  rcases mem_lockWaves h with h | h
  · exact Or.inl h
  · right
    exact Or.inl h

theorem tail_eq (d b : Bool) (args : List String) :
    SetCompileArguments.tail d b args =
      args ++ (if b then ["-enable-16bit-types", "-DENABLE_16_BIT"] else []) ++
        "-O3" :: (if d then ["-Zi"] else []) := by
  cases d <;> cases b <;> simp [SetCompileArguments.tail]

theorem lockWaves_append (b : Bool) (args : List String) :
    SetCompileArguments.lockWaves b args = args ++ SetCompileArguments.lockWaves b [] := by
  unfold SetCompileArguments.lockWaves
  split <;> simp

theorem keysPerThread_append (k : Nat) (args : List String) :
    SetCompileArguments.keysPerThread k args =
      args ++ SetCompileArguments.keysPerThread k [] := by
  unfold SetCompileArguments.keysPerThread
  split_ifs <;> simp

theorem threadsPerThreadblock_append (k : Nat) (args : List String) :
    SetCompileArguments.threadsPerThreadblock k args =
      args ++ SetCompileArguments.threadsPerThreadblock k [] := by
  unfold SetCompileArguments.threadsPerThreadblock
  split_ifs <;> simp

theorem partitionSize_append (k : Nat) (args : List String) :
    SetCompileArguments.partitionSize k args =
      args ++ SetCompileArguments.partitionSize k [] := by
  unfold SetCompileArguments.partitionSize
  split_ifs <;> simp

theorem totalSharedMemory_append (k : Nat) (args : List String) :
    SetCompileArguments.totalSharedMemory k args =
      args ++ SetCompileArguments.totalSharedMemory k [] := by
  unfold SetCompileArguments.totalSharedMemory
  split_ifs <;> simp

theorem sortingConfig_append (c : GPUSorting.GPUSortingConfig) (args : List String) :
    SetCompileArguments.sortingConfig c args =
      args ++ SetCompileArguments.sortingConfig c [] := by
  obtain ⟨m, o, k, p⟩ := c
  cases m <;> cases o <;> cases k <;> cases p <;> simp [SetCompileArguments.sortingConfig]

/-- The result is the arguments already there, then the defines, then `-O3`, then `-Zi` in
a debug build. -/
theorem SetCompileArguments_append (debug : Bool) (t : GPUSorting.TuningParameters)
    (c : GPUSorting.GPUSortingConfig) (b : Bool) (args : List String) :
    SetCompileArguments debug t c b args =
      args ++
        (SetCompileArguments.lockWaves t.shouldLockWavesTo32 [] ++
          SetCompileArguments.keysPerThread t.keysPerThread [] ++
          SetCompileArguments.threadsPerThreadblock t.threadsPerThreadblock [] ++
          SetCompileArguments.partitionSize t.partitionSize [] ++
          SetCompileArguments.totalSharedMemory t.totalSharedMemory [] ++
          SetCompileArguments.sortingConfig c [] ++
          (if b then ["-enable-16bit-types", "-DENABLE_16_BIT"] else [])) ++
        "-O3" :: (if debug then ["-Zi"] else []) := by
  unfold SetCompileArguments
  simp only []
  rw [tail_eq, sortingConfig_append, totalSharedMemory_append, partitionSize_append,
    threadsPerThreadblock_append, keysPerThread_append, lockWaves_append]
  simp only [List.append_assoc]

end GPUSortBase

/-- C20 as stated fails: in a build that defines `_DEBUG` the arguments for an unrecognised
partition size end with `-Zi`, not with `-O3`. -/
theorem GPUSortBase.C20_debug_build_ends_with_Zi :
    GPUSortBase.SetCompileArguments.partitionSize exampleUnknownTuning.partitionSize [] = [] ∧
      (GPUSortBase.SetCompileArguments true exampleUnknownTuning examplePairsConfig false
        []).getLast? = some "-Zi" ∧
      (GPUSortBase.SetCompileArguments true exampleUnknownTuning examplePairsConfig false
        []).getLast? ≠ some "-O3" := by
  refine ⟨by decide, by decide, by decide⟩

/-- C20, amended: an unsupported tuning value is not fatal in
`GPUSortBase::SetCompileArguments`.  For every partitionSize outside
{1792, 2560, 3584, 3840, 7680}, every keysPerThread outside {5, 7, 15}, every
threadsPerThreadblock outside {256, 512} and every totalSharedMemory outside {4096, 7936} the
function appends no define of that parameter and yields exactly the arguments it yields for
the default value (7680, 15, 512, 7936); the arguments end with `-O3`, followed by `-Zi` in a
build that defines `_DEBUG`. -/
theorem GPUSortBase.C20_unrecognised_value_is_skipped (debug : Bool)
    (t : GPUSorting.TuningParameters) (c : GPUSorting.GPUSortingConfig)
    (supports16BitTypes : Bool) (args : List String) :
    (t.partitionSize ∉ [1792, 2560, 3584, 3840, 7680] →
      GPUSortBase.SetCompileArguments debug t c supports16BitTypes args =
        GPUSortBase.SetCompileArguments debug { t with partitionSize := 7680 } c
          supports16BitTypes args ∧
      ∀ s ∈ ["-DPART_SIZE_1792", "-DPART_SIZE_2560", "-DPART_SIZE_3584", "-DPART_SIZE_3840"],
        s ∈ GPUSortBase.SetCompileArguments debug t c supports16BitTypes args → s ∈ args) ∧
    (t.keysPerThread ∉ [5, 7, 15] →
      GPUSortBase.SetCompileArguments debug t c supports16BitTypes args =
        GPUSortBase.SetCompileArguments debug { t with keysPerThread := 15 } c
          supports16BitTypes args ∧
      ∀ s ∈ ["-DKEYS_PER_THREAD_5", "-DKEYS_PER_THREAD_7"],
        s ∈ GPUSortBase.SetCompileArguments debug t c supports16BitTypes args → s ∈ args) ∧
    (t.threadsPerThreadblock ∉ [256, 512] →
      GPUSortBase.SetCompileArguments debug t c supports16BitTypes args =
        GPUSortBase.SetCompileArguments debug { t with threadsPerThreadblock := 512 } c
          supports16BitTypes args ∧
      ("-DD_DIM_256" ∈ GPUSortBase.SetCompileArguments debug t c supports16BitTypes args →
        "-DD_DIM_256" ∈ args)) ∧
    (t.totalSharedMemory ∉ [4096, 7936] →
      GPUSortBase.SetCompileArguments debug t c supports16BitTypes args =
        GPUSortBase.SetCompileArguments debug { t with totalSharedMemory := 7936 } c
          supports16BitTypes args ∧
      ("-DD_TOTAL_SMEM_4096" ∈
          GPUSortBase.SetCompileArguments debug t c supports16BitTypes args →
        "-DD_TOTAL_SMEM_4096" ∈ args)) ∧
    (∃ pre, GPUSortBase.SetCompileArguments debug t c supports16BitTypes args =
      args ++ pre ++ "-O3" :: (if debug then ["-Zi"] else [])) ∧
    (GPUSortBase.SetCompileArguments debug t c supports16BitTypes args).getLast? =
      some (if debug then "-Zi" else "-O3") := by
  refine ⟨?_, ?_, ?_, ?_, ?_, ?_⟩
  · intro h
    simp only [List.mem_cons, List.mem_singleton, List.not_mem_nil, or_false, not_or] at h
    obtain ⟨h1, h2, h3, h4, h5⟩ := h
    refine ⟨?_, ?_⟩
    · simp [GPUSortBase.SetCompileArguments, GPUSortBase.SetCompileArguments.partitionSize,
        h1, h2, h3, h4, h5]
    · intro s hs hmem
      have hm := GPUSortBase.mem_SetCompileArguments hmem
      simp only [List.mem_cons, List.mem_singleton, List.not_mem_nil, or_false] at hs hm
      rcases hs with rfl | rfl | rfl | rfl <;> simp [h1, h2, h3, h4] at hm <;> exact hm
  · intro h
    simp only [List.mem_cons, List.mem_singleton, List.not_mem_nil, or_false, not_or] at h
    obtain ⟨h1, h2, h3⟩ := h
    refine ⟨?_, ?_⟩
    · simp [GPUSortBase.SetCompileArguments, GPUSortBase.SetCompileArguments.keysPerThread,
        h1, h2, h3]
    · intro s hs hmem
      have hm := GPUSortBase.mem_SetCompileArguments hmem
      simp only [List.mem_cons, List.mem_singleton, List.not_mem_nil, or_false] at hs hm
      rcases hs with rfl | rfl <;> simp [h1, h2] at hm <;> exact hm
  · intro h
    simp only [List.mem_cons, List.mem_singleton, List.not_mem_nil, or_false, not_or] at h
    obtain ⟨h1, h2⟩ := h
    refine ⟨?_, ?_⟩
    · simp [GPUSortBase.SetCompileArguments,
        GPUSortBase.SetCompileArguments.threadsPerThreadblock, h1, h2]
    · intro hmem
      have hm := GPUSortBase.mem_SetCompileArguments hmem
      simp only [List.mem_cons, List.mem_singleton, List.not_mem_nil, or_false] at hm
      simp [h1] at hm
      exact hm
  · intro h
    simp only [List.mem_cons, List.mem_singleton, List.not_mem_nil, or_false, not_or] at h
    obtain ⟨h1, h2⟩ := h
    refine ⟨?_, ?_⟩
    · simp [GPUSortBase.SetCompileArguments,
        GPUSortBase.SetCompileArguments.totalSharedMemory, h1, h2]
    · intro hmem
      have hm := GPUSortBase.mem_SetCompileArguments hmem
      simp only [List.mem_cons, List.mem_singleton, List.not_mem_nil, or_false] at hm
      simp [h1] at hm
      exact hm
  · exact ⟨_, GPUSortBase.SetCompileArguments_append debug t c supports16BitTypes args⟩
  · rw [GPUSortBase.SetCompileArguments_append]
    cases debug <;> simp

theorem GPUSortBase.C20_unrecognised_value_is_skipped_witness :
    GPUSortBase.SetCompileArguments false exampleUnknownTuning examplePairsConfig false [] =
        GPUSortBase.SetCompileArguments false
          { exampleUnknownTuning with partitionSize := 7680 } examplePairsConfig false [] ∧
      GPUSortBase.SetCompileArguments false exampleUnknownTuning examplePairsConfig false [] =
        ["-DSHOULD_ASCEND", "-DKEY_UINT", "-DSORT_PAIRS", "-DPAYLOAD_UINT", "-O3"] ∧
      (GPUSortBase.SetCompileArguments false ⟨false, 6, 100, 7680, 1⟩ examplePairsConfig true
        ["x"]).getLast? = some "-O3" :=
  ⟨((GPUSortBase.C20_unrecognised_value_is_skipped false exampleUnknownTuning
      examplePairsConfig false []).1 (by decide)).1, by decide,
    (GPUSortBase.C20_unrecognised_value_is_skipped false ⟨false, 6, 100, 7680, 1⟩
      examplePairsConfig true ["x"]).2.2.2.2.2⟩


/-! ## The decoupled-lookback protocol -/

namespace DecoupledLookback

theorem lowerSum_zero (a : Nat → Nat) : lowerSum a 0 = 0 := rfl

theorem lowerSum_succ (a : Nat → Nat) (p : Nat) :
    lowerSum a (p + 1) = lowerSum a p + a p := by
  simp [lowerSum, List.range_succ]

theorem getElem?_set_of (P : Group → Prop) (l : List Group) (g : Nat) (x : Group)
    (hall : ∀ (i : Nat) (gr : Group), l[i]? = some gr → P gr) (hx : P x) :
    ∀ (i : Nat) (gr : Group), (l.set g x)[i]? = some gr → P gr := by
  intro i gr hget
  rw [List.getElem?_set] at hget
  split at hget
  · split at hget
    · injection hget with hget
      subst hget
      exact hx
    · exact Option.noConfusion hget
  · exact hall i gr hget

theorem slot_set_of (Q : Nat → Slot → Prop) (l : List Slot) (q : Nat) (x : Slot)
    (hall : ∀ (k : Nat) (sl : Slot), l[k]? = some sl → Q k sl) (hx : Q q x) :
    ∀ (k : Nat) (sl : Slot), (l.set q x)[k]? = some sl → Q k sl := by
  intro k sl hget
  rw [List.getElem?_set] at hget
  split at hget
  · rename_i hqk
    split at hget
    · injection hget with hget
      subst hget
      subst hqk
      exact hx
    · exact Option.noConfusion hget
  · exact hall k sl hget

/-- Replacing a group by one with the same partition ID keeps the list of IDs. -/
theorem filterMap_set_same (l : List Group) (g : Nat) (x y : Group) (h : l[g]? = some x)
    (hxy : y.partition? = x.partition?) :
    (l.set g y).filterMap Group.partition? = l.filterMap Group.partition? := by
  induction l generalizing g with
  | nil => rfl
  | cons z t ih =>
    cases g with
    | zero =>
      simp only [List.getElem?_cons_zero, Option.some.injEq] at h
      subst h
      simp only [List.set_cons_zero, List.filterMap_cons, hxy]
    | succ g =>
      simp only [List.getElem?_cons_succ] at h
      simp only [List.set_cons_succ, List.filterMap_cons, ih g h]

/-- A waiting group that takes the ID `b` adds `b` to the IDs. -/
theorem filterMap_set_waiting (l : List Group) (g b : Nat) (h : l[g]? = some Group.waiting) :
    ((l.set g (Group.started b)).filterMap Group.partition?).Perm
      (b :: l.filterMap Group.partition?) := by
  induction l generalizing g with
  | nil => simp at h
  | cons z t ih =>
    cases g with
    | zero =>
      simp only [List.getElem?_cons_zero, Option.some.injEq] at h
      subst h
      simp [Group.partition?]
    | succ g =>
      simp only [List.getElem?_cons_succ] at h
      simp only [List.set_cons_succ, List.filterMap_cons]
      cases hz : z.partition? with
      | none => exact ih g h
      | some p => exact ((ih g h).cons p).trans (List.Perm.swap b p _)

/-- A partition ID held by a group is below the bump counter and below the number of
partitions. -/
theorem id_lt {n : Nat} {a : Nat → Nat} {s : State} (h : Inv n a s) {g : Nat} {gr : Group}
    {p : Nat} (hg : s.groups[g]? = some gr) (hp : gr.partition? = some p) :
    p < s.bump ∧ p < n := by
  have hmem : p ∈ s.groups.filterMap Group.partition? :=
    List.mem_filterMap.2 ⟨gr, List.getElem?_mem hg, hp⟩
  have h1 : p < s.bump := List.mem_range.1 (h.ids.mem_iff.1 hmem)
  have h2 : s.bump ≤ n := by
    have := h.ids.length_eq
    rw [List.length_range] at this
    rw [← this, ← h.groups_length]
    exact List.length_filterMap_le _ _
  exact ⟨h1, by omega⟩

/-- Every ID below the bump counter is held by a group. -/
theorem owner {n : Nat} {a : Nat → Nat} {s : State} (h : Inv n a s) {k : Nat}
    (hk : k < s.bump) :
    ∃ (g : Nat) (gr : Group), s.groups[g]? = some gr ∧ gr.partition? = some k := by
  have hmem : k ∈ s.groups.filterMap Group.partition? :=
    h.ids.mem_iff.2 (List.mem_range.2 hk)
  obtain ⟨gr, hgr, hp⟩ := List.mem_filterMap.1 hmem
  obtain ⟨g, hg⟩ := List.getElem?_of_mem hgr
  exact ⟨g, gr, hg, hp⟩

theorem published_set (slots : List Slot) (p q : Nat) (x : Slot)
    (hx : x.status ≠ Status.NotReady)
    (h : ∃ sl, slots[p]? = some sl ∧ sl.status ≠ Status.NotReady) :
    ∃ sl, (slots.set q x)[p]? = some sl ∧ sl.status ≠ Status.NotReady := by
  obtain ⟨sl, hsl, hst⟩ := h
  rw [List.getElem?_set]
  split
  · rename_i hqp
    subst hqp
    have hlt : q < slots.length := by
      by_contra hc
      rw [List.getElem?_eq_none (by omega)] at hsl
      exact Option.noConfusion hsl
    rw [if_pos hlt]
    exact ⟨x, rfl, hx⟩
  · exact ⟨sl, hsl, hst⟩

theorem GroupOk_set (a : Nat → Nat) (slots : List Slot) (q : Nat) (x : Slot)
    (hx : x.status ≠ Status.NotReady) (gr : Group) (h : GroupOk a slots gr) :
    GroupOk a (slots.set q x) gr := by
  cases gr with
  | waiting => trivial
  | started p => trivial
  | looking p k sum => exact ⟨h.1, h.2.1, published_set slots p q x hx h.2.2⟩
  | resolved p y => exact ⟨h.1, published_set slots p q x hx h.2⟩
  | done p y => exact ⟨h.1, published_set slots p q x hx h.2⟩

theorem init_inv (n : Nat) (a : Nat → Nat) : Inv n a (init n) := by
  refine ⟨by simp [init], by simp [init], ?_, ?_, ?_⟩
  · have : (List.replicate n Group.waiting).filterMap Group.partition? = [] := by
      induction n with
      | zero => rfl
      | succ m ih => simp [List.replicate_succ, Group.partition?, ih]
    simp [init, this]
  · intro k sl hk
    simp only [init, List.getElem?_replicate] at hk
    split at hk
    · injection hk with hk
      subst hk
      exact ⟨fun h => Status.noConfusion h, fun h => Status.noConfusion h⟩
    · exact Option.noConfusion hk
  · intro g gr hg
    simp only [init, List.getElem?_replicate] at hg
    split at hg
    · injection hg with hg
      subst hg
      trivial
    · exact Option.noConfusion hg

end DecoupledLookback


namespace DecoupledLookback

/-- Every step keeps the invariant. -/
theorem step_inv {n : Nat} {a : Nat → Nat} {s : State} (h : Inv n a s) (g : Nat) :
    Inv n a (step a s g) := by
  unfold step
  split
  · exact h
  · rename_i hg
    refine ⟨h.slots_length, by simp [h.groups_length], ?_, h.slot_ok, ?_⟩
    · refine (filterMap_set_waiting _ g s.bump hg).trans ?_
      rw [List.range_succ]
      exact ((h.ids.cons s.bump).trans (List.perm_append_singleton _ _).symm)
    · exact getElem?_set_of _ _ g _ h.group_ok trivial
  · rename_i p hg
    have hp := id_lt h hg (rfl : (Group.started p).partition? = some p)
    split
    · rename_i hp0
      subst hp0
      refine ⟨by simp [h.slots_length], by simp [h.groups_length], ?_, ?_, ?_⟩
      · show (((s.groups.set g (Group.done 0 0)).filterMap Group.partition?).Perm _)
        rw [filterMap_set_same _ g _ (Group.done 0 0) hg rfl]
        exact h.ids
      · exact slot_set_of _ _ 0 _ h.slot_ok
          ⟨fun hc => Status.noConfusion hc, fun _ => by simp [lowerSum_succ, lowerSum_zero]⟩
      · refine getElem?_set_of _ _ g _
          (fun i gr hi => GroupOk_set a _ 0 _ (fun hc => Status.noConfusion hc) gr
            (h.group_ok i gr hi)) ?_
        refine ⟨rfl, ⟨Status.Prefix, a 0⟩, ?_, fun hc => Status.noConfusion hc⟩
        rw [List.getElem?_set, if_pos rfl, if_pos (by rw [h.slots_length]; exact hp.2)]
    · rename_i hp0
      refine ⟨by simp [h.slots_length], by simp [h.groups_length], ?_, ?_, ?_⟩
      · show (((s.groups.set g (Group.looking p (p - 1) 0)).filterMap Group.partition?).Perm _)
        rw [filterMap_set_same _ g _ (Group.looking p (p - 1) 0) hg rfl]
        exact h.ids
      · exact slot_set_of _ _ p _ h.slot_ok
          ⟨fun _ => ⟨rfl, hp0⟩, fun hc => Status.noConfusion hc⟩
      · refine getElem?_set_of _ _ g _
          (fun i gr hi => GroupOk_set a _ p _ (fun hc => Status.noConfusion hc) gr
            (h.group_ok i gr hi)) ?_
        refine ⟨by omega, ?_, ⟨Status.Aggregate, a p⟩, ?_, fun hc => Status.noConfusion hc⟩
        · have : p - 1 + 1 = p := by omega
          rw [this, Nat.zero_add]
        · rw [List.getElem?_set, if_pos rfl, if_pos (by rw [h.slots_length]; exact hp.2)]
  · rename_i p k sum hg
    have hok := h.group_ok g _ hg
    split
    · exact h
    · exact h
    · rename_i v hk
      have hs := (h.slot_ok k _ hk).1 rfl
      simp only at hs
      refine ⟨h.slots_length, by simp [h.groups_length], ?_, h.slot_ok, ?_⟩
      · show (((s.groups.set g (Group.looking p (k - 1) (sum + v))).filterMap Group.partition?).Perm _)
        rw [filterMap_set_same _ g _ (Group.looking p (k - 1) (sum + v)) hg rfl]
        exact h.ids
      · refine getElem?_set_of _ _ g _ h.group_ok ?_
        refine ⟨by have := hok.1; omega, ?_, hok.2.2⟩
        have h1 : k - 1 + 1 = k := by have := hs.2; omega
        have h2 := hok.2.1
        rw [lowerSum_succ] at h2
        rw [h1, hs.1]
        omega
    · rename_i v hk
      have hs := (h.slot_ok k _ hk).2 rfl
      simp only at hs
      refine ⟨h.slots_length, by simp [h.groups_length], ?_, h.slot_ok, ?_⟩
      · show (((s.groups.set g (Group.resolved p (sum + v))).filterMap Group.partition?).Perm _)
        rw [filterMap_set_same _ g _ (Group.resolved p (sum + v)) hg rfl]
        exact h.ids
      · refine getElem?_set_of _ _ g _ h.group_ok ?_
        refine ⟨?_, hok.2.2⟩
        rw [hs]
        exact hok.2.1
  · rename_i p x hg
    have hok := h.group_ok g _ hg
    have hp := id_lt h hg (rfl : (Group.resolved p x).partition? = some p)
    refine ⟨by simp [h.slots_length], by simp [h.groups_length], ?_, ?_, ?_⟩
    · show (((s.groups.set g (Group.done p x)).filterMap Group.partition?).Perm _)
      rw [filterMap_set_same _ g _ (Group.done p x) hg rfl]
      exact h.ids
    · exact slot_set_of _ _ p _ h.slot_ok
        ⟨fun hc => Status.noConfusion hc, fun _ => by
          show x + a p = lowerSum a (p + 1)
          rw [lowerSum_succ, hok.1]⟩
    · refine getElem?_set_of _ _ g _
        (fun i gr hi => GroupOk_set a _ p _ (fun hc => Status.noConfusion hc) gr
          (h.group_ok i gr hi)) ?_
      exact ⟨hok.1, published_set _ p p _ (fun hc => Status.noConfusion hc) hok.2⟩
  · exact h

/-- Every interleaving keeps the invariant. -/
theorem run_inv {n : Nat} {a : Nat → Nat} (schedule : List Nat) :
    ∀ {s : State}, Inv n a s → Inv n a (run a s schedule) := by
  induction schedule with
  | nil => intro s h; exact h
  | cons g rest ih => intro s h; exact ih (step_inv h g)

end DecoupledLookback


namespace DecoupledLookback

theorem sum_map_set_lt (f : Group → Nat) (l : List Group) (g : Nat) (x y : Group)
    (h : l[g]? = some x) (hlt : f y < f x) :
    ((l.set g y).map f).sum < (l.map f).sum := by
  induction l generalizing g with
  | nil => simp at h
  | cons z t ih =>
    cases g with
    | zero =>
      simp only [List.getElem?_cons_zero, Option.some.injEq] at h
      subst h
      simp only [List.set_cons_zero, List.map_cons, List.sum_cons]
      omega
    | succ g =>
      simp only [List.getElem?_cons_succ] at h
      have := ih g h
      simp only [List.set_cons_succ, List.map_cons, List.sum_cons]
      omega

/-- A step of a group that is waiting, has just started, or has resolved its prefix lowers the
rank. -/
theorem rank_step_own {n : Nat} {a : Nat → Nat} {s : State} (h : Inv n a s) {g : Nat}
    {gr : Group} (hg : s.groups[g]? = some gr)
    (hgr : gr = Group.waiting ∨ (∃ p, gr = Group.started p) ∨
      ∃ p x, gr = Group.resolved p x) :
    State.rank n (step a s g) < State.rank n s := by
  rcases hgr with rfl | ⟨p, rfl⟩ | ⟨p, x, rfl⟩
  · simp only [step, hg, State.rank]
    exact sum_map_set_lt _ _ g _ _ hg (by simp [Group.rank])
  · have hp := id_lt h hg (rfl : (Group.started p).partition? = some p)
    simp only [step, hg, State.rank]
    split
    · exact sum_map_set_lt _ _ g _ _ hg (by simp [Group.rank])
    · exact sum_map_set_lt _ _ g _ _ hg (by simp only [Group.rank]; omega)
  · simp only [step, hg, State.rank]
    exact sum_map_set_lt _ _ g _ _ hg (by simp [Group.rank])

/-- A step of a looking group lowers the rank when the slot it reads has been published. -/
theorem rank_step_looking {n : Nat} {a : Nat → Nat} {s : State} (h : Inv n a s) {g : Nat}
    {p k sum : Nat} (hg : s.groups[g]? = some (Group.looking p k sum)) {sl : Slot}
    (hk : s.slots[k]? = some sl) (hst : sl.status ≠ Status.NotReady) :
    State.rank n (step a s g) < State.rank n s := by
  obtain ⟨st, v⟩ := sl
  cases st with
  | NotReady => exact absurd rfl hst
  | Aggregate =>
    have hs := (h.slot_ok k _ hk).1 rfl
    simp only [step, hg, hk, State.rank]
    exact sum_map_set_lt _ _ g _ _ hg (by simp only [Group.rank]; have := hs.2; omega)
  | Prefix =>
    simp only [step, hg, hk, State.rank]
    exact sum_map_set_lt _ _ g _ _ hg (by simp only [Group.rank]; omega)

/-- A step either leaves the state as it is (a retry, a finished group, or no such group) or
lowers the rank. -/
theorem rank_step {n : Nat} {a : Nat → Nat} {s : State} (h : Inv n a s) (g : Nat) :
    step a s g = s ∨ State.rank n (step a s g) < State.rank n s := by
  cases hg : s.groups[g]? with
  | none => exact Or.inl (by simp only [step, hg])
  | some gr =>
    cases gr with
    | waiting => exact Or.inr (rank_step_own h hg (Or.inl rfl))
    | started p => exact Or.inr (rank_step_own h hg (Or.inr (Or.inl ⟨p, rfl⟩)))
    | resolved p x => exact Or.inr (rank_step_own h hg (Or.inr (Or.inr ⟨p, x, rfl⟩)))
    | done p x => exact Or.inl (by simp only [step, hg])
    | looking p k sum =>
      cases hk : s.slots[k]? with
      | none => exact Or.inl (by simp only [step, hg, hk])
      | some sl =>
        by_cases hst : sl.status = Status.NotReady
        · obtain ⟨st, v⟩ := sl
          simp only at hst
          subst hst
          exact Or.inl (by simp only [step, hg, hk])
        · exact Or.inr (rank_step_looking h hg hk hst)

/-- No deadlock: while some group has not finished, some group can take a step that lowers
the rank. -/
theorem progress {n : Nat} {a : Nat → Nat} {s : State} (h : Inv n a s)
    (hd : s.allDone = false) :
    ∃ g, g < n ∧ State.rank n (step a s g) < State.rank n s := by
  have hlt : ∀ {g : Nat} {gr : Group}, s.groups[g]? = some gr → g < n := by
    intro g gr hg
    by_contra hc
    rw [List.getElem?_eq_none (by rw [h.groups_length]; omega)] at hg
    exact Option.noConfusion hg
  have hex : ∃ gr ∈ s.groups, gr.isDone = false := by
    by_contra hc
    have hall : s.groups.all Group.isDone = true := by
      rw [List.all_eq_true]
      intro gr hgr
      by_contra hgd
      exact hc ⟨gr, hgr, by simpa using hgd⟩
    rw [State.allDone, hall] at hd
    exact Bool.noConfusion hd
  obtain ⟨gr, hmem, hnd⟩ := hex
  obtain ⟨g, hg⟩ := List.getElem?_of_mem hmem
  cases gr with
  | waiting => exact ⟨g, hlt hg, rank_step_own h hg (Or.inl rfl)⟩
  | started p => exact ⟨g, hlt hg, rank_step_own h hg (Or.inr (Or.inl ⟨p, rfl⟩))⟩
  | resolved p x => exact ⟨g, hlt hg, rank_step_own h hg (Or.inr (Or.inr ⟨p, x, rfl⟩))⟩
  | done p x => exact Bool.noConfusion hnd
  | looking p k sum =>
    have hok := h.group_ok g _ hg
    have hp := id_lt h hg (rfl : (Group.looking p k sum).partition? = some p)
    obtain ⟨g2, gr2, hg2, hid⟩ := owner h (show k < s.bump by have := hok.1; omega)
    have hok2 := h.group_ok g2 _ hg2
    cases gr2 with
    | waiting => exact Option.noConfusion hid
    | started q => exact ⟨g2, hlt hg2, rank_step_own h hg2 (Or.inr (Or.inl ⟨q, rfl⟩))⟩
    | looking q j t =>
      simp only [Group.partition?, Option.some.injEq] at hid
      subst hid
      obtain ⟨sl, hsl, hst⟩ := hok2.2.2
      exact ⟨g, hlt hg, rank_step_looking h hg hsl hst⟩
    | resolved q y =>
      simp only [Group.partition?, Option.some.injEq] at hid
      subst hid
      obtain ⟨sl, hsl, hst⟩ := hok2.2
      exact ⟨g, hlt hg, rank_step_looking h hg hsl hst⟩
    | done q y =>
      simp only [Group.partition?, Option.some.injEq] at hid
      subst hid
      obtain ⟨sl, hsl, hst⟩ := hok2.2
      exact ⟨g, hlt hg, rank_step_looking h hg hsl hst⟩

/-- From every state the protocol reaches, some continuation of at most `rank` steps lets
every group finish. -/
theorem completion {n : Nat} {a : Nat → Nat} :
    ∀ (m : Nat) (s : State), Inv n a s → State.rank n s ≤ m →
      ∃ rest : List Nat, rest.length ≤ m ∧ (run a s rest).allDone = true := by
  intro m
  induction m with
  | zero =>
    intro s h hr
    cases hd : s.allDone with
    | true => exact ⟨[], Nat.le_refl 0, hd⟩
    | false =>
      obtain ⟨g, _, hg⟩ := progress h hd
      omega
  | succ m ih =>
    intro s h hr
    cases hd : s.allDone with
    | true => exact ⟨[], Nat.zero_le _, hd⟩
    | false =>
      obtain ⟨g, _, hg⟩ := progress h hd
      obtain ⟨rest, hlen, hdone⟩ := ih (step a s g) (step_inv h g) (by omega)
      exact ⟨g :: rest, by simpa using hlen, hdone⟩

theorem rank_init (n : Nat) : State.rank n (init n) = n * (n + 3) := by
  simp [State.rank, init, Group.rank]

theorem run_schedule_append (a : Nat → Nat) (s : State) (l1 l2 : List Nat) :
    run a s (l1 ++ l2) = run a (run a s l1) l2 := by
  simp [run, List.foldl_append]

/-- The rank never grows along an interleaving. -/
theorem rank_run_le {n : Nat} {a : Nat → Nat} (schedule : List Nat) :
    ∀ {s : State}, Inv n a s → State.rank n (run a s schedule) ≤ State.rank n s := by
  induction schedule with
  | nil => intro s _; exact Nat.le_refl _
  | cons g rest ih =>
    intro s h
    have h1 : State.rank n (run a (step a s g) rest) ≤ State.rank n (step a s g) :=
      ih (step_inv h g)
    have h2 : State.rank n (step a s g) ≤ State.rank n s := by
      rcases rank_step h g with he | hl
      · rw [he]
      · omega
    exact Nat.le_trans h1 h2

/-- When every group has finished, each partition is held by a finished group whose exclusive
prefix is the sum of the lower aggregates. -/
theorem done_all {n : Nat} {a : Nat → Nat} {s : State} (h : Inv n a s)
    (hd : s.allDone = true) (p : Nat) (hp : p < n) :
    ∃ g, g < n ∧ s.groups[g]? = some (Group.done p (lowerSum a p)) := by
  have hall : ∀ gr ∈ s.groups, gr.isDone = true := by
    have := hd
    rw [State.allDone, List.all_eq_true] at this
    exact this
  have hlen : ∀ l : List Group, (∀ gr ∈ l, gr.isDone = true) →
      (l.filterMap Group.partition?).length = l.length := by
    intro l
    induction l with
    | nil => intro _; rfl
    | cons z t ih =>
      intro hz
      have hz1 := hz z (List.mem_cons_self z t)
      cases z with
      | done q y =>
        simp only [List.filterMap_cons, Group.partition?, List.length_cons]
        rw [ih (fun gr hgr => hz gr (List.mem_cons_of_mem _ hgr))]
      | waiting => exact Bool.noConfusion hz1
      | started q => exact Bool.noConfusion hz1
      | looking q j t => exact Bool.noConfusion hz1
      | resolved q y => exact Bool.noConfusion hz1
  have hb : s.bump = n := by
    have h1 := h.ids.length_eq
    rw [List.length_range, hlen s.groups hall, h.groups_length] at h1
    exact h1.symm
  obtain ⟨g, gr, hg, hid⟩ := owner h (show p < s.bump by omega)
  have hgd := hall gr (List.getElem?_mem hg)
  have hok := h.group_ok g gr hg
  have hlt : g < n := by
    by_contra hc
    rw [List.getElem?_eq_none (by rw [h.groups_length]; omega)] at hg
    exact Option.noConfusion hg
  cases gr with
  | done q y =>
    simp only [Group.partition?, Option.some.injEq] at hid
    subst hid
    have hy : y = lowerSum a q := hok.1
    subst hy
    exact ⟨g, hlt, hg⟩
  | waiting => exact Bool.noConfusion hgd
  | started q => exact Bool.noConfusion hgd
  | looking q j t => exact Bool.noConfusion hgd
  | resolved q y => exact Bool.noConfusion hgd

end DecoupledLookback


/-- C10: for every number of partitions `n`, every assignment of local aggregates and every
interleaving of the groups' steps, a group that has determined the exclusive prefix of its
partition `p` holds the sum of the aggregates of the partitions below `p` (0 for partition
0).  The protocol cannot get stuck: while a group is unfinished some group can take a step
that lowers the rank, a step that does not lower the rank leaves the state unchanged, and
every interleaving can be continued by at most n * (n + 3) steps so that all groups have
finished; then every partition below `n` is held by a finished group with that prefix. -/
theorem DecoupledLookback.C10_lookback_yields_exclusive_prefix (n : Nat) (a : Nat → Nat)
    (schedule : List Nat) :
    (∀ (g p x : Nat),
      ((DecoupledLookback.run a (DecoupledLookback.init n) schedule).groups[g]? =
          some (DecoupledLookback.Group.resolved p x) ∨
        (DecoupledLookback.run a (DecoupledLookback.init n) schedule).groups[g]? =
          some (DecoupledLookback.Group.done p x)) →
      p < n ∧ x = DecoupledLookback.lowerSum a p) ∧
    DecoupledLookback.lowerSum a 0 = 0 ∧
    (∀ p, DecoupledLookback.lowerSum a (p + 1) = DecoupledLookback.lowerSum a p + a p) ∧
    ((DecoupledLookback.run a (DecoupledLookback.init n) schedule).allDone = true →
      ∀ p, p < n → ∃ g, g < n ∧
        (DecoupledLookback.run a (DecoupledLookback.init n) schedule).groups[g]? =
          some (DecoupledLookback.Group.done p (DecoupledLookback.lowerSum a p))) ∧
    ((DecoupledLookback.run a (DecoupledLookback.init n) schedule).allDone = false →
      ∃ g, g < n ∧
        DecoupledLookback.State.rank n
            (DecoupledLookback.step a
              (DecoupledLookback.run a (DecoupledLookback.init n) schedule) g) <
          DecoupledLookback.State.rank n
            (DecoupledLookback.run a (DecoupledLookback.init n) schedule)) ∧
    (∀ g,
      DecoupledLookback.step a (DecoupledLookback.run a (DecoupledLookback.init n) schedule) g =
          DecoupledLookback.run a (DecoupledLookback.init n) schedule ∨
        DecoupledLookback.State.rank n
            (DecoupledLookback.step a
              (DecoupledLookback.run a (DecoupledLookback.init n) schedule) g) <
          DecoupledLookback.State.rank n
            (DecoupledLookback.run a (DecoupledLookback.init n) schedule)) ∧
    (∃ rest : List Nat, rest.length ≤ n * (n + 3) ∧
      (DecoupledLookback.run a (DecoupledLookback.init n) (schedule ++ rest)).allDone = true ∧
      ∀ p, p < n → ∃ g, g < n ∧
        (DecoupledLookback.run a (DecoupledLookback.init n) (schedule ++ rest)).groups[g]? =
          some (DecoupledLookback.Group.done p (DecoupledLookback.lowerSum a p))) := by
  have hinv : DecoupledLookback.Inv n a
      (DecoupledLookback.run a (DecoupledLookback.init n) schedule) :=
    DecoupledLookback.run_inv schedule (DecoupledLookback.init_inv n a)
  refine ⟨?_, rfl, DecoupledLookback.lowerSum_succ a, ?_, ?_, ?_, ?_⟩
  · intro g p x hg
    rcases hg with hg | hg
    · exact ⟨(DecoupledLookback.id_lt hinv hg rfl).2, (hinv.group_ok g _ hg).1⟩
    · exact ⟨(DecoupledLookback.id_lt hinv hg rfl).2, (hinv.group_ok g _ hg).1⟩
  · intro hd p hp
    exact DecoupledLookback.done_all hinv hd p hp
  · intro hd
    exact DecoupledLookback.progress hinv hd
  · intro g
    exact DecoupledLookback.rank_step hinv g
  · have hr : DecoupledLookback.State.rank n
        (DecoupledLookback.run a (DecoupledLookback.init n) schedule) ≤ n * (n + 3) := by
      have := DecoupledLookback.rank_run_le schedule (DecoupledLookback.init_inv n a)
      rw [DecoupledLookback.rank_init] at this
      exact this
    obtain ⟨rest, hlen, hdone⟩ := DecoupledLookback.completion (n * (n + 3)) _ hinv hr
    refine ⟨rest, hlen, ?_, ?_⟩
    · rw [DecoupledLookback.run_schedule_append]
      exact hdone
    · intro p hp
      rw [DecoupledLookback.run_schedule_append]
      exact DecoupledLookback.done_all (DecoupledLookback.run_inv rest hinv) hdone p hp

theorem DecoupledLookback.C10_lookback_yields_exclusive_prefix_witness :
    (DecoupledLookback.run (fun p => p + 1) (DecoupledLookback.init 3)
        [2, 2, 1, 0, 0, 1, 1, 1, 2, 2, 2, 2, 0, 0, 1, 1]).groups =
      [DecoupledLookback.Group.done 2 3, DecoupledLookback.Group.done 1 1,
        DecoupledLookback.Group.done 0 0] ∧
    (2 < 3 ∧ 3 = DecoupledLookback.lowerSum (fun p => p + 1) 2) ∧
    ∃ g, g < 3 ∧
      (DecoupledLookback.run (fun p => p + 1) (DecoupledLookback.init 3)
        [2, 2, 1, 0, 0, 1, 1, 1, 2, 2, 2, 2, 0, 0, 1, 1]).groups[g]? =
        some (DecoupledLookback.Group.done 1
          (DecoupledLookback.lowerSum (fun p => p + 1) 1)) :=
  ⟨by decide,
    (DecoupledLookback.C10_lookback_yields_exclusive_prefix 3 (fun p => p + 1)
      [2, 2, 1, 0, 0, 1, 1, 1, 2, 2, 2, 2, 0, 0, 1, 1]).1 0 2 3 (Or.inr (by decide)),
    (DecoupledLookback.C10_lookback_yields_exclusive_prefix 3 (fun p => p + 1)
      [2, 2, 1, 0, 0, 1, 1, 1, 2, 2, 2, 2, 0, 0, 1, 1]).2.2.2.1 (by decide) 1 (by decide)⟩


/-! ## Sizes and partition counts -/

/-- The quotient `(x + y - 1) / y` is the only `k` with `x ≤ k * y < x + y`. -/
theorem GPUSortBase.ceil_unique (x y k : Nat) (hy : 0 < y) (h1 : x ≤ k * y)
    (h2 : k * y < x + y) : k = (x + y - 1) / y := by
  symm
  apply Nat.div_eq_of_lt_le
  · omega
  · rw [Nat.succ_mul]
    omega

theorem GPUSortBase.ceil_bounds (x y : Nat) (hy : 0 < y) :
    x ≤ (x + y - 1) / y * y ∧ (x + y - 1) / y * y < x + y := by
  have h1 := Nat.div_add_mod (x + y - 1) y
  have h2 := Nat.mod_lt (x + y - 1) hy
  rw [Nat.mul_comm] at h1
  generalize (x + y - 1) / y * y = m at h1 ⊢
  generalize (x + y - 1) % y = r at h1 h2
  omega

/-- C23: for every `y > 0` and `x` with `x + y - 1 < 2^32`, `divRoundUp x y`, computed as
`(x + y - 1) / y` in 32-bit unsigned arithmetic, is the ceiling of the quotient `x / y` of
rational numbers: it is the only `k` with `x ≤ k * y < x + y`.  In particular
`divRoundUp 0 y = 0` and `divRoundUp x y * y - x < y`. -/
theorem GPUSortBase.C23_divRoundUp_is_ceiling (x y : Nat) (hy : 0 < y)
    (h : x + y - 1 < 2 ^ 32) :
    GPUSortBase.divRoundUp x y = (x + y - 1) / y ∧
      GPUSortBase.divRoundUp x y = Nat.ceil ((x : ℚ) / (y : ℚ)) ∧
      x ≤ GPUSortBase.divRoundUp x y * y ∧
      GPUSortBase.divRoundUp x y * y - x < y ∧
      (∀ k, x ≤ k * y → k * y < x + y → k = GPUSortBase.divRoundUp x y) ∧
      GPUSortBase.divRoundUp 0 y = 0 := by
  have hd := GPUSortBase.divRoundUp_of_lt x y hy h
  have h0 : GPUSortBase.divRoundUp 0 y = 0 := by
    rw [GPUSortBase.divRoundUp_of_lt 0 y hy (by omega)]
    exact Nat.div_eq_of_lt (by omega)
  obtain ⟨hb1, hb2⟩ := GPUSortBase.ceil_bounds x y hy
  have hyq : (0 : ℚ) < (y : ℚ) := by exact_mod_cast hy
  have hc1 : (x : ℚ) / (y : ℚ) ≤ (Nat.ceil ((x : ℚ) / (y : ℚ)) : ℚ) := Nat.le_ceil _
  have hc2 : (Nat.ceil ((x : ℚ) / (y : ℚ)) : ℚ) < (x : ℚ) / (y : ℚ) + 1 :=
    Nat.ceil_lt_add_one (by positivity)
  have q1 : (x : ℚ) ≤ (Nat.ceil ((x : ℚ) / (y : ℚ)) : ℚ) * (y : ℚ) := by
    rwa [div_le_iff₀ hyq] at hc1
  have q2 : (Nat.ceil ((x : ℚ) / (y : ℚ)) : ℚ) * (y : ℚ) < (x : ℚ) + (y : ℚ) := by
    have := mul_lt_mul_of_pos_right hc2 hyq
    rwa [add_mul, div_mul_cancel₀ _ hyq.ne', one_mul] at this
  have n1 : x ≤ Nat.ceil ((x : ℚ) / (y : ℚ)) * y := by exact_mod_cast q1
  have n2 : Nat.ceil ((x : ℚ) / (y : ℚ)) * y < x + y := by exact_mod_cast q2
  rw [hd]
  refine ⟨rfl, (GPUSortBase.ceil_unique x y _ hy n1 n2).symm, hb1, by omega, ?_, h0⟩
  intro k hk1 hk2
  exact GPUSortBase.ceil_unique x y k hy hk1 hk2

theorem GPUSortBase.C23_divRoundUp_is_ceiling_witness :
    GPUSortBase.divRoundUp 7681 7680 = Nat.ceil (((7681 : Nat) : ℚ) / ((7680 : Nat) : ℚ)) ∧
      GPUSortBase.divRoundUp 7681 7680 * 7680 - 7681 < 7680 ∧
      GPUSortBase.divRoundUp 7681 7680 = 2 :=
  have h := GPUSortBase.C23_divRoundUp_is_ceiling 7681 7680 (by decide) (by decide)
  ⟨h.2.1, h.2.2.2.1, by decide⟩


/-- After any sequence of `UpdateSize` calls the partition count is the rounded-up quotient
of the number of keys, provided it was before. -/
theorem DeviceRadixSort.UpdateSize_sequence (sizes : List Nat) :
    ∀ e : DeviceRadixSort,
      e.m_partitions =
        GPUSortBase.divRoundUp e.m_numKeys e.k_tuningParameters.partitionSize →
      (sizes.foldl DeviceRadixSort.UpdateSize e).k_tuningParameters = e.k_tuningParameters ∧
      (sizes.foldl DeviceRadixSort.UpdateSize e).m_partitions =
        GPUSortBase.divRoundUp (sizes.foldl DeviceRadixSort.UpdateSize e).m_numKeys
          e.k_tuningParameters.partitionSize := by
  induction sizes with
  | nil => intro e h; exact ⟨rfl, h⟩
  | cons s rest ih =>
    intro e h
    obtain ⟨h1, h2, h3⟩ := DeviceRadixSort.UpdateSize_partitions e s h
    have hinv : (DeviceRadixSort.UpdateSize e s).m_partitions =
        GPUSortBase.divRoundUp (DeviceRadixSort.UpdateSize e s).m_numKeys
          (DeviceRadixSort.UpdateSize e s).k_tuningParameters.partitionSize := by
      rw [h1, h2, h3]
    obtain ⟨i1, i2⟩ := ih (DeviceRadixSort.UpdateSize e s) hinv
    rw [h3] at i1 i2
    exact ⟨i1, i2⟩

/-- C21: `UpdateSize(size)` reallocates exactly when the size changes.  If `size` equals
`m_numKeys` the engine is unchanged.  Otherwise, for a positive partition size,
`m_numKeys` becomes `size`, `m_partitions` becomes `divRoundUp(size, partitionSize)`,
`DisposeBuffers` sets the five size-dependent buffers to null and leaves everything else
as it is, `InitBuffers` then creates the five buffers anew for `(size, m_partitions)` at
addresses not handed out before, and the static buffers are kept.  Consequently
`m_partitions = divRoundUp(m_numKeys, partitionSize)` holds in the state the constructors
leave, `(0, 0)`, and after every sequence of `UpdateSize` calls. -/
theorem DeviceRadixSort.C21_UpdateSize_reallocates_when_size_changes (e : DeviceRadixSort)
    (size : Nat) (sizes : List Nat) (sortingOrder : GPUSorting.ORDER)
    (keyType : GPUSorting.KEY_TYPE) (payloadType : GPUSorting.PAYLOAD_TYPE)
    (tuningParams : GPUSorting.TuningParameters) (hP : 0 < tuningParams.partitionSize) :
    (e.m_numKeys = size → DeviceRadixSort.UpdateSize e size = e) ∧
    (e.m_numKeys ≠ size → 0 < e.k_tuningParameters.partitionSize →
      (DeviceRadixSort.UpdateSize e size).m_numKeys = size ∧
      (DeviceRadixSort.UpdateSize e size).m_partitions =
        GPUSortBase.divRoundUp size e.k_tuningParameters.partitionSize ∧
      DeviceRadixSort.UpdateSize e size =
        DeviceRadixSort.InitBuffers
          (DeviceRadixSort.DisposeBuffers
            { e with
              m_numKeys := size
              m_partitions :=
                GPUSortBase.divRoundUp size e.k_tuningParameters.partitionSize })
          size (GPUSortBase.divRoundUp size e.k_tuningParameters.partitionSize) ∧
      (DeviceRadixSort.DisposeBuffers
          { e with
            m_numKeys := size
            m_partitions := GPUSortBase.divRoundUp size e.k_tuningParameters.partitionSize }) =
        { e with
          m_numKeys := size
          m_partitions := GPUSortBase.divRoundUp size e.k_tuningParameters.partitionSize
          m_sortBuffer := none
          m_sortPayloadBuffer := none
          m_altBuffer := none
          m_altPayloadBuffer := none
          m_passHistBuffer := none } ∧
      (DeviceRadixSort.UpdateSize e size).m_sortBuffer = some ⟨e.allocated, size * 4⟩ ∧
      (DeviceRadixSort.UpdateSize e size).m_altBuffer = some ⟨e.allocated + 1, size * 4⟩ ∧
      (DeviceRadixSort.UpdateSize e size).m_passHistBuffer =
        some ⟨e.allocated + 2,
          u32 (e.k_radix *
            GPUSortBase.divRoundUp size e.k_tuningParameters.partitionSize) * 4⟩ ∧
      (DeviceRadixSort.UpdateSize e size).m_sortPayloadBuffer =
        some ⟨e.allocated + 3,
          if e.k_sortingConfig.sortingMode = GPUSorting.MODE.MODE_PAIRS then size * 4
          else 1 * 4⟩ ∧
      (DeviceRadixSort.UpdateSize e size).m_altPayloadBuffer =
        some ⟨e.allocated + 4,
          if e.k_sortingConfig.sortingMode = GPUSorting.MODE.MODE_PAIRS then size * 4
          else 1 * 4⟩ ∧
      (DeviceRadixSort.UpdateSize e size).allocated = e.allocated + 5 ∧
      (DeviceRadixSort.UpdateSize e size).m_globalHistBuffer = e.m_globalHistBuffer ∧
      (DeviceRadixSort.UpdateSize e size).m_errorCountBuffer = e.m_errorCountBuffer ∧
      (DeviceRadixSort.UpdateSize e size).m_readBackBuffer = e.m_readBackBuffer) ∧
    (0 < e.k_tuningParameters.partitionSize →
      e.m_partitions =
        GPUSortBase.divRoundUp e.m_numKeys e.k_tuningParameters.partitionSize →
      (sizes.foldl DeviceRadixSort.UpdateSize e).m_partitions =
        GPUSortBase.divRoundUp (sizes.foldl DeviceRadixSort.UpdateSize e).m_numKeys
          (sizes.foldl DeviceRadixSort.UpdateSize e).k_tuningParameters.partitionSize) ∧
    ((DeviceRadixSort.constructPairs sortingOrder keyType payloadType tuningParams).m_numKeys
        = 0 ∧
      (DeviceRadixSort.constructPairs sortingOrder keyType payloadType
        tuningParams).m_partitions = 0 ∧
      (DeviceRadixSort.constructKeysOnly sortingOrder keyType tuningParams).m_numKeys = 0 ∧
      (DeviceRadixSort.constructKeysOnly sortingOrder keyType tuningParams).m_partitions = 0 ∧
      GPUSortBase.divRoundUp 0 tuningParams.partitionSize = 0) ∧
    (sizes.foldl DeviceRadixSort.UpdateSize
        (DeviceRadixSort.constructPairs sortingOrder keyType payloadType
          tuningParams)).m_partitions =
      GPUSortBase.divRoundUp
        (sizes.foldl DeviceRadixSort.UpdateSize
          (DeviceRadixSort.constructPairs sortingOrder keyType payloadType
            tuningParams)).m_numKeys tuningParams.partitionSize ∧
    (sizes.foldl DeviceRadixSort.UpdateSize
        (DeviceRadixSort.constructKeysOnly sortingOrder keyType tuningParams)).m_partitions =
      GPUSortBase.divRoundUp
        (sizes.foldl DeviceRadixSort.UpdateSize
          (DeviceRadixSort.constructKeysOnly sortingOrder keyType tuningParams)).m_numKeys
        tuningParams.partitionSize := by
  have h0 : GPUSortBase.divRoundUp 0 tuningParams.partitionSize = 0 := by
    unfold GPUSortBase.divRoundUp sub32 u32
    apply Nat.div_eq_of_lt
    rw [Nat.zero_add]
    have hle := Nat.mod_le tuningParams.partitionSize (2 ^ 32)
    have hlt := Nat.mod_lt tuningParams.partitionSize (show 0 < 2 ^ 32 by norm_num)
    simp only [Nat.reducePow, Nat.reduceMod] at hle hlt ⊢
    by_cases hz : tuningParams.partitionSize % 4294967296 = 0
    · rw [hz]
      have : tuningParams.partitionSize ≠ 0 := by omega
      have hge : 4294967296 ≤ tuningParams.partitionSize := by
        by_contra hc
        rw [Nat.mod_eq_of_lt (by omega)] at hz
        exact this hz
      omega
    · omega
  have hp : ∀ e0 : DeviceRadixSort, e0.m_numKeys = 0 → e0.m_partitions = 0 →
      e0.k_tuningParameters = tuningParams →
      (sizes.foldl DeviceRadixSort.UpdateSize e0).m_partitions =
        GPUSortBase.divRoundUp (sizes.foldl DeviceRadixSort.UpdateSize e0).m_numKeys
          tuningParams.partitionSize := by
    intro e0 a1 a2 a3
    have := (DeviceRadixSort.UpdateSize_sequence sizes e0 (by rw [a1, a2, a3, h0])).2
    rw [a3] at this
    exact this
  refine ⟨DeviceRadixSort.UpdateSize_same e size, ?_, ?_, ⟨rfl, rfl, rfl, rfl, h0⟩,
    hp _ rfl rfl rfl, hp _ rfl rfl rfl⟩
  · intro hne _
    obtain ⟨f1, f2, _⟩ := DeviceRadixSort.UpdateSize_fields e size hne
    refine ⟨f1, f2, ?_⟩
    unfold DeviceRadixSort.UpdateSize
    rw [if_pos hne]
    refine ⟨rfl, rfl, ?_⟩
    simp only [DeviceRadixSort.InitBuffers, DeviceRadixSort.DisposeBuffers,
      DeviceRadixSort.CreateBuffer]
    split <;> rename_i hm <;> simp [hm]
  · intro _ hinv
    obtain ⟨i1, i2⟩ := DeviceRadixSort.UpdateSize_sequence sizes e hinv
    rw [i1]
    exact i2

theorem DeviceRadixSort.C21_UpdateSize_reallocates_when_size_changes_witness :
    DeviceRadixSort.UpdateSize DeviceRadixSort.exampleEngine 6 = DeviceRadixSort.exampleEngine ∧
      (DeviceRadixSort.UpdateSize DeviceRadixSort.exampleEngine 7).m_numKeys = 7 ∧
      (DeviceRadixSort.UpdateSize DeviceRadixSort.exampleEngine 7).m_sortBuffer =
        some ⟨DeviceRadixSort.exampleEngine.allocated, 7 * 4⟩ ∧
      ([7681, 7681, 0, 15361].foldl DeviceRadixSort.UpdateSize
        DeviceRadixSort.freshEngine).m_partitions =
        GPUSortBase.divRoundUp
          ([7681, 7681, 0, 15361].foldl DeviceRadixSort.UpdateSize
            DeviceRadixSort.freshEngine).m_numKeys 7680 ∧
      ([7681, 7681, 0, 15361].foldl DeviceRadixSort.UpdateSize
        DeviceRadixSort.freshEngine).m_partitions = 3 :=
  have h := DeviceRadixSort.C21_UpdateSize_reallocates_when_size_changes
    DeviceRadixSort.exampleEngine 6 [7681, 7681, 0, 15361] GPUSorting.ORDER.ORDER_ASCENDING
    GPUSorting.KEY_TYPE.KEY_UINT32 GPUSorting.PAYLOAD_TYPE.PAYLOAD_UINT32
    ⟨false, 15, 512, 7680, 7936⟩ (by decide)
  have h7 := (DeviceRadixSort.C21_UpdateSize_reallocates_when_size_changes
    DeviceRadixSort.exampleEngine 7 [] GPUSorting.ORDER.ORDER_ASCENDING
    GPUSorting.KEY_TYPE.KEY_UINT32 GPUSorting.PAYLOAD_TYPE.PAYLOAD_UINT32
    ⟨false, 15, 512, 7680, 7936⟩ (by decide)).2.1 (by decide) (by decide)
  ⟨h.1 rfl, h7.1, h7.2.2.2.2.1, h.2.2.2.2.1, by decide⟩


/-- The launches of the tiled dispatch stay within the per-dimension limit when the group
count is below `k_maxDim * (k_maxDim + 1)`. -/
theorem RTSKernels.tiledLaunches_within_limit (c : RTSKernels.KernelConsts) (vs tb : Nat)
    (hk : 0 < c.k_maxDim) (h32 : tb < 2 ^ 32) (htb : tb < c.k_maxDim * (c.k_maxDim + 1)) :
    ∀ l ∈ RTSKernels.tiledLaunches c vs tb,
      1 ≤ l.x ∧ l.x ≤ c.k_maxDim ∧ 1 ≤ l.y ∧ l.y ≤ c.k_maxDim ∧ l.z = 1 := by
  intro l hl
  unfold RTSKernels.tiledLaunches at hl
  rw [RTSKernels.partialBlocks_eq_mod _ _ h32] at hl
  have hq : tb / c.k_maxDim ≤ c.k_maxDim := by
    have := (Nat.div_lt_iff_lt_mul hk).2 (by rw [Nat.mul_comm]; exact htb)
    omega
  have hr : tb % c.k_maxDim < c.k_maxDim := Nat.mod_lt _ hk
  rcases List.mem_append.1 hl with h | h
  · split at h
    · rename_i hne
      simp only [List.mem_singleton] at h
      subst h
      exact ⟨hk, Nat.le_refl _, Nat.pos_of_ne_zero hne, hq, rfl⟩
    · exact absurd h (List.not_mem_nil l)
  · split at h
    · rename_i hne
      simp only [List.mem_singleton] at h
      subst h
      exact ⟨Nat.pos_of_ne_zero hne, Nat.le_of_lt hr, Nat.le_refl 1, hk, rfl⟩
    · exact absurd h (List.not_mem_nil l)

/-- C24: with `k_maxDim = 65535`, for every group count
`threadBlocks < k_maxDim * (k_maxDim + 1)` every dispatch that `Reduce::Dispatch`,
`PropagateInclusive::Dispatch` and `PropagateExclusive::Dispatch` add to the command list has
`x` and `y` in `[1, k_maxDim]` and `z = 1`; the bound holds for every rounded-up quotient
of a 32-bit `N` by a partition size `P ≥ 2`, as a rational ceiling and as `divRoundUp`
computes it. -/
theorem RTSKernels.C24_dispatch_dimensions_within_limit (c : RTSKernels.KernelConsts)
    (hk : c.k_maxDim = 65535) (cmds : List RTSKernels.Cmd)
    (scanIn scanOut reduction vs tb : Nat) (htb : tb < 65535 * (65535 + 1)) :
    (∃ added, RTSKernels.launches (RTSKernels.Reduce.Dispatch c cmds scanIn reduction vs tb) =
        RTSKernels.launches cmds ++ added ∧
      RTSKernels.launches
          (RTSKernels.PropagateInclusive.Dispatch c cmds scanIn scanOut reduction vs tb) =
        RTSKernels.launches cmds ++ added ∧
      RTSKernels.launches
          (RTSKernels.PropagateExclusive.Dispatch c cmds scanIn scanOut reduction vs tb) =
        RTSKernels.launches cmds ++ added ∧
      ∀ l ∈ added, 1 ≤ l.x ∧ l.x ≤ 65535 ∧ 1 ≤ l.y ∧ l.y ≤ 65535 ∧ l.z = 1) ∧
    (∀ N P : Nat, N < 2 ^ 32 → 2 ≤ P →
      Nat.ceil ((N : ℚ) / (P : ℚ)) < 65535 * (65535 + 1) ∧
        GPUSortBase.divRoundUp N P < 65535 * (65535 + 1)) := by
  constructor
  · refine ⟨RTSKernels.tiledLaunches c vs tb, RTSKernels.launches_Reduce c cmds _ _ vs tb,
      RTSKernels.launches_PropagateInclusive c cmds _ _ _ vs tb,
      RTSKernels.launches_PropagateExclusive c cmds _ _ _ vs tb, ?_⟩
    have := RTSKernels.tiledLaunches_within_limit c vs tb (by omega) (by norm_num; omega)
      (by rw [hk]; exact htb)
    rw [hk] at this
    exact this
  · intro N P hN hP
    have hN' : N < 4294967296 := by norm_num at hN; exact hN
    have hmul : N ≤ 2147483648 * P := by omega
    constructor
    · have hPq : (0 : ℚ) < (P : ℚ) := by exact_mod_cast (show 0 < P by omega)
      have hle : Nat.ceil ((N : ℚ) / (P : ℚ)) ≤ 2147483648 := by
        apply Nat.ceil_le.2
        rw [div_le_iff₀ hPq]
        exact_mod_cast hmul
      omega
    · unfold GPUSortBase.divRoundUp
      have hn : sub32 (u32 (N + P)) 1 < 4294967296 := by
        unfold sub32
        exact Nat.mod_lt _ (by norm_num)
      have := (Nat.div_lt_iff_lt_mul (show 0 < P by omega)).2
        (show sub32 (u32 (N + P)) 1 < 2147483648 * P by omega)
      omega

theorem RTSKernels.C24_dispatch_dimensions_within_limit_witness :
    (∀ l ∈ RTSKernels.launches
        (RTSKernels.Reduce.Dispatch ⟨65535, 0, 1⟩ [] 100 200 5 4294901759),
      1 ≤ l.x ∧ l.x ≤ 65535 ∧ 1 ≤ l.y ∧ l.y ≤ 65535 ∧ l.z = 1) ∧
    RTSKernels.shapes (RTSKernels.Reduce.Dispatch ⟨65535, 0, 1⟩ [] 100 200 5 4294901759) =
      [(65535, 65535, 1), (65534, 1, 1)] := by
  obtain ⟨added, h1, _, _, h4⟩ := (RTSKernels.C24_dispatch_dimensions_within_limit
    ⟨65535, 0, 1⟩ rfl [] 100 150 200 5 4294901759 (by decide)).1
  refine ⟨?_, by decide⟩
  rw [h1]
  intro l hl
  exact h4 l (by simpa [RTSKernels.launches, RTSKernels.launchesFrom] using hl)


/-! ## The defines of the compile arguments -/

namespace GPUSortBase

theorem count_zero_of_cands {s : String} {l cands all : List String}
    (h : ∀ x ∈ l, x ∈ cands) (hsub : ∀ x ∈ cands, x ∈ all) (hs : s ∉ all) :
    l.count s = 0 :=
  List.count_eq_zero.2 fun hm => hs (hsub s (h s hm))

theorem lockWaves_cands (b : Bool) :
    ∀ x ∈ SetCompileArguments.lockWaves b [], x ∈ ["-DLOCK_TO_W32"] := by
  intro x hx
  rcases mem_lockWaves hx with h | h
  · exact absurd h (List.not_mem_nil x)
  · exact List.mem_singleton.2 h

theorem keysPerThread_cands (k : Nat) :
    ∀ x ∈ SetCompileArguments.keysPerThread k [],
      x ∈ ["-DKEYS_PER_THREAD_5", "-DKEYS_PER_THREAD_7"] := by
  intro x hx
  rcases mem_keysPerThread hx with h | h | h
  · exact absurd h (List.not_mem_nil x)
  · rw [h.2]; exact List.mem_cons_self _ _
  · rw [h.2]; exact List.mem_cons_of_mem _ (List.mem_cons_self _ _)

theorem threadsPerThreadblock_cands (k : Nat) :
    ∀ x ∈ SetCompileArguments.threadsPerThreadblock k [], x ∈ ["-DD_DIM_256"] := by
  intro x hx
  rcases mem_threadsPerThreadblock hx with h | h
  · exact absurd h (List.not_mem_nil x)
  · exact List.mem_singleton.2 h.2

theorem partitionSize_cands (k : Nat) :
    ∀ x ∈ SetCompileArguments.partitionSize k [],
      x ∈ ["-DPART_SIZE_1792", "-DPART_SIZE_2560", "-DPART_SIZE_3584", "-DPART_SIZE_3840"] := by
  intro x hx
  rcases mem_partitionSize hx with h | h | h | h | h
  · exact absurd h (List.not_mem_nil x)
  all_goals rw [h.2]; simp

theorem totalSharedMemory_cands (k : Nat) :
    ∀ x ∈ SetCompileArguments.totalSharedMemory k [], x ∈ ["-DD_TOTAL_SMEM_4096"] := by
  intro x hx
  rcases mem_totalSharedMemory hx with h | h
  · exact absurd h (List.not_mem_nil x)
  · exact List.mem_singleton.2 h.2

theorem sortingConfig_cands (c : GPUSorting.GPUSortingConfig) :
    ∀ x ∈ SetCompileArguments.sortingConfig c [],
      x ∈ ["-DSHOULD_ASCEND", "-DKEY_UINT", "-DKEY_INT", "-DKEY_FLOAT", "-DSORT_PAIRS",
        "-DPAYLOAD_UINT", "-DPAYLOAD_INT", "-DPAYLOAD_FLOAT"] := by
  intro x hx
  rcases mem_sortingConfig hx with h | h
  · exact absurd h (List.not_mem_nil x)
  · exact h

theorem tail_cands (d b : Bool) :
    ∀ x ∈ (if b then ["-enable-16bit-types", "-DENABLE_16_BIT"] else []) ++
        "-O3" :: (if d then ["-Zi"] else []),
      x ∈ ["-enable-16bit-types", "-DENABLE_16_BIT", "-O3", "-Zi"] := by
  cases d <;> cases b <;> decide

/-- How often an argument occurs in the result, by the statement that pushes it. -/
theorem count_SetCompileArguments (s : String) (debug : Bool)
    (t : GPUSorting.TuningParameters) (c : GPUSorting.GPUSortingConfig) (b : Bool)
    (args : List String) :
    (SetCompileArguments debug t c b args).count s =
      args.count s + (SetCompileArguments.lockWaves t.shouldLockWavesTo32 []).count s +
        (SetCompileArguments.keysPerThread t.keysPerThread []).count s +
        (SetCompileArguments.threadsPerThreadblock t.threadsPerThreadblock []).count s +
        (SetCompileArguments.partitionSize t.partitionSize []).count s +
        (SetCompileArguments.totalSharedMemory t.totalSharedMemory []).count s +
        (SetCompileArguments.sortingConfig c []).count s +
        ((if b then ["-enable-16bit-types", "-DENABLE_16_BIT"] else []) ++
          "-O3" :: (if debug then ["-Zi"] else [])).count s := by
  rw [SetCompileArguments_append]
  simp only [List.count_append]
  omega

/-- An argument that only the statements on the sorting configuration can push occurs as
often as before plus as often as those statements push it. -/
theorem count_config_define (s : String)
    (hs : s ∉ ["-DLOCK_TO_W32", "-DKEYS_PER_THREAD_5", "-DKEYS_PER_THREAD_7", "-DD_DIM_256",
      "-DPART_SIZE_1792", "-DPART_SIZE_2560", "-DPART_SIZE_3584", "-DPART_SIZE_3840",
      "-DD_TOTAL_SMEM_4096", "-enable-16bit-types", "-DENABLE_16_BIT", "-O3", "-Zi"])
    (debug : Bool) (t : GPUSorting.TuningParameters) (c : GPUSorting.GPUSortingConfig)
    (b : Bool) (args : List String) :
    (SetCompileArguments debug t c b args).count s =
      args.count s + (SetCompileArguments.sortingConfig c []).count s := by
  rw [count_SetCompileArguments,
    count_zero_of_cands (lockWaves_cands _) (by decide) hs,
    count_zero_of_cands (keysPerThread_cands _) (by decide) hs,
    count_zero_of_cands (threadsPerThreadblock_cands _) (by decide) hs,
    count_zero_of_cands (partitionSize_cands _) (by decide) hs,
    count_zero_of_cands (totalSharedMemory_cands _) (by decide) hs,
    count_zero_of_cands (tail_cands _ _) (by decide) hs]
  omega

/-- An argument that only the `switch` on `keysPerThread` can push occurs as often as before
plus as often as that `switch` pushes it. -/
theorem count_keys_define (s : String)
    (hs : s ∉ ["-DLOCK_TO_W32", "-DD_DIM_256",
      "-DPART_SIZE_1792", "-DPART_SIZE_2560", "-DPART_SIZE_3584", "-DPART_SIZE_3840",
      "-DD_TOTAL_SMEM_4096", "-DSHOULD_ASCEND", "-DKEY_UINT", "-DKEY_INT", "-DKEY_FLOAT",
      "-DSORT_PAIRS", "-DPAYLOAD_UINT", "-DPAYLOAD_INT", "-DPAYLOAD_FLOAT",
      "-enable-16bit-types", "-DENABLE_16_BIT", "-O3", "-Zi"])
    (debug : Bool) (t : GPUSorting.TuningParameters) (c : GPUSorting.GPUSortingConfig)
    (b : Bool) (args : List String) :
    (SetCompileArguments debug t c b args).count s =
      args.count s + (SetCompileArguments.keysPerThread t.keysPerThread []).count s := by
  rw [count_SetCompileArguments,
    count_zero_of_cands (lockWaves_cands _) (by decide) hs,
    count_zero_of_cands (threadsPerThreadblock_cands _) (by decide) hs,
    count_zero_of_cands (partitionSize_cands _) (by decide) hs,
    count_zero_of_cands (totalSharedMemory_cands _) (by decide) hs,
    count_zero_of_cands (sortingConfig_cands _) (by decide) hs,
    count_zero_of_cands (tail_cands _ _) (by decide) hs]
  omega

end GPUSortBase


/-- C22: for every sorting configuration (and every tuning configuration), the statements
of `SetCompileArguments` add `-DSHOULD_ASCEND` once if the order is `ORDER_ASCENDING` and
not otherwise; they add the define of the configured key type once and no other key-type
define; they add `-DSORT_PAIRS` once, and the define of the configured payload type once,
if the mode is `MODE_PAIRS`, and no payload define otherwise.  Starting from no arguments,
the list contains exactly these. -/
theorem GPUSortBase.C22_configuration_defines (debug : Bool) (t : GPUSorting.TuningParameters)
    (c : GPUSorting.GPUSortingConfig) (b : Bool) (args : List String) :
    (GPUSortBase.SetCompileArguments debug t c b args).count "-DSHOULD_ASCEND" =
        args.count "-DSHOULD_ASCEND" +
          (if c.sortingOrder = GPUSorting.ORDER.ORDER_ASCENDING then 1 else 0) ∧
    (∀ k : GPUSorting.KEY_TYPE,
      (GPUSortBase.SetCompileArguments debug t c b args).count (GPUSortBase.keyDefine k) =
        args.count (GPUSortBase.keyDefine k) + (if k = c.sortingKeyType then 1 else 0)) ∧
    (GPUSortBase.SetCompileArguments debug t c b args).count "-DSORT_PAIRS" =
        args.count "-DSORT_PAIRS" +
          (if c.sortingMode = GPUSorting.MODE.MODE_PAIRS then 1 else 0) ∧
    (∀ p : GPUSorting.PAYLOAD_TYPE,
      (GPUSortBase.SetCompileArguments debug t c b args).count (GPUSortBase.payloadDefine p) =
        args.count (GPUSortBase.payloadDefine p) +
          (if c.sortingMode = GPUSorting.MODE.MODE_PAIRS ∧ p = c.sortingPayloadType then 1
           else 0)) ∧
    ("-DSHOULD_ASCEND" ∈ GPUSortBase.SetCompileArguments debug t c b [] ↔
      c.sortingOrder = GPUSorting.ORDER.ORDER_ASCENDING) ∧
    (∀ k : GPUSorting.KEY_TYPE,
      GPUSortBase.keyDefine k ∈ GPUSortBase.SetCompileArguments debug t c b [] ↔
        k = c.sortingKeyType) ∧
    ("-DSORT_PAIRS" ∈ GPUSortBase.SetCompileArguments debug t c b [] ↔
      c.sortingMode = GPUSorting.MODE.MODE_PAIRS) ∧
    (∀ p : GPUSorting.PAYLOAD_TYPE,
      GPUSortBase.payloadDefine p ∈ GPUSortBase.SetCompileArguments debug t c b [] ↔
        (c.sortingMode = GPUSorting.MODE.MODE_PAIRS ∧ p = c.sortingPayloadType)) := by
  have h1 : ∀ args : List String,
      (GPUSortBase.SetCompileArguments debug t c b args).count "-DSHOULD_ASCEND" =
        args.count "-DSHOULD_ASCEND" +
          (if c.sortingOrder = GPUSorting.ORDER.ORDER_ASCENDING then 1 else 0) := by
    intro args
    rw [GPUSortBase.count_config_define _ (by decide)]
    obtain ⟨m, o, k, p⟩ := c
    cases m <;> cases o <;> cases k <;> cases p <;>
      simp [GPUSortBase.SetCompileArguments.sortingConfig]
  have h2 : ∀ (args : List String) (k : GPUSorting.KEY_TYPE),
      (GPUSortBase.SetCompileArguments debug t c b args).count (GPUSortBase.keyDefine k) =
        args.count (GPUSortBase.keyDefine k) + (if k = c.sortingKeyType then 1 else 0) := by
    intro args k
    rw [GPUSortBase.count_config_define _ (by cases k <;> decide)]
    obtain ⟨m, o, kt, p⟩ := c
    cases k <;> cases m <;> cases o <;> cases kt <;> cases p <;>
      simp [GPUSortBase.SetCompileArguments.sortingConfig, GPUSortBase.keyDefine]
  have h3 : ∀ args : List String,
      (GPUSortBase.SetCompileArguments debug t c b args).count "-DSORT_PAIRS" =
        args.count "-DSORT_PAIRS" +
          (if c.sortingMode = GPUSorting.MODE.MODE_PAIRS then 1 else 0) := by
    intro args
    rw [GPUSortBase.count_config_define _ (by decide)]
    obtain ⟨m, o, k, p⟩ := c
    cases m <;> cases o <;> cases k <;> cases p <;>
      simp [GPUSortBase.SetCompileArguments.sortingConfig]
  have h4 : ∀ (args : List String) (p : GPUSorting.PAYLOAD_TYPE),
      (GPUSortBase.SetCompileArguments debug t c b args).count
          (GPUSortBase.payloadDefine p) =
        args.count (GPUSortBase.payloadDefine p) +
          (if c.sortingMode = GPUSorting.MODE.MODE_PAIRS ∧ p = c.sortingPayloadType then 1
           else 0) := by
    intro args p
    rw [GPUSortBase.count_config_define _ (by cases p <;> decide)]
    obtain ⟨m, o, kt, pt⟩ := c
    cases p <;> cases m <;> cases o <;> cases kt <;> cases pt <;>
      simp [GPUSortBase.SetCompileArguments.sortingConfig, GPUSortBase.payloadDefine]
  refine ⟨h1 args, h2 args, h3 args, h4 args, ?_, ?_, ?_, ?_⟩
  · rw [← List.count_pos_iff, h1 []]
    split <;> simp [*]
  · intro k
    rw [← List.count_pos_iff, h2 [] k]
    split <;> simp [*]
  · rw [← List.count_pos_iff, h3 []]
    split <;> simp [*]
  · intro p
    rw [← List.count_pos_iff, h4 [] p]
    split <;> simp [*]

theorem GPUSortBase.C22_configuration_defines_witness :
    GPUSortBase.SetCompileArguments false exampleUnknownTuning examplePairsConfig false [] =
        ["-DSHOULD_ASCEND", "-DKEY_UINT", "-DSORT_PAIRS", "-DPAYLOAD_UINT", "-O3"] ∧
      ("-DSORT_PAIRS" ∈
          GPUSortBase.SetCompileArguments false exampleUnknownTuning examplePairsConfig false [] ↔
        examplePairsConfig.sortingMode = GPUSorting.MODE.MODE_PAIRS) :=
  ⟨by decide,
    (GPUSortBase.C22_configuration_defines false exampleUnknownTuning examplePairsConfig false
      []).2.2.2.2.2.2.1⟩

/-- C25 on the code: the `switch` on `keysPerThread` adds `-DKEYS_PER_THREAD_5` exactly for
the value 5 and `-DKEYS_PER_THREAD_7` for the values 5 and 7, because `case 5` has no `break`;
for `keysPerThread = 5` the arguments hold both defines. -/
theorem GPUSortBase.C25_five_keys_per_thread_adds_both_defines (debug : Bool)
    (t : GPUSorting.TuningParameters) (c : GPUSorting.GPUSortingConfig) (b : Bool)
    (args : List String) :
    (GPUSortBase.SetCompileArguments debug t c b args).count "-DKEYS_PER_THREAD_5" =
        args.count "-DKEYS_PER_THREAD_5" + (if t.keysPerThread = 5 then 1 else 0) ∧
    (GPUSortBase.SetCompileArguments debug t c b args).count "-DKEYS_PER_THREAD_7" =
        args.count "-DKEYS_PER_THREAD_7" +
          (if t.keysPerThread = 5 ∨ t.keysPerThread = 7 then 1 else 0) ∧
    GPUSortBase.SetCompileArguments false exampleFiveKeysTuning examplePairsConfig false [] =
      ["-DKEYS_PER_THREAD_5", "-DKEYS_PER_THREAD_7", "-DSHOULD_ASCEND", "-DKEY_UINT",
        "-DSORT_PAIRS", "-DPAYLOAD_UINT", "-O3"] := by
  refine ⟨?_, ?_, by decide⟩
  · rw [GPUSortBase.count_keys_define _ (by decide)]
    unfold GPUSortBase.SetCompileArguments.keysPerThread
    split_ifs <;> simp_all
  · rw [GPUSortBase.count_keys_define _ (by decide)]
    unfold GPUSortBase.SetCompileArguments.keysPerThread
    split_ifs <;> simp_all


/-! ## The shader model name and the sizes of the maximum-dimension tests -/

/-- C26 on the code: `GetDeviceInfo` fails, with `E_UNEXPECTED`, exactly when
`(HighestShaderModel & 0xF) >= 8`; otherwise `SupportedShaderModel` is the entry of
`shaderModelName` at the low four bits of the reported model, whatever its major version is.
For the models 6.0 to 6.7 that is the name of the model; for the reported model 5.1
(`0x51`) it is `cs_6_1`. -/
theorem C26_shader_model_name_from_low_bits (device : Device) :
    ((∃ hr, GetDeviceInfo device = Except.error hr) ↔ device.HighestShaderModel &&& 0xF ≥ 8) ∧
    (∀ hr, GetDeviceInfo device = Except.error hr → hr = E_UNEXPECTED) ∧
    (∀ deviceInfo, GetDeviceInfo device = Except.ok deviceInfo →
      some deviceInfo.SupportedShaderModel =
        shaderModelName[device.HighestShaderModel &&& 0xF]?) ∧
    (∀ k, k < 8 → device.HighestShaderModel = 0x60 + k →
      ∃ deviceInfo, GetDeviceInfo device = Except.ok deviceInfo ∧
        some deviceInfo.SupportedShaderModel = shaderModelName[k]?) ∧
    shaderModelName =
      ["cs_6_0", "cs_6_1", "cs_6_2", "cs_6_3", "cs_6_4", "cs_6_5", "cs_6_6", "cs_6_7"] ∧
    (∃ deviceInfo, GetDeviceInfo exampleDeviceModel51 = Except.ok deviceInfo ∧
      exampleDeviceModel51.HighestShaderModel = 0x51 ∧
      deviceInfo.SupportedShaderModel = "cs_6_1" ∧
      deviceInfo.SupportsDeviceRadixSort = false) := by
  have hle : device.HighestShaderModel &&& 0xF ≤ 0xF := Nat.and_le_right
  have hu : u32 (device.HighestShaderModel &&& 0xF) = device.HighestShaderModel &&& 0xF :=
    u32_of_lt (by omega)
  have hlen : shaderModelName.length = 8 := rfl
  have hcases : (device.HighestShaderModel &&& 0xF ≥ 8 ∧
        GetDeviceInfo device = Except.error E_UNEXPECTED) ∨
      (device.HighestShaderModel &&& 0xF < 8 ∧
        ∃ deviceInfo, GetDeviceInfo device = Except.ok deviceInfo ∧
          some deviceInfo.SupportedShaderModel =
            shaderModelName[device.HighestShaderModel &&& 0xF]?) := by
    unfold GetDeviceInfo
    simp only []
    split
    · rename_i h
      rw [hu, hlen] at h
      exact Or.inl ⟨h, rfl⟩
    · rename_i h
      rw [hu, hlen] at h
      refine Or.inr ⟨by omega, _, rfl, ?_⟩
      simp only [List.get_eq_getElem]
      rw [List.getElem?_eq_getElem (by rw [hlen]; omega)]
      simp only [hu]
  refine ⟨?_, ?_, ?_, ?_, rfl, ⟨_, rfl, rfl, rfl, rfl⟩⟩
  · constructor
    · rintro ⟨hr, hhr⟩
      rcases hcases with ⟨hge, _⟩ | ⟨_, info, hok, _⟩
      · exact hge
      · rw [hok] at hhr
        exact Except.noConfusion hhr
    · intro hge
      rcases hcases with ⟨_, herr⟩ | ⟨hlt, _⟩
      · exact ⟨_, herr⟩
      · omega
  · intro hr hhr
    rcases hcases with ⟨_, herr⟩ | ⟨_, info, hok, _⟩
    · rw [herr] at hhr
      injection hhr with hhr
      exact hhr.symm
    · rw [hok] at hhr
      exact Except.noConfusion hhr
  · intro info hinfo
    rcases hcases with ⟨_, herr⟩ | ⟨_, info2, hok, hname⟩
    · rw [herr] at hinfo
      exact Except.noConfusion hinfo
    · rw [hok] at hinfo
      injection hinfo with hinfo
      rw [← hinfo]
      exact hname
  · intro k hk hm
    have hand : device.HighestShaderModel &&& 0xF = k := by
      rw [hm]
      interval_cases k <;> rfl
    rcases hcases with ⟨hge, _⟩ | ⟨_, info, hok, hname⟩
    · omega
    · exact ⟨info, hok, by rw [← hand]; exact hname⟩


/-- The rational ceiling of `x / y` is `(x + y - 1) / y`. -/
theorem GPUSortBase.ceil_rat_eq (x y : Nat) (hy : 0 < y) :
    Nat.ceil ((x : ℚ) / (y : ℚ)) = (x + y - 1) / y := by
  have hyq : (0 : ℚ) < (y : ℚ) := by exact_mod_cast hy
  have hc1 : (x : ℚ) / (y : ℚ) ≤ (Nat.ceil ((x : ℚ) / (y : ℚ)) : ℚ) := Nat.le_ceil _
  have hc2 : (Nat.ceil ((x : ℚ) / (y : ℚ)) : ℚ) < (x : ℚ) / (y : ℚ) + 1 :=
    Nat.ceil_lt_add_one (by positivity)
  have q1 : (x : ℚ) ≤ (Nat.ceil ((x : ℚ) / (y : ℚ)) : ℚ) * (y : ℚ) := by
    rwa [div_le_iff₀ hyq] at hc1
  have q2 : (Nat.ceil ((x : ℚ) / (y : ℚ)) : ℚ) * (y : ℚ) < (x : ℚ) + (y : ℚ) := by
    have := mul_lt_mul_of_pos_right hc2 hyq
    rwa [add_mul, div_mul_cancel₀ _ hyq.ne', one_mul] at this
  exact GPUSortBase.ceil_unique x y _ hy (by exact_mod_cast q1) (by exact_mod_cast q2)

/-- C27: for every supported partition size `P` in {1792, 2560, 3584, 3840, 7680} the sizes
of the three maximum-dimension tests of `DeviceRadixSort::TestAll` are `65535 * P - 1`,
`65535 * P` and `65535 * P + 2^20`, computed without 32-bit wrap-around and unchanged by the
narrowing to the `uint32_t` parameter of `ValidateSort`.  `UpdateSize` gives them the
partition counts `65535`, `65535` and `65535 + ceil(2^20 / P)`, so only the third exceeds
the dispatch limit of `65535` per dimension. -/
theorem DeviceRadixSort.C27_maximum_dimension_test_sizes (e : DeviceRadixSort) (P : Nat)
    (hP : P ∈ [1792, 2560, 3584, 3840, 7680]) (hdim : e.k_maxDispatchDimension = 65535)
    (hps : e.k_tuningParameters.partitionSize = P) :
    65535 * P < 2 ^ 32 ∧ 65535 * P + 2 ^ 20 < 2 ^ 32 ∧
    DeviceRadixSort.TestAll.maxDim e.toGPUSortBase =
      [(65535 * P - 1, 13), (65535 * P, 17), (65535 * P + 2 ^ 20, 19)] ∧
    GPUSortBase.divRoundUp (65535 * P - 1) P = 65535 ∧
    GPUSortBase.divRoundUp (65535 * P) P = 65535 ∧
    GPUSortBase.divRoundUp (65535 * P + 2 ^ 20) P =
      65535 + Nat.ceil (((2 ^ 20 : Nat) : ℚ) / (P : ℚ)) ∧
    e.k_maxDispatchDimension < GPUSortBase.divRoundUp (65535 * P + 2 ^ 20) P ∧
    (∀ size ∈ (DeviceRadixSort.TestAll.maxDim e.toGPUSortBase).map Prod.fst,
      e.m_numKeys ≠ size →
        (DeviceRadixSort.UpdateSize e size).m_partitions = GPUSortBase.divRoundUp size P ∧
        ((DeviceRadixSort.UpdateSize e size).m_partitions ≤ e.k_maxDispatchDimension ↔
          size ≤ 65535 * P)) := by
  have hceil := GPUSortBase.ceil_rat_eq (2 ^ 20) P
    (by simp only [List.mem_cons, List.mem_singleton, List.not_mem_nil, or_false] at hP; omega)
  have hmax : DeviceRadixSort.TestAll.maxDim e.toGPUSortBase =
      [(65535 * P - 1, 13), (65535 * P, 17), (65535 * P + 2 ^ 20, 19)] := by
    simp only [DeviceRadixSort.TestAll.maxDim, hdim, hps]
    simp only [List.mem_cons, List.mem_singleton, List.not_mem_nil, or_false] at hP
    rcases hP with rfl | rfl | rfl | rfl | rfl <;> decide
  have hd : GPUSortBase.divRoundUp (65535 * P - 1) P = 65535 ∧
      GPUSortBase.divRoundUp (65535 * P) P = 65535 ∧
      GPUSortBase.divRoundUp (65535 * P + 2 ^ 20) P = 65535 + (2 ^ 20 + P - 1) / P ∧
      65535 < GPUSortBase.divRoundUp (65535 * P + 2 ^ 20) P := by
    simp only [List.mem_cons, List.mem_singleton, List.not_mem_nil, or_false] at hP
    rcases hP with rfl | rfl | rfl | rfl | rfl <;> decide
  refine ⟨?_, ?_, hmax, hd.1, hd.2.1, ?_, ?_, ?_⟩
  · simp only [List.mem_cons, List.mem_singleton, List.not_mem_nil, or_false] at hP
    rcases hP with rfl | rfl | rfl | rfl | rfl <;> decide
  · simp only [List.mem_cons, List.mem_singleton, List.not_mem_nil, or_false] at hP
    rcases hP with rfl | rfl | rfl | rfl | rfl <;> decide
  · rw [hd.2.2.1, hceil]
  · rw [hdim]
    exact hd.2.2.2
  · intro size hsize hne
    obtain ⟨_, f2, _⟩ := DeviceRadixSort.UpdateSize_fields e size hne
    rw [hps] at f2
    refine ⟨f2, ?_⟩
    rw [f2, hdim]
    rw [hmax] at hsize
    simp only [List.map_cons, List.map_nil, List.mem_cons, List.mem_singleton,
      List.not_mem_nil, or_false] at hsize
    rcases hsize with rfl | rfl | rfl
    · rw [hd.1]
      constructor <;> intro _ <;> omega
    · rw [hd.2.1]
      constructor <;> intro _ <;> omega
    · have := hd.2.2.2
      constructor <;> intro _ <;> omega

theorem DeviceRadixSort.C27_maximum_dimension_test_sizes_witness :
    DeviceRadixSort.TestAll.maxDim DeviceRadixSort.freshEngine.toGPUSortBase =
        [(65535 * 7680 - 1, 13), (65535 * 7680, 17), (65535 * 7680 + 2 ^ 20, 19)] ∧
      GPUSortBase.divRoundUp (65535 * 7680 + 2 ^ 20) 7680 =
        65535 + Nat.ceil (((2 ^ 20 : Nat) : ℚ) / ((7680 : Nat) : ℚ)) ∧
      GPUSortBase.divRoundUp (65535 * 7680 + 2 ^ 20) 7680 = 65672 :=
  have h := DeviceRadixSort.C27_maximum_dimension_test_sizes DeviceRadixSort.freshEngine 7680
    (by decide) rfl rfl
  ⟨h.2.2.1, h.2.2.2.2.2.1, by decide⟩

/-- For `partitionSize = 2 ^ 31` the sweep bound `partitionSize * 2 + 1` wraps to 1 and the
size sweep of `TestAll` is empty. -/
theorem DeviceRadixSort.sweepSizes_wide : DeviceRadixSort.TestAll.sweepSizes 2147483648 = [] := by
  unfold DeviceRadixSort.TestAll.sweepSizes u32
  rw [DeviceRadixSort.TestAll.sweepFrom, if_neg (by norm_num)]

theorem DeviceRadixSort.TestAll_wide :
    DeviceRadixSort.TestAll exampleWideBase exampleNoMemory (fun _ _ => true) (fun _ => true) =
      { result := false
        testsPassed := 258
        testsExpected := 2147483907
        events := TestEvent.updateSize 4194304 ::
            ((List.range' 1 255).map fun i => TestEvent.validateScan i true) ++
          (DeviceRadixSort.TestAll.large.map fun t => TestEvent.validateSort t.1 t.2 true) ++
          [TestEvent.memoryCheck 0 (DeviceRadixSort.TestAll.pairsMemoryRequirements exampleWideBase)] } := by
  have hscan : DeviceRadixSort.TestAll.sweepFrom 256 1 = List.range' 1 255 :=
    DeviceRadixSort.sweepFrom_eq_range' 256 255 1 rfl
  have hP : exampleWideBase.k_tuningParameters.partitionSize = 2147483648 := rfl
  have hmem : ¬ (u64 (exampleNoMemory.dedicatedVideoMemory + exampleNoMemory.sharedSystemMemory) ≥
      DeviceRadixSort.TestAll.pairsMemoryRequirements exampleWideBase) := by decide
  simp only [DeviceRadixSort.TestAll, if_neg hmem, hscan]
  rw [hP, DeviceRadixSort.sweepSizes_wide]
  have c1 : countPassed (List.map (fun _ : Nat => true) []) 0 = 0 := rfl
  have c2 : countPassed (List.map (fun _ : Nat × Nat => true) DeviceRadixSort.TestAll.large) 0 =
      3 := rfl
  have c3 : countPassed (List.map (fun _ : Nat => true) (List.range' 1 255)) 0 = 255 := by
    rw [countPassed_eq _ 0 (by simp only [List.length_map, List.length_range']; norm_num),
      (count_true_eq_length _).mpr (by
        intro b hb
        obtain ⟨_, _, h⟩ := List.mem_map.mp hb
        exact h.symm),
      List.length_map, List.length_range']
  have u1 : u32 (u32 (u32 (2147483648 + 1) + 255) + 3) = 2147483907 := by
    unfold u32
    norm_num
  have u2 : u32 (3 + 255) = 258 := by
    unfold u32
    norm_num
  have u3 : u64 (exampleNoMemory.dedicatedVideoMemory + exampleNoMemory.sharedSystemMemory) =
      0 := by decide
  have u4 : (1 : Nat) <<< 22 = 4194304 := by decide
  rw [c1, c2, c3, u1, u2, u3, u4]
  rfl

theorem GPUSortBase.TestAll_base_wide :
    GPUSortBase.TestAll exampleWideBase (fun _ _ => true) =
      { result := false
        testsPassed := 3
        testsExpected := 2147483652
        events :=
          DeviceRadixSort.TestAll.large.map fun t => TestEvent.validateSort t.1 t.2 true } := by
  have hP : exampleWideBase.k_tuningParameters.partitionSize = 2147483648 := rfl
  simp only [GPUSortBase.TestAll]
  rw [hP, DeviceRadixSort.sweepSizes_wide]
  have c1 : countPassed (List.map (fun _ : Nat => true) []) 0 = 0 := rfl
  have c2 : countPassed (List.map (fun _ : Nat × Nat => true) DeviceRadixSort.TestAll.large) 0 =
      3 := rfl
  have u1 : u32 (u32 (2147483648 + 1) + 3) = 2147483652 := by
    unfold u32
    norm_num
  rw [c1, c2, u1]
  rfl

/-- C13 as stated fails: for `partitionSize = 2 ^ 31` the sweep bound
`partitionSize * 2 + 1` wraps to 1 in `uint32_t` and no sweep sort runs.  With every
validation returning true on a device without memory, `DeviceRadixSort::TestAll` runs 258
validations, expects 2 ^ 31 + 259 and returns false; `GPUSortBase::TestAll` runs 3, expects
2 ^ 31 + 4 and returns false. -/
theorem DeviceRadixSort.C13_TestAll_false_though_every_validation_passed :
    (DeviceRadixSort.TestAll exampleWideBase exampleNoMemory
        (fun _ _ => true) (fun _ => true)).result = false ∧
      (∀ ev ∈ (DeviceRadixSort.TestAll exampleWideBase exampleNoMemory
        (fun _ _ => true) (fun _ => true)).events, ev.result? ≠ some false) ∧
      ((DeviceRadixSort.TestAll exampleWideBase exampleNoMemory
        (fun _ _ => true) (fun _ => true)).events.filterMap TestEvent.result?).length = 258 ∧
      (DeviceRadixSort.TestAll exampleWideBase exampleNoMemory
        (fun _ _ => true) (fun _ => true)).testsExpected = 2147483907 ∧
      (GPUSortBase.TestAll exampleWideBase (fun _ _ => true)).result = false ∧
      (∀ ev ∈ (GPUSortBase.TestAll exampleWideBase (fun _ _ => true)).events,
        ev.result? ≠ some false) ∧
      ((GPUSortBase.TestAll exampleWideBase (fun _ _ => true)).events.filterMap
        TestEvent.result?).length = 3 ∧
      (GPUSortBase.TestAll exampleWideBase (fun _ _ => true)).testsExpected = 2147483652 := by
  rw [DeviceRadixSort.TestAll_wide, GPUSortBase.TestAll_base_wide]
  refine ⟨rfl, ?_, ?_, rfl, rfl, ?_, rfl, rfl⟩
  · intro ev hev
    simp only [List.mem_append, List.mem_cons, List.mem_map, List.mem_singleton,
      List.not_mem_nil, or_false] at hev
    rcases hev with ((h | ⟨i, _, h⟩) | ⟨t, _, h⟩) | h <;> subst h <;> simp [TestEvent.result?]
  · simp only [List.filterMap_append, List.filterMap_cons, TestEvent.result?,
      List.filterMap_nil, filterMap_result_sorts (fun _ _ => true),
      filterMap_result_scans (fun _ => true), List.length_append, List.length_map,
      List.length_range', List.length_nil]
    rfl
  · intro ev hev
    simp only [List.mem_map] at hev
    obtain ⟨t, _, h⟩ := hev
    subst h
    simp [TestEvent.result?]

namespace DeviceRadixSort

end DeviceRadixSort

namespace Host

open DeviceRadixSort

end Host

namespace DeviceRadixSort

end DeviceRadixSort

namespace DeviceRadixSort

end DeviceRadixSort

namespace Host

open DeviceRadixSort

end Host

namespace DeviceRadixSort

end DeviceRadixSort

end Int64RadixSort

